import Mathlib

/-!
Koffan shopping-list server: batch-transaction and list-ordering handlers.

A shallow embedding of the REST handlers of `api/batch.go` and `api/lists.go`
(with the request and response shapes of `api/responses.go`) over an explicit
store state.

* Handlers are embedded from the Go source, statement by statement.  A handler
  takes the committed store and returns the response, the committed store after
  the call, and the log of the store calls and broadcasts it issued.
* The query layer (package `db`: `CreateListTx`, `GetMaxItemOrderTx`,
  `MoveListUp`, ...) is called by the handlers but is not part of the sources at
  hand; its functions are modelled from the specification and marked so.
* The handlers of the section and item routes registered in `api/api.go` are
  not part of the sources at hand either; what a create, move or delete call of
  these routes does to the store is modelled from the specification.
* Store failures are injected by a fault schedule: the store call logged at
  position `n` fails exactly when `fault n` holds.
* Go `int`/`int64` values are embedded as `Int`; the sort orders and ids the API
  produces are bounded by the number of rows, so 64-bit wrap-around is out of
  reach and is not modelled.  `len(s)` on a Go string is the UTF-8 byte length.
* Timestamps and concurrent requests are not modelled: a transaction works on a
  snapshot of the committed store taken at `Begin`.
-/

namespace Koffan

/-! ## Data model -/

/-- Modelled from the spec: the derived statistics of a list ("derived stats
(item/section counts)"); the Go type returned by `db.GetListStats` is not among
the sources. -/
structure ListStats where
  section_count : Nat
  item_count : Nat
deriving DecidableEq, Repr

/-- Row of the lists table (`db.List`): id, name, icon, sort_order, stats. -/
structure DbList where
  id : Int
  name : String
  icon : String
  sort_order : Int
  stats : Option ListStats
deriving DecidableEq, Repr

/-- Row of the items table (`db.Item`). -/
structure DbItem where
  id : Int
  section_id : Int
  name : String
  description : String
  completed : Bool
  uncertain : Bool
  sort_order : Int
deriving DecidableEq, Repr

/-- Row of the sections table (`db.Section`); `items` is filled by handlers. -/
structure DbSection where
  id : Int
  list_id : Int
  name : String
  sort_order : Int
  items : List DbItem
deriving DecidableEq, Repr

/-- Item-name history row: the name and the section it was used in. -/
structure HistoryEntry where
  name : String
  section_id : Int
deriving DecidableEq, Repr

/-- The store: the three entity tables, the history table and the
auto-increment counters of the three primary keys. -/
structure Store where
  lists : List DbList
  sections : List DbSection
  items : List DbItem
  history : List HistoryEntry
  nextListID : Int
  nextSectionID : Int
  nextItemID : Int
deriving DecidableEq, Repr

/-! ## Request and response shapes (`api/responses.go`) -/

/-- The type `ErrorResponse` of responses.go. -/
structure ErrorResponse where
  error : String
  message : String
deriving DecidableEq, Repr

/-- The type `BatchItemInput` of responses.go. -/
structure BatchItemInput where
  name : String
  description : String
deriving DecidableEq, Repr

/-- The type `BatchSectionInput` of responses.go. -/
structure BatchSectionInput where
  name : String
  items : List BatchItemInput
deriving DecidableEq, Repr

/-- The type `BatchListInput` of responses.go. -/
structure BatchListInput where
  name : String
  icon : String
  sections : List BatchSectionInput
deriving DecidableEq, Repr

/-- The type `BatchCreateRequest` of responses.go; a nil `List` pointer is
`none`, an absent `list_id`/`section_id` is `0`, an absent array is `[]`. -/
structure BatchCreateRequest where
  list : Option BatchListInput
  list_id : Int
  sections : List BatchSectionInput
  section_id : Int
  items : List BatchItemInput
deriving DecidableEq, Repr

/-- The type `BatchCreateResponse` of responses.go. -/
structure BatchCreateResponse where
  list : Option DbList
  sections : List DbSection
  items : List DbItem
deriving DecidableEq, Repr

/-- The type `CreateListRequest` of responses.go. -/
structure CreateListRequest where
  name : String
  icon : String
deriving DecidableEq, Repr

/-- The type `UpdateListRequest` of responses.go. -/
structure UpdateListRequest where
  name : String
  icon : String
deriving DecidableEq, Repr

/-- The type `CreateSectionRequest` of responses.go. -/
structure CreateSectionRequest where
  list_id : Int
  name : String
deriving DecidableEq, Repr

/-- The type `CreateItemRequest` of responses.go. -/
structure CreateItemRequest where
  section_id : Int
  name : String
  description : String
deriving DecidableEq, Repr

/-- The type `MoveItemRequest` of responses.go. -/
structure MoveItemRequest where
  section_id : Int
deriving DecidableEq, Repr

/-- JSON body written by a handler. -/
inductive Body where
  | error (e : ErrorResponse)
  | list (l : Option DbList)
  | lists (ls : List DbList)
  | sections (ss : List DbSection)
  | batch (b : BatchCreateResponse)
  | empty
deriving DecidableEq, Repr

/-- HTTP response: status code and body. -/
structure Response where
  status : Nat
  body : Body
deriving DecidableEq, Repr

/-- Payload handed to `handlers.BroadcastUpdate`. -/
inductive Payload where
  | null
  | list (l : DbList)
  | list_id (id : Int)
  | section_id (id : Int)
  | id (id : Int)
deriving DecidableEq, Repr

/-- One entry of the call log: a call into package `db` (with its arguments
and, for fallible writes, whether it succeeded) or a broadcast. -/
inductive Event where
  | GetAllLists
  | GetListByID (id : Int)
  | GetSectionByID (id : Int)
  | GetSectionsByList (id : Int)
  | GetListStats (id : Int)
  | Begin (ok : Bool)
  | Commit (ok : Bool)
  | Rollback
  | GetMaxSectionOrderTx (listID : Int) (result : Int)
  | GetMaxItemOrderTx (sectionID : Int) (result : Int)
  | CreateListTx (name icon : String) (ok : Bool)
  | CreateSectionForListTx (listID : Int) (name : String) (sortOrder : Int) (ok : Bool)
  | CreateItemTx (sectionID : Int) (name description : String) (sortOrder : Int) (ok : Bool)
  | SaveItemHistoryTx (name : String) (sectionID : Int) (ok : Bool)
  | CreateList (name icon : String) (ok : Bool)
  | UpdateList (id : Int) (name icon : String) (ok : Bool)
  | DeleteList (id : Int) (ok : Bool)
  | MoveListUp (id : Int) (ok : Bool)
  | MoveListDown (id : Int) (ok : Bool)
  | BroadcastUpdate (eventType : String) (payload : Payload)
deriving DecidableEq, Repr

/-- Fault schedule: the store call logged at position `n` fails iff `fault n`. -/
abbrev Fault := Nat → Bool

/-- The schedule without store failures. -/
def noFault : Fault := fun _ => false

/-- Running state of one handler call: committed store and call log. -/
structure Env where
  store : Store
  log : List Event
deriving DecidableEq, Repr

/-- Append an event to the call log. -/
def Env.record (e : Env) (ev : Event) : Env :=
  { e with log := e.log ++ [ev] }

/-- What a handler call leaves behind: response, committed store, call log. -/
structure Outcome where
  resp : Response
  store : Store
  log : List Event
deriving DecidableEq, Repr

/-- Errors returned by the query layer: `sql.ErrNoRows` or any other error. -/
inductive DbError where
  | ErrNoRows
  | other
deriving DecidableEq, Repr

/-! ## Constants -/

/-- Constant `MaxListNameLength` of lists.go. -/
def MaxListNameLength : Nat := 100

/-- Constant `MaxIconLength` of lists.go. -/
def MaxIconLength : Nat := 20

/-- Modelled from the spec: `MaxSectionNameLength` is declared in a source file
that is not at hand; the data model gives "name (≤100 chars)" and the handler
message says 100. -/
def MaxSectionNameLength : Nat := 100

/-- Modelled from the spec: `MaxItemNameLength` is declared in a source file
that is not at hand; the data model gives "name (≤200 chars)" and the handler
message says 200. -/
def MaxItemNameLength : Nat := 200

/-- Modelled from the spec: `MaxDescriptionLength` is declared in a source file
that is not at hand; the data model gives "description (≤500 chars)" and the
handler message says 500. -/
def MaxDescriptionLength : Nat := 500

/-- Go `len(s)` on a string: the number of bytes of its UTF-8 encoding. -/
def len (s : String) : Nat := s.utf8ByteSize

/-! ## Query layer (package `db`), modelled from the specification -/

/-- A transaction handle: the working copy of the store, a snapshot of the
committed store taken when the transaction began. -/
abbrev Tx := Store

/-- Modelled from the spec: `GetMaxOrder(scopeID)` "returns the highest existing
sort_order in a scope, or a sentinel (e.g., -1) when the scope is empty"; this
is that function on the sort orders of one scope. -/
def maxOrder : List Int → Int
  | [] => -1
  | o :: os => os.foldl max o

/-- Sort orders of the scope "all lists". -/
def Store.listOrders (s : Store) : List Int :=
  s.lists.map (fun l => l.sort_order)

/-- Sort orders of the scope "sections of list `listID`". -/
def Store.sectionOrders (s : Store) (listID : Int) : List Int :=
  (s.sections.filter (fun x => x.list_id == listID)).map (fun x => x.sort_order)

/-- Sort orders of the scope "items of section `sectionID`". -/
def Store.itemOrders (s : Store) (sectionID : Int) : List Int :=
  (s.items.filter (fun x => x.section_id == sectionID)).map (fun x => x.sort_order)

/-- Modelled from the spec: the row insert behind `db.CreateList` and
`db.CreateListTx` (neither is among the sources): a fresh id, the given name
and icon, appended after the current maximum list order. -/
def Store.insertList (s : Store) (name icon : String) : DbList × Store :=
  let l : DbList :=
    { id := s.nextListID, name := name, icon := icon,
      sort_order := maxOrder s.listOrders + 1, stats := none }
  (l, { s with lists := s.lists ++ [l], nextListID := s.nextListID + 1 })

/-- Modelled from the spec: the row insert behind `db.CreateSectionForListTx`
(not among the sources): a fresh id and the parent, name and sort order passed
by the caller. -/
def Store.insertSection (s : Store) (listID : Int) (name : String) (sortOrder : Int) :
    DbSection × Store :=
  let x : DbSection :=
    { id := s.nextSectionID, list_id := listID, name := name,
      sort_order := sortOrder, items := [] }
  (x, { s with sections := s.sections ++ [x], nextSectionID := s.nextSectionID + 1 })

/-- Modelled from the spec: the row insert behind `db.CreateItemTx` (not among
the sources): a fresh id and the parent, name, description and sort order
passed by the caller; a new item is neither completed nor uncertain. -/
def Store.insertItem (s : Store) (sectionID : Int) (name description : String)
    (sortOrder : Int) : DbItem × Store :=
  let x : DbItem :=
    { id := s.nextItemID, section_id := sectionID, name := name,
      description := description, completed := false, uncertain := false,
      sort_order := sortOrder }
  (x, { s with items := s.items ++ [x], nextItemID := s.nextItemID + 1 })

/-- Modelled from the spec: `Record(itemName, scopeID)` "persists or refreshes a
(name, scope) pair", "deduplicating/bumping recency": an existing entry for the
pair is dropped and the pair is appended as the most recent one. -/
def Store.saveItemHistory (s : Store) (name : String) (sectionID : Int) : Store :=
  let h : HistoryEntry := { name := name, section_id := sectionID }
  { s with history := s.history.filter (fun x => !(x == h)) ++ [h] }

/-- The first row with the given id, if any. -/
def Store.findList (s : Store) (id : Int) : Option DbList :=
  s.lists.find? (fun l => l.id == id)

/-- The first section row with the given id, if any. -/
def Store.findSection (s : Store) (id : Int) : Option DbSection :=
  s.sections.find? (fun x => x.id == id)

/-- The list with the greatest sort order among `ls` (the first such). -/
def pickHighest : List DbList → Option DbList
  | [] => none
  | l :: ls =>
    match pickHighest ls with
    | none => some l
    | some m => if m.sort_order > l.sort_order then some m else some l

/-- The list with the least sort order among `ls` (the first such). -/
def pickLowest : List DbList → Option DbList
  | [] => none
  | l :: ls =>
    match pickLowest ls with
    | none => some l
    | some m => if m.sort_order < l.sort_order then some m else some l

/-- `UPDATE lists SET sort_order = o WHERE id = id`. -/
def setListOrder (ls : List DbList) (id : Int) (o : Int) : List DbList :=
  ls.map (fun l => if l.id == id then { l with sort_order := o } else l)

/-- Modelled from the spec: `MoveUp(entityID)` "swap the target entity's
sort_order with its immediate neighbor (the entity with the next-lower
sort_order in the same sibling scope)", "No-op (not an error) when the entity
is already first", "Fails with NotFound when the entity id does not exist"
(`none`).  `db.MoveListUp` is not among the sources. -/
def Store.moveListUp (s : Store) (id : Int) : Option Store :=
  match s.findList id with
  | none => none
  | some cur =>
    match pickHighest (s.lists.filter (fun l => l.sort_order < cur.sort_order)) with
    | none => some s
    | some nb =>
      some { s with lists :=
        setListOrder (setListOrder s.lists cur.id nb.sort_order) nb.id cur.sort_order }

/-- Modelled from the spec: `MoveDown(entityID)`, the mirror image of `MoveUp`
with the next-higher neighbour; no-op when the entity is already last.
`db.MoveListDown` is not among the sources. -/
def Store.moveListDown (s : Store) (id : Int) : Option Store :=
  match s.findList id with
  | none => none
  | some cur =>
    match pickLowest (s.lists.filter (fun l => l.sort_order > cur.sort_order)) with
    | none => some s
    | some nb =>
      some { s with lists :=
        setListOrder (setListOrder s.lists cur.id nb.sort_order) nb.id cur.sort_order }

/-- Modelled from the spec: the place of the sort order `o` among the sort
orders `os` of its scope, counted from zero: the number of rows of the scope
that stand before it. -/
def rank (os : List Int) (o : Int) : Int :=
  ((os.filter (fun x => decide (x < o))).length : Int)

/-- Modelled from the spec: the "order-compaction" operation of the Ordering
Engine on the scope "all lists": the rows keep their relative order and get the
sort orders `0, 1, ...`, so that the scope is "contiguous, gap-free,
zero-based" again.  No compaction query is among the sources. -/
def compactLists (ls : List DbList) : List DbList :=
  ls.map (fun l => { l with sort_order := rank (ls.map (fun x => x.sort_order)) l.sort_order })

/-- Modelled from the spec: order compaction on the scope "sections of list
`listID`"; the rows of other lists are left as they are. -/
def compactSections (xs : List DbSection) (listID : Int) : List DbSection :=
  xs.map (fun x =>
    if x.list_id == listID then
      { x with sort_order :=
          (rank ((xs.filter (fun y => y.list_id == listID)).map (fun y => y.sort_order))
            x.sort_order) }
    else x)

/-- Modelled from the spec: order compaction on the scope "items of section
`sectionID`"; the rows of other sections are left as they are. -/
def compactItems (xs : List DbItem) (sectionID : Int) : List DbItem :=
  xs.map (fun x =>
    if x.section_id == sectionID then
      { x with sort_order :=
          (rank ((xs.filter (fun y => y.section_id == sectionID)).map (fun y => y.sort_order))
            x.sort_order) }
    else x)

/-- Modelled from the spec: `Delete (cascades to children via store-enforced
foreign keys)`: the list row goes, with its sections and their items; the
invariant of the data model ("contiguous, gap-free, zero-based", which "must
hold before and after every mutating operation") is kept by compacting the
sort orders of the remaining lists.  `db.DeleteList` is not among the
sources. -/
def Store.deleteList (s : Store) (id : Int) : Store :=
  let gone := (s.sections.filter (fun x => x.list_id == id)).map (fun x => x.id)
  { s with
    lists := compactLists (s.lists.filter (fun l => !(l.id == id))),
    sections := s.sections.filter (fun x => !(x.list_id == id)),
    items := s.items.filter (fun x => !(gone.contains x.section_id)) }

/-- Modelled from the spec: `Update (partial: unset fields retain previous
value)`; the handler resolves the unset fields, the store writes both.
`db.UpdateList` is not among the sources. -/
def Store.updateList (s : Store) (id : Int) (name icon : String) : Store :=
  { s with lists :=
      s.lists.map (fun l => if l.id == id then { l with name := name, icon := icon } else l) }

/-- Modelled from the spec: "derived stats (item/section counts)" of a list. -/
def Store.listStats (s : Store) (id : Int) : ListStats :=
  let secs := (s.sections.filter (fun x => x.list_id == id)).map (fun x => x.id)
  { section_count := secs.length,
    item_count := (s.items.filter (fun x => secs.contains x.section_id)).length }

/-! ### Sections and items: the operations behind the section and item routes

The handlers `CreateSection`, `DeleteSection`, `MoveSectionUp`,
`MoveSectionDown`, `CreateItem`, `DeleteItem`, `MoveItem`, `MoveItemUp` and
`MoveItemDown` registered in api.go, and the queries they call, are not among
the sources.  What such a call does to the committed store is modelled from
the specification; a call that is rejected (validation, unknown id) leaves the
store as it was. -/

/-- The first item row with the given id, if any. -/
def Store.findItem (s : Store) (id : Int) : Option DbItem :=
  s.items.find? (fun x => x.id == id)

/-- The row with the greatest sort order among `xs` (the first such); the
sort order of a row is given by `ord`. -/
def highestBy {α : Type} (ord : α → Int) : List α → Option α
  | [] => none
  | x :: xs =>
    match highestBy ord xs with
    | none => some x
    | some m => if ord m > ord x then some m else some x

/-- The row with the least sort order among `xs` (the first such). -/
def lowestBy {α : Type} (ord : α → Int) : List α → Option α
  | [] => none
  | x :: xs =>
    match lowestBy ord xs with
    | none => some x
    | some m => if ord m < ord x then some m else some x

/-- `UPDATE sections SET sort_order = o WHERE id = id`. -/
def setSectionOrder (xs : List DbSection) (id : Int) (o : Int) : List DbSection :=
  xs.map (fun x => if x.id == id then { x with sort_order := o } else x)

/-- `UPDATE items SET sort_order = o WHERE id = id`. -/
def setItemOrder (xs : List DbItem) (id : Int) (o : Int) : List DbItem :=
  xs.map (fun x => if x.id == id then { x with sort_order := o } else x)

/-- Modelled from the spec: the handler `CreateSection` (POST /sections), not
among the sources: "Validation (name required, length ceilings per entity
type)", "Referencing a nonexistent list/section id fails with NotFound", and the
new section is appended after `GetMaxOrder` of its list ("used to append new
siblings after existing ones"). -/
def Store.createSection (s : Store) (req : CreateSectionRequest) : Store :=
  if req.name = "" ∨ len req.name > MaxSectionNameLength then s
  else
    match s.findList req.list_id with
    | none => s
    | some _ =>
      (s.insertSection req.list_id req.name (maxOrder (s.sectionOrders req.list_id) + 1)).2

/-- Modelled from the spec: the handler `CreateItem` (POST /items), not among
the sources: validation, NotFound for an unknown section, the new item
appended after `GetMaxOrder` of its section, and the history written "once per
item at creation time". -/
def Store.createItem (s : Store) (req : CreateItemRequest) : Store :=
  if req.name = "" ∨ len req.name > MaxItemNameLength ∨
      len req.description > MaxDescriptionLength then s
  else
    match s.findSection req.section_id with
    | none => s
    | some _ =>
      ((s.insertItem req.section_id req.name req.description
        (maxOrder (s.itemOrders req.section_id) + 1)).2).saveItemHistory req.name
        req.section_id

/-- Modelled from the spec: `MoveUp(entityID)` on a section (the handler
`MoveSectionUp`, not among the sources): swap with "the entity with the
next-lower sort_order in the same sibling scope", here the sections of the same
list; no-op when the section is first or unknown. -/
def Store.moveSectionUp (s : Store) (id : Int) : Store :=
  match s.findSection id with
  | none => s
  | some cur =>
    match highestBy (fun x => x.sort_order) (s.sections.filter (fun x =>
        x.list_id == cur.list_id && decide (x.sort_order < cur.sort_order))) with
    | none => s
    | some nb =>
      { s with sections :=
          (setSectionOrder (setSectionOrder s.sections cur.id nb.sort_order) nb.id
            cur.sort_order) }

/-- Modelled from the spec: `MoveDown(entityID)` on a section (the handler
`MoveSectionDown`, not among the sources), the mirror image of `MoveUp`. -/
def Store.moveSectionDown (s : Store) (id : Int) : Store :=
  match s.findSection id with
  | none => s
  | some cur =>
    match lowestBy (fun x => x.sort_order) (s.sections.filter (fun x =>
        x.list_id == cur.list_id && decide (x.sort_order > cur.sort_order))) with
    | none => s
    | some nb =>
      { s with sections :=
          (setSectionOrder (setSectionOrder s.sections cur.id nb.sort_order) nb.id
            cur.sort_order) }

/-- Modelled from the spec: `MoveUp(entityID)` on an item (the handler
`MoveItemUp`, not among the sources); the sibling scope is the items of the
same section. -/
def Store.moveItemUp (s : Store) (id : Int) : Store :=
  match s.findItem id with
  | none => s
  | some cur =>
    match highestBy (fun x => x.sort_order) (s.items.filter (fun x =>
        x.section_id == cur.section_id && decide (x.sort_order < cur.sort_order))) with
    | none => s
    | some nb =>
      { s with items :=
          setItemOrder (setItemOrder s.items cur.id nb.sort_order) nb.id cur.sort_order }

/-- Modelled from the spec: `MoveDown(entityID)` on an item (the handler
`MoveItemDown`, not among the sources). -/
def Store.moveItemDown (s : Store) (id : Int) : Store :=
  match s.findItem id with
  | none => s
  | some cur =>
    match lowestBy (fun x => x.sort_order) (s.items.filter (fun x =>
        x.section_id == cur.section_id && decide (x.sort_order > cur.sort_order))) with
    | none => s
    | some nb =>
      { s with items :=
          setItemOrder (setItemOrder s.items cur.id nb.sort_order) nb.id cur.sort_order }

/-- Modelled from the spec: `Delete` of a section (the handler `DeleteSection`,
not among the sources): the section row goes with its items ("Deleting a
Section cascades delete of its Items"), and the sort orders of the remaining
sections of its list are compacted, as the invariant of the data model
requires after every mutating operation. -/
def Store.deleteSection (s : Store) (id : Int) : Store :=
  match s.findSection id with
  | none => s
  | some cur =>
    { s with
      sections := compactSections (s.sections.filter (fun x => !(x.id == id))) cur.list_id,
      items := s.items.filter (fun x => !(x.section_id == id)) }

/-- Modelled from the spec: `Delete` of an item (the handler `DeleteItem`, not
among the sources): the item row goes and the sort orders of the remaining
items of its section are compacted. -/
def Store.deleteItem (s : Store) (id : Int) : Store :=
  match s.findItem id with
  | none => s
  | some cur =>
    { s with items := compactItems (s.items.filter (fun x => !(x.id == id))) cur.section_id }

/-- Modelled from the spec: "Move-item request: {section_id} to relocate an
item to a different section (appended at end)" (the handler `MoveItem`, not
among the sources): the item gets the new parent and the sort order after
`GetMaxOrder` of the target section, and the sort orders of the section it
leaves are compacted; an unknown item or target section changes nothing. -/
def Store.moveItem (s : Store) (id : Int) (req : MoveItemRequest) : Store :=
  match s.findItem id, s.findSection req.section_id with
  | some cur, some _ =>
    { s with items :=
        (compactItems
          (s.items.map (fun x =>
            if x.id == id then
              { x with section_id := req.section_id,
                       sort_order := maxOrder (s.itemOrders req.section_id) + 1 }
            else x))
          cur.section_id) }
  | _, _ => s

/-! ### Store calls: fault injection and logging around the store model -/

/-- Call `db.GetListByID(id)` on the committed store. -/
def db.GetListByID (fault : Fault) (e : Env) (id : Int) : Except DbError DbList × Env :=
  let e1 := e.record (.GetListByID id)
  if fault e.log.length then (.error .other, e1)
  else match e.store.findList id with
    | none => (.error .ErrNoRows, e1)
    | some l => (.ok l, e1)

/-- Call `db.GetSectionByID(id)` on the committed store. -/
def db.GetSectionByID (fault : Fault) (e : Env) (id : Int) :
    Except DbError DbSection × Env :=
  let e1 := e.record (.GetSectionByID id)
  if fault e.log.length then (.error .other, e1)
  else match e.store.findSection id with
    | none => (.error .ErrNoRows, e1)
    | some x => (.ok x, e1)

/-- Call `db.GetSectionsByList(id)` on the committed store. -/
def db.GetSectionsByList (fault : Fault) (e : Env) (id : Int) :
    Option (List DbSection) × Env :=
  let e1 := e.record (.GetSectionsByList id)
  if fault e.log.length then (none, e1)
  else (some (e.store.sections.filter (fun x => x.list_id == id)), e1)

/-- Call `db.GetListStats(id)`; it returns no error. -/
def db.GetListStats (e : Env) (id : Int) : ListStats × Env :=
  (e.store.listStats id, e.record (.GetListStats id))

/-- Call `db.DB.Begin()`: the transaction starts from the committed store. -/
def db.Begin (fault : Fault) (e : Env) : Option Tx × Env :=
  if fault e.log.length then (none, e.record (.Begin false))
  else (some e.store, e.record (.Begin true))

/-- Call `tx.Commit()`: on success the working copy becomes the committed
store; on failure the committed store keeps its value. -/
def db.Commit (fault : Fault) (e : Env) (tx : Tx) : Bool × Env :=
  if fault e.log.length then (false, e.record (.Commit false))
  else (true, { store := tx, log := e.log ++ [.Commit true] })

/-- The deferred `tx.Rollback()`: the working copy is dropped; the committed
store is not touched (after a commit the call has no effect). -/
def db.Rollback (e : Env) : Env :=
  e.record .Rollback

/-- Call `db.GetMaxSectionOrderTx(tx, listID)`; it returns no error. -/
def db.GetMaxSectionOrderTx (e : Env) (tx : Tx) (listID : Int) : Int × Env :=
  let m := maxOrder (tx.sectionOrders listID)
  (m, e.record (.GetMaxSectionOrderTx listID m))

/-- Call `db.GetMaxItemOrderTx(tx, sectionID)`; it returns no error. -/
def db.GetMaxItemOrderTx (e : Env) (tx : Tx) (sectionID : Int) : Int × Env :=
  let m := maxOrder (tx.itemOrders sectionID)
  (m, e.record (.GetMaxItemOrderTx sectionID m))

/-- Call `db.CreateListTx(tx, name, icon)`. -/
def db.CreateListTx (fault : Fault) (e : Env) (tx : Tx) (name icon : String) :
    Option DbList × Tx × Env :=
  if fault e.log.length then (none, tx, e.record (.CreateListTx name icon false))
  else ((some (tx.insertList name icon).1), (tx.insertList name icon).2,
    e.record (.CreateListTx name icon true))

/-- Call `db.CreateSectionForListTx(tx, listID, name, sortOrder)`. -/
def db.CreateSectionForListTx (fault : Fault) (e : Env) (tx : Tx) (listID : Int)
    (name : String) (sortOrder : Int) : Option DbSection × Tx × Env :=
  if fault e.log.length then
    (none, tx, e.record (.CreateSectionForListTx listID name sortOrder false))
  else (some (tx.insertSection listID name sortOrder).1,
    (tx.insertSection listID name sortOrder).2,
    e.record (.CreateSectionForListTx listID name sortOrder true))

/-- Call `db.CreateItemTx(tx, sectionID, name, description, sortOrder)`. -/
def db.CreateItemTx (fault : Fault) (e : Env) (tx : Tx) (sectionID : Int)
    (name description : String) (sortOrder : Int) : Option DbItem × Tx × Env :=
  if fault e.log.length then
    (none, tx, e.record (.CreateItemTx sectionID name description sortOrder false))
  else (some (tx.insertItem sectionID name description sortOrder).1,
    (tx.insertItem sectionID name description sortOrder).2,
    e.record (.CreateItemTx sectionID name description sortOrder true))

/-- Call `db.SaveItemHistoryTx(tx, name, sectionID)`; a failed write leaves the
working copy as it was.  The callers do not look at its result. -/
def db.SaveItemHistoryTx (fault : Fault) (e : Env) (tx : Tx) (name : String)
    (sectionID : Int) : Tx × Env :=
  if fault e.log.length then (tx, e.record (.SaveItemHistoryTx name sectionID false))
  else (tx.saveItemHistory name sectionID, e.record (.SaveItemHistoryTx name sectionID true))

/-- Call `db.CreateList(name, icon)` on the committed store. -/
def db.CreateList (fault : Fault) (e : Env) (name icon : String) : Option DbList × Env :=
  if fault e.log.length then (none, e.record (.CreateList name icon false))
  else (some (e.store.insertList name icon).1,
    { store := (e.store.insertList name icon).2,
      log := e.log ++ [.CreateList name icon true] })

/-- Call `db.UpdateList(id, name, icon)`: returns the updated row. -/
def db.UpdateList (fault : Fault) (e : Env) (id : Int) (name icon : String) :
    Option DbList × Env :=
  if fault e.log.length then (none, e.record (.UpdateList id name icon false))
  else match (e.store.updateList id name icon).findList id with
    | none => (none, e.record (.UpdateList id name icon false))
    | some l => (some l,
        { store := e.store.updateList id name icon,
          log := e.log ++ [.UpdateList id name icon true] })

/-- Call `db.DeleteList(id)`. -/
def db.DeleteList (fault : Fault) (e : Env) (id : Int) : Bool × Env :=
  if fault e.log.length then (false, e.record (.DeleteList id false))
  else (true, { store := e.store.deleteList id, log := e.log ++ [.DeleteList id true] })

/-- Call `db.MoveListUp(id)`. -/
def db.MoveListUp (fault : Fault) (e : Env) (id : Int) : Bool × Env :=
  if fault e.log.length then (false, e.record (.MoveListUp id false))
  else match e.store.moveListUp id with
    | none => (false, e.record (.MoveListUp id false))
    | some s => (true, { store := s, log := e.log ++ [.MoveListUp id true] })

/-- Call `db.MoveListDown(id)`. -/
def db.MoveListDown (fault : Fault) (e : Env) (id : Int) : Bool × Env :=
  if fault e.log.length then (false, e.record (.MoveListDown id false))
  else match e.store.moveListDown id with
    | none => (false, e.record (.MoveListDown id false))
    | some s => (true, { store := s, log := e.log ++ [.MoveListDown id true] })

/-- Call `handlers.BroadcastUpdate(eventType, payload)`. -/
def handlers.BroadcastUpdate (e : Env) (eventType : String) (payload : Payload) : Env :=
  e.record (.BroadcastUpdate eventType payload)

/-! ## `api/responses.go`: icon aliases -/

/-- The table `iconAliases` of responses.go. -/
def iconAliases : List (String × String) :=
  [("cart", "🛒"), ("shopping", "🛒"), ("home", "🏠"), ("house", "🏠"),
   ("gift", "🎁"), ("present", "🎁"), ("christmas", "🎄"), ("xmas", "🎄"),
   ("birthday", "🎂"), ("cake", "🎂"), ("food", "🍕"), ("pizza", "🍕"),
   ("salad", "🥗"), ("healthy", "🥗"), ("medicine", "💊"), ("health", "💊"),
   ("pills", "💊"), ("pet", "🐕"), ("pets", "🐕"), ("dog", "🐕"),
   ("cleaning", "🧹"), ("clean", "🧹"), ("package", "📦"), ("packages", "📦"),
   ("box", "📦"), ("travel", "✈️"), ("trip", "✈️"), ("flight", "✈️"),
   ("fitness", "🏋️"), ("gym", "🏋️"), ("workout", "🏋️"), ("books", "📚"),
   ("book", "📚"), ("reading", "📚"), ("tools", "🛠️"), ("tool", "🛠️"),
   ("work", "💼"), ("office", "💼"), ("business", "💼")]

/-- The function `NormalizeIcon` of responses.go. -/
def NormalizeIcon (icon : String) : String :=
  if icon = "" then ""
  else match iconAliases.lookup icon with
    | some emoji => emoji
    | none => icon

/-- Build the JSON error response `c.Status(status).JSON(ErrorResponse ...)`. -/
def errorJSON (status : Nat) (error message : String) : Response :=
  { status := status, body := .error { error := error, message := message } }

/-! ## `api/batch.go` -/

/-- Validation loop over the items of one section in `batchCreateNewList`
(batch.go, lines 66-85): name required, name length, description length. -/
def batchCreateNewList.validateItems : List BatchItemInput → Option Response
  | [] => none
  | item :: rest =>
    if item.name = "" then
      some (errorJSON 400 "validation_error" "Item name is required")
    else if len item.name > MaxItemNameLength then
      some (errorJSON 400 "validation_error"
        "Item name exceeds maximum length of 200 characters")
    else if len item.description > MaxDescriptionLength then
      some (errorJSON 400 "validation_error"
        "Item description exceeds maximum length of 500 characters")
    else batchCreateNewList.validateItems rest

/-- Validation loop over the sections in `batchCreateNewList` (batch.go, lines
53-86). -/
def batchCreateNewList.validateSections : List BatchSectionInput → Option Response
  | [] => none
  | x :: rest =>
    if x.name = "" then
      some (errorJSON 400 "validation_error" "Section name is required")
    else if len x.name > MaxSectionNameLength then
      some (errorJSON 400 "validation_error"
        "Section name exceeds maximum length of 100 characters")
    else match batchCreateNewList.validateItems x.items with
      | some r => some r
      | none => batchCreateNewList.validateSections rest

/-- Validation loop over the items of one section in `batchAddToList`
(batch.go, lines 195-208): name required, name length. -/
def batchAddToList.validateItems : List BatchItemInput → Option Response
  | [] => none
  | item :: rest =>
    if item.name = "" then
      some (errorJSON 400 "validation_error" "Item name is required")
    else if len item.name > MaxItemNameLength then
      some (errorJSON 400 "validation_error"
        "Item name exceeds maximum length of 200 characters")
    else batchAddToList.validateItems rest

/-- Validation loop over the sections in `batchAddToList` (batch.go, lines
182-209). -/
def batchAddToList.validateSections : List BatchSectionInput → Option Response
  | [] => none
  | x :: rest =>
    if x.name = "" then
      some (errorJSON 400 "validation_error" "Section name is required")
    else if len x.name > MaxSectionNameLength then
      some (errorJSON 400 "validation_error"
        "Section name exceeds maximum length of 100 characters")
    else match batchAddToList.validateItems x.items with
      | some r => some r
      | none => batchAddToList.validateSections rest

/-- Validation loop over the items in `batchAddToSection` (batch.go, lines
293-306): name required, name length. -/
def batchAddToSection.validateItems : List BatchItemInput → Option Response
  | [] => none
  | item :: rest =>
    if item.name = "" then
      some (errorJSON 400 "validation_error" "Item name is required")
    else if len item.name > MaxItemNameLength then
      some (errorJSON 400 "validation_error"
        "Item name exceeds maximum length of 200 characters")
    else batchAddToSection.validateItems rest

/-- State of the section loops: the accumulated `sections` and `items` slices,
the working copy and the environment. -/
structure LoopState where
  sections : List DbSection
  items : List DbItem
  tx : Tx
  env : Env
deriving DecidableEq, Repr

/-- The inner loop `for itemOrder, itemInput := range sectionInput.Items` of
`batchCreateNewList` (batch.go, lines 122-135) and, word for word, of
`batchAddToList` (lines 238-250).  `itemOrder` is the loop index, `sectionItems`
and `items` are the two slices appended to; an insert error returns. -/
def createSectionItems (fault : Fault) (sectionID : Int) :
    List BatchItemInput → Nat → List DbItem → List DbItem → Tx → Env →
      Except (Response × Env) (List DbItem × List DbItem × Tx × Env)
  | [], _, sectionItems, items, tx, e => .ok (sectionItems, items, tx, e)
  | itemInput :: rest, itemOrder, sectionItems, items, tx, e =>
    match db.CreateItemTx fault e tx sectionID itemInput.name itemInput.description
        itemOrder with
    | (none, _, e1) =>
      .error (errorJSON 500 "create_failed" ("Failed to create item: " ++ itemInput.name), e1)
    | (some item, tx1, e1) =>
      match db.SaveItemHistoryTx fault e1 tx1 itemInput.name sectionID with
      | (tx2, e2) =>
        createSectionItems fault sectionID rest (itemOrder + 1) (sectionItems ++ [item])
          (items ++ [item]) tx2 e2

/-- The outer loop over the input sections of `batchCreateNewList` (batch.go,
lines 112-139, with `order i = i`) and of `batchAddToList` (lines 228-254, with
`order i = baseSectionOrder + i`); `i` is the loop index. -/
def createSections (fault : Fault) (listID : Int) (order : Nat → Int) :
    List BatchSectionInput → Nat → LoopState → Except (Response × Env) LoopState
  | [], _, st => .ok st
  | sectionInput :: rest, i, st =>
    match db.CreateSectionForListTx fault st.env st.tx listID sectionInput.name (order i) with
    | (none, _, e1) =>
      .error (errorJSON 500 "create_failed"
        ("Failed to create section: " ++ sectionInput.name), e1)
    | (some sec, tx1, e1) =>
      match createSectionItems fault sec.id sectionInput.items 0 [] st.items tx1 e1 with
      | .error r => .error r
      | .ok (sectionItems, items, tx2, e2) =>
        createSections fault listID order rest (i + 1)
          { sections := st.sections ++ [{ sec with items := sectionItems }],
            items := items, tx := tx2, env := e2 }

/-- The function `batchCreateNewList` of batch.go; `l` is `*req.List`. -/
def batchCreateNewList (fault : Fault) (e : Env) (l : BatchListInput) : Response × Env :=
  if l.name = "" then
    (errorJSON 400 "validation_error" "List name is required", e)
  else if len l.name > MaxListNameLength then
    (errorJSON 400 "validation_error" "List name exceeds maximum length of 100 characters", e)
  else match batchCreateNewList.validateSections l.sections with
  | some r => (r, e)
  | none =>
    match db.Begin fault e with
    | (none, e1) => (errorJSON 500 "db_error" "Failed to start transaction", e1)
    | (some tx, e1) =>
      match db.CreateListTx fault e1 tx l.name (NormalizeIcon l.icon) with
      | (none, _, e2) =>
        (errorJSON 500 "create_failed" "Failed to create list", db.Rollback e2)
      | (some list, tx2, e2) =>
        match createSections fault list.id (fun i => (i : Int)) l.sections 0
            { sections := [], items := [], tx := tx2, env := e2 } with
        | .error (r, e3) => (r, db.Rollback e3)
        | .ok st =>
          match db.Commit fault st.env st.tx with
          | (false, e4) =>
            (errorJSON 500 "commit_failed" "Failed to commit transaction", db.Rollback e4)
          | (true, e4) =>
            match db.GetListStats e4 list.id with
            | (stats, e5) =>
              ({ status := 201,
                 body := .batch { list := some { list with stats := some stats },
                                  sections := st.sections, items := st.items } },
               db.Rollback
                 (handlers.BroadcastUpdate e5 "batch_created" (.list_id list.id)))

/-- The function `batchAddToList` of batch.go. -/
def batchAddToList (fault : Fault) (e : Env) (req : BatchCreateRequest) : Response × Env :=
  match db.GetListByID fault e req.list_id with
  | (.error .ErrNoRows, e1) => (errorJSON 404 "not_found" "List not found", e1)
  | (.error .other, e1) => (errorJSON 500 "db_error" "Failed to fetch list", e1)
  | (.ok _, e1) =>
    match batchAddToList.validateSections req.sections with
    | some r => (r, e1)
    | none =>
      match db.Begin fault e1 with
      | (none, e2) => (errorJSON 500 "db_error" "Failed to start transaction", e2)
      | (some tx, e2) =>
        match db.GetMaxSectionOrderTx e2 tx req.list_id with
        | (m, e3) =>
          match createSections fault req.list_id (fun i => (m + 1) + (i : Int)) req.sections 0
              { sections := [], items := [], tx := tx, env := e3 } with
          | .error (r, e4) => (r, db.Rollback e4)
          | .ok st =>
            match db.Commit fault st.env st.tx with
            | (false, e5) =>
              (errorJSON 500 "commit_failed" "Failed to commit transaction", db.Rollback e5)
            | (true, e5) =>
              ({ status := 201,
                 body := .batch { list := none, sections := st.sections, items := st.items } },
               db.Rollback
                 (handlers.BroadcastUpdate e5 "batch_created" (.list_id req.list_id)))

/-- The loop `for i, itemInput := range req.Items` of `batchAddToSection`
(batch.go, lines 324-335); `i` is the loop index, `items` the slice appended
to. -/
def batchAddToSection.createItems (fault : Fault) (sectionID : Int) (baseItemOrder : Int) :
    List BatchItemInput → Nat → List DbItem → Tx → Env →
      Except (Response × Env) (List DbItem × Tx × Env)
  | [], _, items, tx, e => .ok (items, tx, e)
  | itemInput :: rest, i, items, tx, e =>
    match db.CreateItemTx fault e tx sectionID itemInput.name itemInput.description
        (baseItemOrder + i) with
    | (none, _, e1) =>
      .error (errorJSON 500 "create_failed" ("Failed to create item: " ++ itemInput.name), e1)
    | (some item, tx1, e1) =>
      match db.SaveItemHistoryTx fault e1 tx1 itemInput.name sectionID with
      | (tx2, e2) =>
        batchAddToSection.createItems fault sectionID baseItemOrder rest (i + 1)
          (items ++ [item]) tx2 e2

/-- The function `batchAddToSection` of batch.go. -/
def batchAddToSection (fault : Fault) (e : Env) (req : BatchCreateRequest) :
    Response × Env :=
  match db.GetSectionByID fault e req.section_id with
  | (.error .ErrNoRows, e1) => (errorJSON 404 "not_found" "Section not found", e1)
  | (.error .other, e1) => (errorJSON 500 "db_error" "Failed to fetch section", e1)
  | (.ok _, e1) =>
    match batchAddToSection.validateItems req.items with
    | some r => (r, e1)
    | none =>
      match db.Begin fault e1 with
      | (none, e2) => (errorJSON 500 "db_error" "Failed to start transaction", e2)
      | (some tx, e2) =>
        match db.GetMaxItemOrderTx e2 tx req.section_id with
        | (m, e3) =>
          match batchAddToSection.createItems fault req.section_id (m + 1) req.items 0 []
              tx e3 with
          | .error (r, e4) => (r, db.Rollback e4)
          | .ok (items, tx4, e4) =>
            match db.Commit fault e4 tx4 with
            | (false, e5) =>
              (errorJSON 500 "commit_failed" "Failed to commit transaction", db.Rollback e5)
            | (true, e5) =>
              ({ status := 201,
                 body := .batch { list := none, sections := [], items := items } },
               db.Rollback
                 (handlers.BroadcastUpdate e5 "batch_created" (.section_id req.section_id)))

/-- Package a handler run that started from store `s` with an empty log. -/
def Outcome.ofRun (r : Response × Env) : Outcome :=
  { resp := r.1, store := r.2.store, log := r.2.log }

/-- The initial environment of a handler call on committed store `s`. -/
def Env.init (s : Store) : Env := { store := s, log := [] }

/-- The handler `BatchCreate` of batch.go; `body` is `none` when `BodyParser`
fails. -/
def api.BatchCreate (fault : Fault) (s : Store) (body : Option BatchCreateRequest) :
    Outcome :=
  match body with
  | none =>
    Outcome.ofRun (errorJSON 400 "invalid_json" "Failed to parse request body", Env.init s)
  | some req =>
    match req.list with
    | some l => Outcome.ofRun (batchCreateNewList fault (Env.init s) l)
    | none =>
      if req.list_id ≠ 0 ∧ req.sections.length > 0 then
        Outcome.ofRun (batchAddToList fault (Env.init s) req)
      else if req.section_id ≠ 0 ∧ req.items.length > 0 then
        Outcome.ofRun (batchAddToSection fault (Env.init s) req)
      else
        Outcome.ofRun (errorJSON 400 "validation_error"
          "Request must contain either: list (new list), list_id + sections (add to existing list), or section_id + items (add to existing section)",
          Env.init s)

/-! ## `api/lists.go` -/

/-- The handler `CreateList` of lists.go; `body` is `none` when `BodyParser`
fails. -/
def api.CreateList (fault : Fault) (s : Store) (body : Option CreateListRequest) : Outcome :=
  match body with
  | none =>
    Outcome.ofRun (errorJSON 400 "invalid_json" "Failed to parse request body", Env.init s)
  | some req =>
    if req.name = "" then
      Outcome.ofRun (errorJSON 400 "validation_error" "Name is required", Env.init s)
    else if len req.name > MaxListNameLength then
      Outcome.ofRun (errorJSON 400 "validation_error"
        "Name exceeds maximum length of 100 characters", Env.init s)
    else if len req.icon > MaxIconLength then
      Outcome.ofRun (errorJSON 400 "validation_error"
        "Icon exceeds maximum length of 20 characters", Env.init s)
    else
      match db.CreateList fault (Env.init s) req.name (NormalizeIcon req.icon) with
      | (none, e1) => Outcome.ofRun (errorJSON 500 "create_failed" "Failed to create list", e1)
      | (some list, e1) =>
        Outcome.ofRun ({ status := 201, body := .list (some list) },
          handlers.BroadcastUpdate e1 "list_created" (.list list))

/-- The handler `UpdateList` of lists.go; `id` is `none` when `ParamsInt`
fails, `body` is `none` when `BodyParser` fails. -/
def api.UpdateList (fault : Fault) (s : Store) (id : Option Int)
    (body : Option UpdateListRequest) : Outcome :=
  match id with
  | none => Outcome.ofRun (errorJSON 400 "invalid_id" "Invalid list ID", Env.init s)
  | some id =>
    match body with
    | none =>
      Outcome.ofRun (errorJSON 400 "invalid_json" "Failed to parse request body", Env.init s)
    | some req =>
      match db.GetListByID fault (Env.init s) id with
      | (.error .ErrNoRows, e1) =>
        Outcome.ofRun (errorJSON 404 "not_found" "List not found", e1)
      | (.error .other, e1) =>
        Outcome.ofRun (errorJSON 500 "db_error" "Failed to fetch list", e1)
      | (.ok existing, e1) =>
        let name := if req.name = "" then existing.name else req.name
        let icon := if req.icon = "" then existing.icon else NormalizeIcon req.icon
        if len name > MaxListNameLength then
          Outcome.ofRun (errorJSON 400 "validation_error"
            "Name exceeds maximum length of 100 characters", e1)
        else
          match db.UpdateList fault e1 id name icon with
          | (none, e2) =>
            Outcome.ofRun (errorJSON 500 "update_failed" "Failed to update list", e2)
          | (some list, e2) =>
            Outcome.ofRun ({ status := 200, body := .list (some list) },
              handlers.BroadcastUpdate e2 "list_updated" (.list list))

/-- The handler `DeleteList` of lists.go. -/
def api.DeleteList (fault : Fault) (s : Store) (id : Option Int) : Outcome :=
  match id with
  | none => Outcome.ofRun (errorJSON 400 "invalid_id" "Invalid list ID", Env.init s)
  | some id =>
    match db.GetListByID fault (Env.init s) id with
    | (.error .ErrNoRows, e1) =>
      Outcome.ofRun (errorJSON 404 "not_found" "List not found", e1)
    | (.error .other, e1) =>
      Outcome.ofRun (errorJSON 500 "db_error" "Failed to fetch list", e1)
    | (.ok _, e1) =>
      match db.DeleteList fault e1 id with
      | (false, e2) =>
        Outcome.ofRun (errorJSON 500 "delete_failed" "Failed to delete list", e2)
      | (true, e2) =>
        Outcome.ofRun ({ status := 204, body := .empty },
          handlers.BroadcastUpdate e2 "list_deleted" (.id id))

/-- The handler `GetListSections` of lists.go. -/
def api.GetListSections (fault : Fault) (s : Store) (id : Option Int) : Outcome :=
  match id with
  | none => Outcome.ofRun (errorJSON 400 "invalid_id" "Invalid list ID", Env.init s)
  | some id =>
    match db.GetListByID fault (Env.init s) id with
    | (.error .ErrNoRows, e1) =>
      Outcome.ofRun (errorJSON 404 "not_found" "List not found", e1)
    | (.error .other, e1) =>
      Outcome.ofRun (errorJSON 500 "db_error" "Failed to fetch list", e1)
    | (.ok _, e1) =>
      match db.GetSectionsByList fault e1 id with
      | (none, e2) =>
        Outcome.ofRun (errorJSON 500 "db_error" "Failed to fetch sections", e2)
      | (some sections, e2) =>
        Outcome.ofRun ({ status := 200, body := .sections sections }, e2)

/-- The value of `list` after `list, _ := db.GetListByID(id)`: nil on error. -/
def listOrNil (r : Except DbError DbList) : Option DbList :=
  match r with
  | .ok l => some l
  | .error _ => none

/-- The handler `MoveListUp` of lists.go. -/
def api.MoveListUp (fault : Fault) (s : Store) (id : Option Int) : Outcome :=
  match id with
  | none => Outcome.ofRun (errorJSON 400 "invalid_id" "Invalid list ID", Env.init s)
  | some id =>
    match db.GetListByID fault (Env.init s) id with
    | (.error .ErrNoRows, e1) =>
      Outcome.ofRun (errorJSON 404 "not_found" "List not found", e1)
    | (.error .other, e1) =>
      Outcome.ofRun (errorJSON 500 "db_error" "Failed to fetch list", e1)
    | (.ok _, e1) =>
      match db.MoveListUp fault e1 id with
      | (false, e2) =>
        Outcome.ofRun (errorJSON 500 "move_failed" "Failed to move list", e2)
      | (true, e2) =>
        match db.GetListByID fault (handlers.BroadcastUpdate e2 "lists_reordered" .null) id with
        | (r, e4) => Outcome.ofRun ({ status := 200, body := .list (listOrNil r) }, e4)

/-- The handler `MoveListDown` of lists.go. -/
def api.MoveListDown (fault : Fault) (s : Store) (id : Option Int) : Outcome :=
  match id with
  | none => Outcome.ofRun (errorJSON 400 "invalid_id" "Invalid list ID", Env.init s)
  | some id =>
    match db.GetListByID fault (Env.init s) id with
    | (.error .ErrNoRows, e1) =>
      Outcome.ofRun (errorJSON 404 "not_found" "List not found", e1)
    | (.error .other, e1) =>
      Outcome.ofRun (errorJSON 500 "db_error" "Failed to fetch list", e1)
    | (.ok _, e1) =>
      match db.MoveListDown fault e1 id with
      | (false, e2) =>
        Outcome.ofRun (errorJSON 500 "move_failed" "Failed to move list", e2)
      | (true, e2) =>
        match db.GetListByID fault (handlers.BroadcastUpdate e2 "lists_reordered" .null) id with
        | (r, e4) => Outcome.ofRun ({ status := 200, body := .list (listOrNil r) }, e4)

/-! ## Route table (`api/api.go`) and request sequences -/

/-- A request to one of the list routes or to the batch route registered by
`Register` in api.go, after parameter and body parsing (`none` = parse error). -/
inductive Request where
  | CreateList (body : Option CreateListRequest)
  | UpdateList (id : Option Int) (body : Option UpdateListRequest)
  | DeleteList (id : Option Int)
  | GetListSections (id : Option Int)
  | MoveListUp (id : Option Int)
  | MoveListDown (id : Option Int)
  | BatchCreate (body : Option BatchCreateRequest)
deriving DecidableEq, Repr

/-- Dispatch of a request to its handler, as registered in api.go. -/
def api.serve (fault : Fault) (s : Store) : Request → Outcome
  | .CreateList body => api.CreateList fault s body
  | .UpdateList id body => api.UpdateList fault s id body
  | .DeleteList id => api.DeleteList fault s id
  | .GetListSections id => api.GetListSections fault s id
  | .MoveListUp id => api.MoveListUp fault s id
  | .MoveListDown id => api.MoveListDown fault s id
  | .BatchCreate body => api.BatchCreate fault s body

/-- Modelled from the spec: one call of the API.  `served` is a request to a
list route or to the batch route, served by its handler of the sources under a
fault schedule.  The other calls go to the section and item routes of api.go
that create, move or delete rows (`CreateSection`, `DeleteSection`,
`MoveSectionUp`, `MoveSectionDown`, `CreateItem`, `DeleteItem`, `MoveItem`,
`MoveItemUp`, `MoveItemDown`); their handlers are not among the sources, and a
call stands for its effect on the committed store.  A call of these routes
that fails leaves the store as it was, like one that is rejected. -/
inductive Call where
  | served (fault : Fault) (rq : Request)
  | CreateSection (req : CreateSectionRequest)
  | DeleteSection (id : Int)
  | MoveSectionUp (id : Int)
  | MoveSectionDown (id : Int)
  | CreateItem (req : CreateItemRequest)
  | DeleteItem (id : Int)
  | MoveItem (id : Int) (req : MoveItemRequest)
  | MoveItemUp (id : Int)
  | MoveItemDown (id : Int)

/-- The committed store after one call. -/
def api.call (s : Store) : Call → Store
  | .served fault rq => (api.serve fault s rq).store
  | .CreateSection req => s.createSection req
  | .DeleteSection id => s.deleteSection id
  | .MoveSectionUp id => s.moveSectionUp id
  | .MoveSectionDown id => s.moveSectionDown id
  | .CreateItem req => s.createItem req
  | .DeleteItem id => s.deleteItem id
  | .MoveItem id req => s.moveItem id req
  | .MoveItemUp id => s.moveItemUp id
  | .MoveItemDown id => s.moveItemDown id

/-- The committed store after a sequence of calls, one after the other. -/
def api.run (s : Store) : List Call → Store
  | [] => s
  | c :: rest => api.run (api.call s c) rest

/-! ## Predicates used in the statements -/

/-- The log entry is a broadcast. -/
def Event.isBroadcast : Event → Bool
  | .BroadcastUpdate _ _ => true
  | _ => false

/-- The log entry is the opening of a transaction. -/
def Event.isBegin : Event → Bool
  | .Begin _ => true
  | _ => false

/-- The log entry is a store write of some kind (inside or outside a
transaction, successful or not) or a commit. -/
def Event.isWrite : Event → Bool
  | .Commit _ => true
  | .CreateListTx _ _ _ => true
  | .CreateSectionForListTx _ _ _ _ => true
  | .CreateItemTx _ _ _ _ _ => true
  | .SaveItemHistoryTx _ _ _ => true
  | .CreateList _ _ _ => true
  | .UpdateList _ _ _ _ => true
  | .DeleteList _ _ => true
  | .MoveListUp _ _ => true
  | .MoveListDown _ _ => true
  | _ => false

/-- The log entry is one of the writes issued inside the creation loops. -/
def Event.isLoopWrite : Event → Bool
  | .CreateSectionForListTx _ _ _ _ => true
  | .CreateItemTx _ _ _ _ _ => true
  | .SaveItemHistoryTx _ _ _ => true
  | _ => false

/-- The log entry is a failed list insert, section insert, item insert or
commit: the failures whose error value the batch handlers test. -/
def Event.isCheckedFailure : Event → Bool
  | .Commit false => true
  | .CreateListTx _ _ false => true
  | .CreateSectionForListTx _ _ _ false => true
  | .CreateItemTx _ _ _ _ false => true
  | _ => false

/-- The log entry is a failed item-history write. -/
def Event.isHistoryFailure : Event → Bool
  | .SaveItemHistoryTx _ _ false => true
  | _ => false

/-- The broadcasts of a log, in order: event type and payload. -/
def broadcasts : List Event → List (String × Payload)
  | [] => []
  | .BroadcastUpdate t p :: rest => (t, p) :: broadcasts rest
  | _ :: rest => broadcasts rest

/-- The machine code of an error response, if the body is an error object. -/
def Response.errorCode (r : Response) : Option String :=
  match r.body with
  | .error e => some e.error
  | _ => none

/-- The response is a success (2xx). -/
def Response.isSuccess (r : Response) : Bool :=
  decide (200 ≤ r.status) && decide (r.status < 300)

/-- The id carried by a broadcast payload, if it carries one. -/
def Payload.carriedID : Payload → Option Int
  | .null => none
  | .list l => some l.id
  | .list_id n => some n
  | .section_id n => some n
  | .id n => some n

/-- The sort orders are exactly `0, ..., n-1` for the `n` rows of the scope:
no duplicate and no gap. -/
def Dense (os : List Int) : Prop :=
  os.Perm ((List.range os.length).map (fun (n : Nat) => (n : Int)))

/-- Every sibling scope of the store is dense: all lists, the sections of each
list, the items of each section (a scope without rows is dense). -/
def Store.AllDense (s : Store) : Prop :=
  Dense s.listOrders ∧ (∀ listID, Dense (s.sectionOrders listID)) ∧
    ∀ sectionID, Dense (s.itemOrders sectionID)

/-- Key integrity of the store: list ids are unique, and every id and parent
reference in use lies below the corresponding auto-increment counter. -/
structure Store.KeysOK (s : Store) : Prop where
  list_ids_nodup : (s.lists.map (fun l => l.id)).Nodup
  list_ids_lt : ∀ l ∈ s.lists, l.id < s.nextListID
  section_ids_lt : ∀ x ∈ s.sections, x.id < s.nextSectionID
  section_parent_lt : ∀ x ∈ s.sections, x.list_id < s.nextListID
  item_parent_lt : ∀ x ∈ s.items, x.section_id < s.nextSectionID

/-- Key integrity of the section and item rows (`id INTEGER PRIMARY KEY
AUTOINCREMENT` in db.go): section ids and item ids are unique, and every item
id lies below its auto-increment counter. -/
structure Store.RowKeysOK (s : Store) : Prop where
  section_ids_nodup : (s.sections.map (fun x => x.id)).Nodup
  item_ids_nodup : (s.items.map (fun x => x.id)).Nodup
  item_ids_lt : ∀ x ∈ s.items, x.id < s.nextItemID

/-- The sort orders of the rows of `ls` whose parent is `P`; the parent and the
sort order of a row are given by `par` and `ord`. -/
def scopeOf {α : Type} (par ord : α → Int) (ls : List α) (P : Int) : List Int :=
  (ls.filter (fun x => par x == P)).map ord

/-- The store is sound: key integrity of all three tables and every sibling
scope dense. -/
def Store.Sound (s : Store) : Prop :=
  s.KeysOK ∧ s.RowKeysOK ∧ s.AllDense

/-- The item rows the loops insert for the inputs from loop index `i` on, the
first of them with id `id`: the `i`-th gets sort order `order i`. -/
def itemRows (sectionID : Int) (order : Nat → Int) :
    List BatchItemInput → Nat → Int → List DbItem
  | [], _, _ => []
  | inp :: rest, i, id =>
    { id := id, section_id := sectionID, name := inp.name, description := inp.description,
      completed := false, uncertain := false, sort_order := order i } ::
      itemRows sectionID order rest (i + 1) (id + 1)

/-- The section values the section loop appends to `sections` for the inputs
from loop index `i` on: the `i`-th section gets sort order `order i`, and its
items get the sort orders `0, 1, ...` and consecutive ids. -/
def sectionRows (listID : Int) (order : Nat → Int) :
    List BatchSectionInput → Nat → Int → Int → List DbSection
  | [], _, _, _ => []
  | inp :: rest, i, sid, iid =>
    { id := sid, list_id := listID, name := inp.name, sort_order := order i,
      items := itemRows sid (fun j => (j : Int)) inp.items 0 iid } ::
      sectionRows listID order rest (i + 1) (sid + 1) (iid + inp.items.length)

/-- The stored row of a section value: the `items` slice is not a column. -/
def DbSection.row (x : DbSection) : DbSection := { x with items := [] }

/-! ## Example data -/

/-- A store with one list holding one section with two items at orders 0, 1. -/
def exStore : Store :=
  { lists := [{ id := 1, name := "Groceries", icon := "🛒", sort_order := 0, stats := none }],
    sections := [{ id := 1, list_id := 1, name := "Dairy", sort_order := 0, items := [] }],
    items := [{ id := 1, section_id := 1, name := "milk", description := "",
                completed := false, uncertain := false, sort_order := 0 },
              { id := 2, section_id := 1, name := "eggs", description := "",
                completed := false, uncertain := false, sort_order := 1 }],
    history := [],
    nextListID := 2, nextSectionID := 2, nextItemID := 3 }

/-- A store with two lists at orders 0 and 1 and nothing else. -/
def exTwoLists : Store :=
  { lists := [{ id := 1, name := "A", icon := "", sort_order := 0, stats := none },
              { id := 2, name := "B", icon := "", sort_order := 1, stats := none }],
    sections := [], items := [], history := [],
    nextListID := 3, nextSectionID := 1, nextItemID := 1 }

/-- The empty store. -/
def exEmpty : Store :=
  { lists := [], sections := [], items := [], history := [],
    nextListID := 1, nextSectionID := 1, nextItemID := 1 }

/-- Add-items request: two items for section 1. -/
def exAddItems : BatchCreateRequest :=
  { list := none, list_id := 0, sections := [], section_id := 1,
    items := [{ name := "butter", description := "" },
              { name := "cheese", description := "gouda" }] }

/-- Add-sections request: two sections for list 1. -/
def exAddSections : BatchCreateRequest :=
  { list := none, list_id := 1,
    sections := [{ name := "Bakery", items := [{ name := "bread", description := "" }] },
                 { name := "Fruit", items := [{ name := "apple", description := "" },
                                              { name := "pear", description := "" }] }],
    section_id := 0, items := [] }

/-- New-list input: two sections of two items each. -/
def exNewListInput : BatchListInput :=
  { name := "Party", icon := "cake",
    sections := [{ name := "Drinks", items := [{ name := "juice", description := "" },
                                               { name := "water", description := "" }] },
                 { name := "Snacks", items := [{ name := "chips", description := "" },
                                               { name := "nuts", description := "" }] }] }

/-- New-list request built from `exNewListInput`. -/
def exNewList : BatchCreateRequest :=
  { list := some exNewListInput, list_id := 0, sections := [], section_id := 0, items := [] }

/-- New-list request whose only invalid entry is the last item of the last
section (its name is empty). -/
def exInvalidNewList : BatchCreateRequest :=
  { list := some
      { name := "Party", icon := "",
        sections := [{ name := "Drinks", items := [{ name := "juice", description := "" }] },
                     { name := "Snacks", items := [{ name := "chips", description := "" },
                                                   { name := "", description := "" }] }] },
    list_id := 0, sections := [], section_id := 0, items := [] }

/-- A description of 501 characters (501 bytes). -/
def exLongDescription : String := String.mk (List.replicate 501 'a')

/-- Add-items request: one item for section 1 with a 501-character
description. -/
def exLongDescItems : BatchCreateRequest :=
  { list := none, list_id := 0, sections := [], section_id := 1,
    items := [{ name := "tea", description := exLongDescription }] }

/-- Add-sections request: one section for list 1 whose item has a
501-character description. -/
def exLongDescSections : BatchCreateRequest :=
  { list := none, list_id := 1,
    sections := [{ name := "Drinks",
                   items := [{ name := "tea", description := exLongDescription }] }],
    section_id := 0, items := [] }

/-- New-list request whose item has a 501-character description. -/
def exLongDescNewList : BatchCreateRequest :=
  { list := some
      { name := "Party", icon := "",
        sections := [{ name := "Drinks",
                       items := [{ name := "tea", description := exLongDescription }] }] },
    list_id := 0, sections := [], section_id := 0, items := [] }

/-- Batch request that names list 99 and brings no sections. -/
def exUnknownListNoSections : BatchCreateRequest :=
  { list := none, list_id := 99, sections := [], section_id := 0, items := [] }

/-- Add-sections request for list 99. -/
def exUnknownListSections : BatchCreateRequest :=
  { list := none, list_id := 99,
    sections := [{ name := "Bakery", items := [] }], section_id := 0, items := [] }

/-- The outcome "list not found" of a handler that did nothing but look the
list up: status 404, code `not_found`, the store as it was, one read logged. -/
def listNotFound (s : Store) (id : Int) : Outcome :=
  { resp := errorJSON 404 "not_found" "List not found", store := s,
    log := [.GetListByID id] }

/-- The outcome "section not found" of a handler that did nothing but look the
section up. -/
def sectionNotFound (s : Store) (id : Int) : Outcome :=
  { resp := errorJSON 404 "not_found" "Section not found", store := s,
    log := [.GetSectionByID id] }

/-- A sequence of calls: two lists are created, the second is moved up, a
batch creates a third list with sections and items, further batches add
sections to list 1 and items to section 1 (the second time with a failing item
insert); then a section and an item are created, an item is moved to another
section and one is moved down, a section is moved up, and an item, a section
and the first list are deleted. -/
def exOps : List Call :=
  [.served noFault (.CreateList (some { name := "A", icon := "" })),
   .served noFault (.CreateList (some { name := "B", icon := "cart" })),
   .served noFault (.MoveListUp (some 2)),
   .served noFault (.BatchCreate (some exNewList)),
   .served noFault (.BatchCreate (some exAddSections)),
   .served noFault (.BatchCreate (some exAddItems)),
   .served (fun n => n == 3) (.BatchCreate (some exAddItems)),
   .CreateSection { list_id := 2, name := "Fruit" },
   .CreateItem { section_id := 1, name := "pears", description := "" },
   .MoveItem 1 { section_id := 2 },
   .MoveItemDown 2,
   .MoveSectionUp 2,
   .DeleteItem 2,
   .DeleteSection 1,
   .served noFault (.DeleteList (some 2))]

/-- The working copy `tx1` is `tx` with the section rows `secs` and the item
rows `its` appended, the id counters advanced accordingly, and the lists
untouched (nothing is said about the history table). -/
structure TxExtends (tx tx1 : Tx) (secs : List DbSection) (its : List DbItem) : Prop where
  lists_eq : tx1.lists = tx.lists
  sections_eq : tx1.sections = tx.sections ++ secs
  items_eq : tx1.items = tx.items ++ its
  nextListID_eq : tx1.nextListID = tx.nextListID
  nextSectionID_eq : tx1.nextSectionID = tx.nextSectionID + secs.length
  nextItemID_eq : tx1.nextItemID = tx.nextItemID + its.length

/-- The environment `e1` is `e` with further log entries, all satisfying `p`,
and the same committed store. -/
def LogExtends (e e1 : Env) (p : Event → Prop) : Prop :=
  e1.store = e.store ∧ ∃ evs, e1.log = e.log ++ evs ∧ ∀ ev ∈ evs, p ev

/-- Log entries of a creation loop that ran to its end: loop writes, none of
them a failure the handler tests. -/
def Event.loopSuccess (ev : Event) : Prop :=
  ev.isLoopWrite = true ∧ ev.isCheckedFailure = false

/-- Log entries that open no transaction, write nothing and broadcast
nothing. -/
def Event.isInert (ev : Event) : Prop :=
  ev.isBegin = false ∧ ev.isWrite = false ∧ ev.isBroadcast = false

/-- What every outcome `o` of a batch handler on committed store `s` satisfies;
`payload` is the payload of its broadcast. -/
structure BatchFacts (s : Store) (o : Outcome) (payload : Payload) : Prop where
  status : o.resp.status = 201 ∨ o.resp.status = 400 ∨ o.resp.status = 404 ∨
    o.resp.status = 500
  failure : (∃ ev ∈ o.log, ev.isCheckedFailure = true) → o.resp.status = 500
  atomic : o.resp.status ≠ 201 → o.store = s
  broadcast_ok : o.resp.status = 201 → broadcasts o.log = [("batch_created", payload)]
  broadcast_err : o.resp.status ≠ 201 → broadcasts o.log = []
  validation : o.resp.errorCode = some "validation_error" →
    o.resp.status = 400 ∧ o.store = s ∧ ∀ ev ∈ o.log, ev.isInert
  error_body : o.resp.status ≠ 201 → ∃ code, o.resp.errorCode = some code

/-- The payload of the broadcast of a committed batch request: the id of the
list created (new-list mode; the id the store assigns next), of the list
extended (add-sections mode) or of the section extended (add-items mode). -/
def batchPayload (s : Store) (req : BatchCreateRequest) : Payload :=
  match req.list with
  | some _ => .list_id s.nextListID
  | none =>
    if req.list_id ≠ 0 ∧ req.sections.length > 0 then .list_id req.list_id
    else .section_id req.section_id

/-- The request goes to `CreateList` or to `BatchCreate`. -/
def Request.isCreate : Request → Bool
  | .CreateList _ => true
  | .BatchCreate _ => true
  | _ => false

/-- The request goes to `CreateList`, `MoveListUp`, `MoveListDown` or
`BatchCreate`. -/
def Request.isCreateOrMove : Request → Bool
  | .CreateList _ => true
  | .BatchCreate _ => true
  | .MoveListUp _ => true
  | .MoveListDown _ => true
  | _ => false

/-- The variant of a batch request that `BatchCreate` hands the request to. -/
inductive BatchMode where
  | newList (l : BatchListInput)
  | addSections
  | addItems
  | noVariant
deriving DecidableEq, Repr

/-- The variant chosen by the `if / else if` chain of `BatchCreate` (batch.go,
lines 22-28): the `list` field first, then `list_id` with sections, then
`section_id` with items. -/
def selectedMode (req : BatchCreateRequest) : BatchMode :=
  match req.list with
  | some l => .newList l
  | none =>
    if req.list_id ≠ 0 ∧ req.sections.length > 0 then .addSections
    else if req.section_id ≠ 0 ∧ req.items.length > 0 then .addItems
    else .noVariant

/-- The outcome of running one variant on a request. -/
def runMode (fault : Fault) (s : Store) (req : BatchCreateRequest) : BatchMode → Outcome
  | .newList l => Outcome.ofRun (batchCreateNewList fault (Env.init s) l)
  | .addSections => Outcome.ofRun (batchAddToList fault (Env.init s) req)
  | .addItems => Outcome.ofRun (batchAddToSection fault (Env.init s) req)
  | .noVariant =>
    Outcome.ofRun (errorJSON 400 "validation_error"
      "Request must contain either: list (new list), list_id + sections (add to existing list), or section_id + items (add to existing section)",
      Env.init s)

/-- Batch request with two variants populated: a `list` and also `list_id`
with sections. -/
def exTwoVariants : BatchCreateRequest :=
  { list := some exNewListInput, list_id := 1,
    sections := [{ name := "Bakery", items := [] }], section_id := 0, items := [] }

/-- An icon of 21 characters (21 bytes). -/
def exLongIcon : String := "aaaaaaaaaaaaaaaaaaaaa"

/-- Update request that sets only the icon, to `exLongIcon`. -/
def exUpdateLongIcon : UpdateListRequest := { name := "", icon := exLongIcon }

/-- New-list request whose icon is `exLongIcon`. -/
def exNewListLongIcon : BatchCreateRequest :=
  { list := some { name := "Party", icon := exLongIcon, sections := [] },
    list_id := 0, sections := [], section_id := 0, items := [] }

/-- A name of 51 characters, each the two-byte letter `ż`: 102 bytes. -/
def exPolishName : String := String.mk (List.replicate 51 'ż')

/-- An icon of 6 characters, each a four-byte emoji: 24 bytes. -/
def exEmojiIcon : String := "🛒🛒🛒🛒🛒🛒"

/-! ## Lemmas: store calls -/

@[simp] theorem Env.record_store (e : Env) (ev : Event) : (e.record ev).store = e.store := rfl

@[simp] theorem Env.record_log (e : Env) (ev : Event) : (e.record ev).log = e.log ++ [ev] := rfl

@[simp] theorem noFault_apply (n : Nat) : noFault n = false := rfl

theorem LogExtends.same (e : Env) (p : Event → Prop) : LogExtends e e p :=
  ⟨rfl, [], by simp, by simp⟩

theorem LogExtends.andThen {e e1 e2 : Env} {p : Event → Prop} (h1 : LogExtends e e1 p)
    (h2 : LogExtends e1 e2 p) : LogExtends e e2 p := by
  obtain ⟨hs1, evs1, hl1, hp1⟩ := h1
  obtain ⟨hs2, evs2, hl2, hp2⟩ := h2
  refine ⟨hs2.trans hs1, evs1 ++ evs2, by rw [hl2, hl1, List.append_assoc], ?_⟩
  intro ev hev
  rcases List.mem_append.mp hev with h | h
  · exact hp1 ev h
  · exact hp2 ev h

theorem LogExtends.record (e : Env) (ev : Event) {p : Event → Prop} (h : p ev) :
    LogExtends e (e.record ev) p :=
  ⟨rfl, [ev], rfl, by simpa using h⟩

theorem LogExtends.mono {e e1 : Env} {p q : Event → Prop} (h : LogExtends e e1 p)
    (hpq : ∀ ev, p ev → q ev) : LogExtends e e1 q := by
  obtain ⟨hs, evs, hl, hp⟩ := h
  exact ⟨hs, evs, hl, fun ev hev => hpq ev (hp ev hev)⟩

theorem TxExtends.unchanged (tx : Tx) : TxExtends tx tx [] [] :=
  ⟨rfl, by simp, by simp, rfl, by simp, by simp⟩

theorem TxExtends.andAlso {a b c : Tx} {s1 s2 : List DbSection} {i1 i2 : List DbItem}
    (h1 : TxExtends a b s1 i1) (h2 : TxExtends b c s2 i2) :
    TxExtends a c (s1 ++ s2) (i1 ++ i2) := by
  refine ⟨h2.lists_eq.trans h1.lists_eq, ?_, ?_, h2.nextListID_eq.trans h1.nextListID_eq, ?_, ?_⟩
  · rw [h2.sections_eq, h1.sections_eq, List.append_assoc]
  · rw [h2.items_eq, h1.items_eq, List.append_assoc]
  · rw [h2.nextSectionID_eq, h1.nextSectionID_eq, List.length_append]; push_cast; ring
  · rw [h2.nextItemID_eq, h1.nextItemID_eq, List.length_append]; push_cast; ring

theorem CreateItemTx_cases (fault : Fault) (e : Env) (tx : Tx) (sid : Int) (name desc : String)
    (o : Int) :
    db.CreateItemTx fault e tx sid name desc o =
        (none, tx, e.record (.CreateItemTx sid name desc o false)) ∨
    db.CreateItemTx fault e tx sid name desc o =
        (some (tx.insertItem sid name desc o).1, (tx.insertItem sid name desc o).2,
          e.record (.CreateItemTx sid name desc o true)) := by
  unfold db.CreateItemTx
  split <;> simp

theorem CreateSectionForListTx_cases (fault : Fault) (e : Env) (tx : Tx) (listID : Int)
    (name : String) (o : Int) :
    db.CreateSectionForListTx fault e tx listID name o =
        (none, tx, e.record (.CreateSectionForListTx listID name o false)) ∨
    db.CreateSectionForListTx fault e tx listID name o =
        (some (tx.insertSection listID name o).1, (tx.insertSection listID name o).2,
          e.record (.CreateSectionForListTx listID name o true)) := by
  unfold db.CreateSectionForListTx
  split <;> simp

theorem CreateListTx_cases (fault : Fault) (e : Env) (tx : Tx) (name icon : String) :
    db.CreateListTx fault e tx name icon =
        (none, tx, e.record (.CreateListTx name icon false)) ∨
    db.CreateListTx fault e tx name icon =
        (some (tx.insertList name icon).1, (tx.insertList name icon).2,
          e.record (.CreateListTx name icon true)) := by
  unfold db.CreateListTx
  split <;> simp

theorem Begin_cases (fault : Fault) (e : Env) :
    db.Begin fault e = (none, e.record (.Begin false)) ∨
    db.Begin fault e = (some e.store, e.record (.Begin true)) := by
  unfold db.Begin
  split <;> simp

theorem Commit_cases (fault : Fault) (e : Env) (tx : Tx) :
    db.Commit fault e tx = (false, e.record (.Commit false)) ∨
    db.Commit fault e tx = (true, { store := tx, log := e.log ++ [.Commit true] }) := by
  unfold db.Commit
  split <;> simp

theorem GetListByID_cases (fault : Fault) (e : Env) (id : Int) :
    db.GetListByID fault e id = (.error .other, e.record (.GetListByID id)) ∨
    (e.store.findList id = none ∧
      db.GetListByID fault e id = (.error .ErrNoRows, e.record (.GetListByID id))) ∨
    ∃ l, e.store.findList id = some l ∧
      db.GetListByID fault e id = (.ok l, e.record (.GetListByID id)) := by
  unfold db.GetListByID
  split
  · simp
  · cases h : e.store.findList id <;> simp

theorem GetSectionByID_cases (fault : Fault) (e : Env) (id : Int) :
    db.GetSectionByID fault e id = (.error .other, e.record (.GetSectionByID id)) ∨
    (e.store.findSection id = none ∧
      db.GetSectionByID fault e id = (.error .ErrNoRows, e.record (.GetSectionByID id))) ∨
    ∃ x, e.store.findSection id = some x ∧
      db.GetSectionByID fault e id = (.ok x, e.record (.GetSectionByID id)) := by
  unfold db.GetSectionByID
  split
  · simp
  · cases h : e.store.findSection id <;> simp

theorem SaveItemHistoryTx_frame (fault : Fault) (e : Env) (tx : Tx) (name : String) (sid : Int) :
    TxExtends tx (db.SaveItemHistoryTx fault e tx name sid).1 [] [] ∧
    LogExtends e (db.SaveItemHistoryTx fault e tx name sid).2 Event.loopSuccess := by
  unfold db.SaveItemHistoryTx
  split
  · exact ⟨TxExtends.unchanged tx, LogExtends.record _ _ (by simp [Event.loopSuccess,
      Event.isLoopWrite, Event.isCheckedFailure])⟩
  · exact ⟨⟨rfl, by simp [Store.saveItemHistory], by simp [Store.saveItemHistory], rfl,
      by simp [Store.saveItemHistory], by simp [Store.saveItemHistory]⟩,
      LogExtends.record _ _ (by simp [Event.loopSuccess, Event.isLoopWrite,
        Event.isCheckedFailure])⟩

theorem insertItem_extends (tx : Tx) (sid : Int) (name desc : String) (o : Int) :
    TxExtends tx (tx.insertItem sid name desc o).2 [] [(tx.insertItem sid name desc o).1] :=
  ⟨rfl, by simp [Store.insertItem], by simp [Store.insertItem], rfl,
    by simp [Store.insertItem], by simp [Store.insertItem]⟩

theorem insertSection_extends (tx : Tx) (listID : Int) (name : String) (o : Int) :
    TxExtends tx (tx.insertSection listID name o).2 [(tx.insertSection listID name o).1] [] :=
  ⟨rfl, by simp [Store.insertSection], by simp [Store.insertSection], rfl,
    by simp [Store.insertSection], by simp [Store.insertSection]⟩

theorem itemRows_length (sid : Int) (order : Nat → Int) (inputs : List BatchItemInput) :
    ∀ (i : Nat) (id : Int), (itemRows sid order inputs i id).length = inputs.length := by
  induction inputs with
  | nil => intro i id; rfl
  | cons inp rest ih => intro i id; simp [itemRows, ih]

theorem sectionRows_length (listID : Int) (order : Nat → Int) (inputs : List BatchSectionInput) :
    ∀ (i : Nat) (sid iid : Int),
      (sectionRows listID order inputs i sid iid).length = inputs.length := by
  induction inputs with
  | nil => intro i sid iid; rfl
  | cons inp rest ih => intro i sid iid; simp [sectionRows, ih]

theorem loopSuccess_isLoopWrite (ev : Event) (h : ev.loopSuccess) : ev.isLoopWrite = true := h.1

theorem createItems_ok (fault : Fault) (sid base : Int) :
    ∀ (inputs : List BatchItemInput) (i : Nat) (items : List DbItem) (tx : Tx) (e : Env)
      (items1 : List DbItem) (tx1 : Tx) (e1 : Env),
      batchAddToSection.createItems fault sid base inputs i items tx e = .ok (items1, tx1, e1) →
      LogExtends e e1 Event.loopSuccess ∧
      items1 = items ++ itemRows sid (fun j => base + (j : Int)) inputs i tx.nextItemID ∧
      TxExtends tx tx1 [] (itemRows sid (fun j => base + (j : Int)) inputs i tx.nextItemID) := by
  intro inputs
  induction inputs with
  | nil =>
    intro i items tx e items1 tx1 e1 h
    simp only [batchAddToSection.createItems, Except.ok.injEq, Prod.mk.injEq] at h
    obtain ⟨rfl, rfl, rfl⟩ := h
    exact ⟨LogExtends.same _ _, by simp [itemRows], TxExtends.unchanged _⟩
  | cons inp rest ih =>
    intro i items tx e items1 tx1 e1 h
    rcases CreateItemTx_cases fault e tx sid inp.name inp.description (base + i) with hc | hc
    · simp [batchAddToSection.createItems, hc] at h
    · simp only [batchAddToSection.createItems, hc] at h
      obtain ⟨hx, hl⟩ := SaveItemHistoryTx_frame fault
        (e.record (.CreateItemTx sid inp.name inp.description (base + i) true))
        (tx.insertItem sid inp.name inp.description (base + i)).2 inp.name sid
      obtain ⟨h1, h2, h3⟩ := ih _ _ _ _ _ _ _ h
      have hid : (db.SaveItemHistoryTx fault
          (e.record (.CreateItemTx sid inp.name inp.description (base + i) true))
          (tx.insertItem sid inp.name inp.description (base + i)).2 inp.name sid).1.nextItemID
          = tx.nextItemID + 1 := by
        rw [hx.nextItemID_eq]; simp [Store.insertItem]
      rw [hid] at h2 h3
      refine ⟨?_, ?_, ?_⟩
      · exact ((LogExtends.record e _ (by simp [Event.loopSuccess, Event.isLoopWrite,
          Event.isCheckedFailure])).andThen hl).andThen h1
      · rw [h2]; simp [itemRows, Store.insertItem]
      · have := ((insertItem_extends tx sid inp.name inp.description (base + i)).andAlso hx).andAlso h3
        simpa [itemRows, Store.insertItem] using this

theorem createItems_error (fault : Fault) (sid base : Int) :
    ∀ (inputs : List BatchItemInput) (i : Nat) (items : List DbItem) (tx : Tx) (e : Env)
      (r : Response) (e1 : Env),
      batchAddToSection.createItems fault sid base inputs i items tx e = .error (r, e1) →
      r.status = 500 ∧ r.errorCode = some "create_failed" ∧
      LogExtends e e1 (fun ev => ev.isLoopWrite = true) := by
  intro inputs
  induction inputs with
  | nil =>
    intro i items tx e r e1 h
    simp [batchAddToSection.createItems] at h
  | cons inp rest ih =>
    intro i items tx e r e1 h
    rcases CreateItemTx_cases fault e tx sid inp.name inp.description (base + i) with hc | hc
    · simp only [batchAddToSection.createItems, hc, Except.error.injEq, Prod.mk.injEq] at h
      obtain ⟨rfl, rfl⟩ := h
      exact ⟨rfl, rfl, LogExtends.record _ _ (by simp [Event.isLoopWrite])⟩
    · simp only [batchAddToSection.createItems, hc] at h
      obtain ⟨_, hl⟩ := SaveItemHistoryTx_frame fault
        (e.record (.CreateItemTx sid inp.name inp.description (base + i) true))
        (tx.insertItem sid inp.name inp.description (base + i)).2 inp.name sid
      obtain ⟨h1, h2, h3⟩ := ih _ _ _ _ _ _ h
      exact ⟨h1, h2, ((LogExtends.record e _ (by simp [Event.isLoopWrite])).andThen
        (hl.mono loopSuccess_isLoopWrite)).andThen h3⟩

theorem createItems_total (fault : Fault) (hf : ∀ n, fault n = false) (sid base : Int) :
    ∀ (inputs : List BatchItemInput) (i : Nat) (items : List DbItem) (tx : Tx) (e : Env),
      ∃ res, batchAddToSection.createItems fault sid base inputs i items tx e = .ok res := by
  intro inputs
  induction inputs with
  | nil => intro i items tx e; exact ⟨_, rfl⟩
  | cons inp rest ih =>
    intro i items tx e
    simp only [batchAddToSection.createItems, db.CreateItemTx, hf]
    exact ih _ _ _ _

theorem createSectionItems_ok (fault : Fault) (sid : Int) :
    ∀ (inputs : List BatchItemInput) (i : Nat) (si items : List DbItem) (tx : Tx) (e : Env)
      (si1 items1 : List DbItem) (tx1 : Tx) (e1 : Env),
      createSectionItems fault sid inputs i si items tx e = .ok (si1, items1, tx1, e1) →
      LogExtends e e1 Event.loopSuccess ∧
      si1 = si ++ itemRows sid (fun j => (j : Int)) inputs i tx.nextItemID ∧
      items1 = items ++ itemRows sid (fun j => (j : Int)) inputs i tx.nextItemID ∧
      TxExtends tx tx1 [] (itemRows sid (fun j => (j : Int)) inputs i tx.nextItemID) := by
  intro inputs
  induction inputs with
  | nil =>
    intro i si items tx e si1 items1 tx1 e1 h
    simp only [createSectionItems, Except.ok.injEq, Prod.mk.injEq] at h
    obtain ⟨rfl, rfl, rfl, rfl⟩ := h
    exact ⟨LogExtends.same _ _, by simp [itemRows], by simp [itemRows], TxExtends.unchanged _⟩
  | cons inp rest ih =>
    intro i si items tx e si1 items1 tx1 e1 h
    rcases CreateItemTx_cases fault e tx sid inp.name inp.description i with hc | hc
    · simp [createSectionItems, hc] at h
    · simp only [createSectionItems, hc] at h
      obtain ⟨hx, hl⟩ := SaveItemHistoryTx_frame fault
        (e.record (.CreateItemTx sid inp.name inp.description i true))
        (tx.insertItem sid inp.name inp.description i).2 inp.name sid
      obtain ⟨h1, h2, h2b, h3⟩ := ih _ _ _ _ _ _ _ _ _ h
      have hid : (db.SaveItemHistoryTx fault
          (e.record (.CreateItemTx sid inp.name inp.description i true))
          (tx.insertItem sid inp.name inp.description i).2 inp.name sid).1.nextItemID
          = tx.nextItemID + 1 := by
        rw [hx.nextItemID_eq]; simp [Store.insertItem]
      rw [hid] at h2 h2b h3
      refine ⟨?_, ?_, ?_, ?_⟩
      · exact ((LogExtends.record e _ (by simp [Event.loopSuccess, Event.isLoopWrite,
          Event.isCheckedFailure])).andThen hl).andThen h1
      · rw [h2]; simp [itemRows, Store.insertItem]
      · rw [h2b]; simp [itemRows, Store.insertItem]
      · have := ((insertItem_extends tx sid inp.name inp.description i).andAlso hx).andAlso h3
        simpa [itemRows, Store.insertItem] using this

theorem createSectionItems_error (fault : Fault) (sid : Int) :
    ∀ (inputs : List BatchItemInput) (i : Nat) (si items : List DbItem) (tx : Tx) (e : Env)
      (r : Response) (e1 : Env),
      createSectionItems fault sid inputs i si items tx e = .error (r, e1) →
      r.status = 500 ∧ r.errorCode = some "create_failed" ∧
      LogExtends e e1 (fun ev => ev.isLoopWrite = true) := by
  intro inputs
  induction inputs with
  | nil =>
    intro i si items tx e r e1 h
    simp [createSectionItems] at h
  | cons inp rest ih =>
    intro i si items tx e r e1 h
    rcases CreateItemTx_cases fault e tx sid inp.name inp.description i with hc | hc
    · simp only [createSectionItems, hc, Except.error.injEq, Prod.mk.injEq] at h
      obtain ⟨rfl, rfl⟩ := h
      exact ⟨rfl, rfl, LogExtends.record _ _ (by simp [Event.isLoopWrite])⟩
    · simp only [createSectionItems, hc] at h
      obtain ⟨_, hl⟩ := SaveItemHistoryTx_frame fault
        (e.record (.CreateItemTx sid inp.name inp.description i true))
        (tx.insertItem sid inp.name inp.description i).2 inp.name sid
      obtain ⟨h1, h2, h3⟩ := ih _ _ _ _ _ _ _ h
      exact ⟨h1, h2, ((LogExtends.record e _ (by simp [Event.isLoopWrite])).andThen
        (hl.mono loopSuccess_isLoopWrite)).andThen h3⟩

theorem createSectionItems_total (fault : Fault) (hf : ∀ n, fault n = false) (sid : Int) :
    ∀ (inputs : List BatchItemInput) (i : Nat) (si items : List DbItem) (tx : Tx) (e : Env),
      ∃ res, createSectionItems fault sid inputs i si items tx e = .ok res := by
  intro inputs
  induction inputs with
  | nil => intro i si items tx e; exact ⟨_, rfl⟩
  | cons inp rest ih =>
    intro i si items tx e
    simp only [createSectionItems, db.CreateItemTx, hf]
    exact ih _ _ _ _ _

theorem createSections_ok (fault : Fault) (listID : Int) (order : Nat → Int) :
    ∀ (inputs : List BatchSectionInput) (i : Nat) (st st1 : LoopState),
      createSections fault listID order inputs i st = .ok st1 →
      LogExtends st.env st1.env Event.loopSuccess ∧
      st1.sections = st.sections ++
        sectionRows listID order inputs i st.tx.nextSectionID st.tx.nextItemID ∧
      st1.items = st.items ++
        (sectionRows listID order inputs i st.tx.nextSectionID st.tx.nextItemID).flatMap
          (fun x => x.items) ∧
      TxExtends st.tx st1.tx
        ((sectionRows listID order inputs i st.tx.nextSectionID st.tx.nextItemID).map
          DbSection.row)
        ((sectionRows listID order inputs i st.tx.nextSectionID st.tx.nextItemID).flatMap
          (fun x => x.items)) := by
  intro inputs
  induction inputs with
  | nil =>
    intro i st st1 h
    simp only [createSections, Except.ok.injEq] at h
    subst h
    exact ⟨LogExtends.same _ _, by simp [sectionRows], by simp [sectionRows],
      by simpa [sectionRows] using TxExtends.unchanged st.tx⟩
  | cons inp rest ih =>
    intro i st st1 h
    rcases CreateSectionForListTx_cases fault st.env st.tx listID inp.name (order i) with hc | hc
    · simp [createSections, hc] at h
    · simp only [createSections, hc] at h
      split at h
      · simp at h
      · rename_i si items tx2 e2 hin
        obtain ⟨g1, g2, g3, g4⟩ := createSectionItems_ok fault _ _ _ _ _ _ _ _ _ _ _ hin
        obtain ⟨h1, h2, h3, h4⟩ := ih _ _ _ h
        have hsid : tx2.nextSectionID = st.tx.nextSectionID + 1 := by
          rw [g4.nextSectionID_eq]; simp [Store.insertSection]
        have hiid : tx2.nextItemID = st.tx.nextItemID + inp.items.length := by
          rw [g4.nextItemID_eq, itemRows_length]; simp [Store.insertSection]
        simp only [hsid, hiid] at h2 h3 h4
        refine ⟨?_, ?_, ?_, ?_⟩
        · exact ((LogExtends.record st.env _ (by simp [Event.loopSuccess, Event.isLoopWrite,
            Event.isCheckedFailure])).andThen g1).andThen h1
        · rw [h2]; simp [sectionRows, Store.insertSection, g2]
        · rw [h3]; simp [sectionRows, Store.insertSection, g3]
        · have := ((insertSection_extends st.tx listID inp.name (order i)).andAlso g4).andAlso h4
          simpa [sectionRows, Store.insertSection, DbSection.row] using this

theorem createSections_error (fault : Fault) (listID : Int) (order : Nat → Int) :
    ∀ (inputs : List BatchSectionInput) (i : Nat) (st : LoopState) (r : Response) (e1 : Env),
      createSections fault listID order inputs i st = .error (r, e1) →
      r.status = 500 ∧ r.errorCode = some "create_failed" ∧
      LogExtends st.env e1 (fun ev => ev.isLoopWrite = true) := by
  intro inputs
  induction inputs with
  | nil =>
    intro i st r e1 h
    simp [createSections] at h
  | cons inp rest ih =>
    intro i st r e1 h
    rcases CreateSectionForListTx_cases fault st.env st.tx listID inp.name (order i) with hc | hc
    · simp only [createSections, hc, Except.error.injEq, Prod.mk.injEq] at h
      obtain ⟨rfl, rfl⟩ := h
      exact ⟨rfl, rfl, LogExtends.record _ _ (by simp [Event.isLoopWrite])⟩
    · simp only [createSections, hc] at h
      have hrec : LogExtends st.env
          (st.env.record (.CreateSectionForListTx listID inp.name (order i) true))
          (fun ev => ev.isLoopWrite = true) :=
        LogExtends.record _ _ (by simp [Event.isLoopWrite])
      split at h
      · rename_i r2 hin
        simp only [Except.error.injEq] at h
        subst h
        obtain ⟨g1, g2, g3⟩ := createSectionItems_error fault _ _ _ _ _ _ _ _ _ hin
        exact ⟨g1, g2, hrec.andThen g3⟩
      · rename_i si items tx2 e2 hin
        obtain ⟨g1, _, _, _⟩ := createSectionItems_ok fault _ _ _ _ _ _ _ _ _ _ _ hin
        obtain ⟨h1, h2, h3⟩ := ih _ _ _ _ h
        exact ⟨h1, h2, (hrec.andThen (g1.mono loopSuccess_isLoopWrite)).andThen h3⟩

theorem createSections_total (fault : Fault) (hf : ∀ n, fault n = false) (listID : Int)
    (order : Nat → Int) :
    ∀ (inputs : List BatchSectionInput) (i : Nat) (st : LoopState),
      ∃ res, createSections fault listID order inputs i st = .ok res := by
  intro inputs
  induction inputs with
  | nil => intro i st; exact ⟨_, rfl⟩
  | cons inp rest ih =>
    intro i st
    simp only [createSections, db.CreateSectionForListTx, hf]
    obtain ⟨res, hres⟩ := createSectionItems_total fault hf
      (st.tx.insertSection listID inp.name (order i)).1.id inp.items 0 [] st.items
      (st.tx.insertSection listID inp.name (order i)).2
      (st.env.record (.CreateSectionForListTx listID inp.name (order i) true))
    obtain ⟨a, b, c, d⟩ := res
    simp only [Bool.false_eq_true, ↓reduceIte, hres]
    exact ih _ _

theorem isLoopWrite_not_broadcast (ev : Event) (h : ev.isLoopWrite = true) :
    ev.isBroadcast = false := by
  cases ev <;> simp_all [Event.isLoopWrite, Event.isBroadcast]

theorem LogExtends.of_eq {e e1 : Env} {p : Event → Prop} (evs : List Event)
    (hs : e1.store = e.store) (hl : e1.log = e.log ++ evs) (hp : ∀ ev ∈ evs, p ev) :
    LogExtends e e1 p := ⟨hs, evs, hl, hp⟩

theorem LogExtends.quiet (e : Env) (ev : Event) (h : ev.isBroadcast = false) :
    LogExtends e (e.record ev) (fun ev => ev.isBroadcast = false) :=
  LogExtends.record e ev h

theorem batchAddToSection_cases (fault : Fault) (e : Env) (req : BatchCreateRequest) :
    (batchAddToSection fault e req = (errorJSON 500 "db_error" "Failed to fetch section",
        e.record (.GetSectionByID req.section_id))) ∨
    (e.store.findSection req.section_id = none ∧
      batchAddToSection fault e req = (errorJSON 404 "not_found" "Section not found",
        e.record (.GetSectionByID req.section_id))) ∨
    (∃ r, batchAddToSection.validateItems req.items = some r ∧
      batchAddToSection fault e req = (r, e.record (.GetSectionByID req.section_id))) ∨
    (batchAddToSection fault e req = (errorJSON 500 "db_error" "Failed to start transaction",
        (e.record (.GetSectionByID req.section_id)).record (.Begin false))) ∨
    ((batchAddToSection fault e req).1.status = 500 ∧
      ((batchAddToSection fault e req).1.errorCode = some "create_failed" ∨
        (batchAddToSection fault e req).1.errorCode = some "commit_failed") ∧
      LogExtends e (batchAddToSection fault e req).2 (fun ev => ev.isBroadcast = false)) ∨
    (∃ evs, (∃ x, e.store.findSection req.section_id = some x) ∧
      batchAddToSection.validateItems req.items = none ∧
      (batchAddToSection fault e req).1 =
        { status := 201,
          body := .batch
            { list := none, sections := [],
              items := itemRows req.section_id
                (fun j => maxOrder (e.store.itemOrders req.section_id) + 1 + (j : Int))
                req.items 0 e.store.nextItemID } } ∧
      TxExtends e.store (batchAddToSection fault e req).2.store []
        (itemRows req.section_id
          (fun j => maxOrder (e.store.itemOrders req.section_id) + 1 + (j : Int))
          req.items 0 e.store.nextItemID) ∧
      (batchAddToSection fault e req).2.log =
        e.log ++ [.GetSectionByID req.section_id, .Begin true,
          .GetMaxItemOrderTx req.section_id (maxOrder (e.store.itemOrders req.section_id))]
          ++ evs ++ [.Commit true,
            .BroadcastUpdate "batch_created" (.section_id req.section_id), .Rollback] ∧
      ∀ ev ∈ evs, ev.loopSuccess) := by
  rcases GetSectionByID_cases fault e req.section_id with h | ⟨hn, h⟩ | ⟨x, hx, h⟩
  · left; simp [batchAddToSection, h]
  · right; left; simp [batchAddToSection, h, hn]
  · right; right
    cases hv : batchAddToSection.validateItems req.items with
    | some r => left; exact ⟨r, rfl, by simp [batchAddToSection, h, hv]⟩
    | none =>
      right
      rcases Begin_cases fault (e.record (.GetSectionByID req.section_id)) with hb | hb
      · left; simp [batchAddToSection, h, hv, hb]
      · right
        have h0 : LogExtends e (((e.record (.GetSectionByID req.section_id)).record
            (.Begin true)).record (.GetMaxItemOrderTx req.section_id
              (maxOrder (e.store.itemOrders req.section_id))))
            (fun ev => ev.isBroadcast = false) :=
          ((LogExtends.quiet e _ (by rfl)).andThen (LogExtends.quiet _ _ (by rfl))).andThen
            (LogExtends.quiet _ _ (by rfl))
        cases hloop : batchAddToSection.createItems fault req.section_id
            (maxOrder (e.store.itemOrders req.section_id) + 1) req.items 0 [] e.store
            (((e.record (.GetSectionByID req.section_id)).record (.Begin true)).record
              (.GetMaxItemOrderTx req.section_id
                (maxOrder (e.store.itemOrders req.section_id)))) with
        | error re =>
          obtain ⟨r, e4⟩ := re
          left
          have heq : batchAddToSection fault e req = (r, db.Rollback e4) := by
            simp only [batchAddToSection, h, hv, hb, db.GetMaxItemOrderTx, Env.record_store,
              hloop]
          obtain ⟨h1, h2, h3⟩ := createItems_error fault _ _ _ _ _ _ _ _ _ hloop
          rw [heq]
          exact ⟨h1, Or.inl h2, (h0.andThen (h3.mono isLoopWrite_not_broadcast)).andThen
            (LogExtends.quiet _ _ (by rfl))⟩
        | ok res =>
          obtain ⟨items, tx4, e4⟩ := res
          obtain ⟨h1, h2, h3⟩ := createItems_ok fault _ _ _ _ _ _ _ _ _ _ hloop
          rcases Commit_cases fault e4 tx4 with hc | hc
          · left
            have heq : batchAddToSection fault e req =
                (errorJSON 500 "commit_failed" "Failed to commit transaction",
                  db.Rollback (e4.record (.Commit false))) := by
              simp only [batchAddToSection, h, hv, hb, db.GetMaxItemOrderTx, Env.record_store,
                hloop, hc]
            rw [heq]
            exact ⟨rfl, Or.inr rfl,
              ((h0.andThen (h1.mono (fun ev hev => isLoopWrite_not_broadcast ev hev.1))).andThen
                (LogExtends.quiet _ _ (by rfl))).andThen (LogExtends.quiet _ _ (by rfl))⟩
          · right
            have heq : batchAddToSection fault e req =
                ({ status := 201,
                   body := .batch { list := none, sections := [], items := items } },
                  db.Rollback (handlers.BroadcastUpdate
                    { store := tx4, log := e4.log ++ [.Commit true] } "batch_created"
                    (.section_id req.section_id))) := by
              simp only [batchAddToSection, h, hv, hb, db.GetMaxItemOrderTx, Env.record_store,
                hloop, hc]
            obtain ⟨hs, evs, hl, hp⟩ := h1
            rw [heq]
            refine ⟨evs, ⟨x, hx⟩, rfl, ?_, ?_, ?_, hp⟩
            · simp [h2]
            · simpa [db.Rollback, handlers.BroadcastUpdate] using h3
            · simp [db.Rollback, handlers.BroadcastUpdate, hl]

theorem addToSection_validateItems_error (xs : List BatchItemInput) (r : Response)
    (h : batchAddToSection.validateItems xs = some r) :
    r.status = 400 ∧ r.errorCode = some "validation_error" := by
  induction xs with
  | nil => simp [batchAddToSection.validateItems] at h
  | cons x rest ih =>
    simp only [batchAddToSection.validateItems] at h
    split at h
    · cases h; exact ⟨rfl, rfl⟩
    · split at h
      · cases h; exact ⟨rfl, rfl⟩
      · exact ih h

theorem addToList_validateItems_error (xs : List BatchItemInput) (r : Response)
    (h : batchAddToList.validateItems xs = some r) :
    r.status = 400 ∧ r.errorCode = some "validation_error" := by
  induction xs with
  | nil => simp [batchAddToList.validateItems] at h
  | cons x rest ih =>
    simp only [batchAddToList.validateItems] at h
    split at h
    · cases h; exact ⟨rfl, rfl⟩
    · split at h
      · cases h; exact ⟨rfl, rfl⟩
      · exact ih h

theorem addToList_validateSections_error (xs : List BatchSectionInput) (r : Response)
    (h : batchAddToList.validateSections xs = some r) :
    r.status = 400 ∧ r.errorCode = some "validation_error" := by
  induction xs with
  | nil => simp [batchAddToList.validateSections] at h
  | cons x rest ih =>
    simp only [batchAddToList.validateSections] at h
    split at h
    · cases h; exact ⟨rfl, rfl⟩
    · split at h
      · cases h; exact ⟨rfl, rfl⟩
      · split at h
        · rename_i r2 hr2
          cases h
          exact addToList_validateItems_error _ _ hr2
        · exact ih h

theorem newList_validateItems_error (xs : List BatchItemInput) (r : Response)
    (h : batchCreateNewList.validateItems xs = some r) :
    r.status = 400 ∧ r.errorCode = some "validation_error" := by
  induction xs with
  | nil => simp [batchCreateNewList.validateItems] at h
  | cons x rest ih =>
    simp only [batchCreateNewList.validateItems] at h
    split at h
    · cases h; exact ⟨rfl, rfl⟩
    · split at h
      · cases h; exact ⟨rfl, rfl⟩
      · split at h
        · cases h; exact ⟨rfl, rfl⟩
        · exact ih h

theorem newList_validateSections_error (xs : List BatchSectionInput) (r : Response)
    (h : batchCreateNewList.validateSections xs = some r) :
    r.status = 400 ∧ r.errorCode = some "validation_error" := by
  induction xs with
  | nil => simp [batchCreateNewList.validateSections] at h
  | cons x rest ih =>
    simp only [batchCreateNewList.validateSections] at h
    split at h
    · cases h; exact ⟨rfl, rfl⟩
    · split at h
      · cases h; exact ⟨rfl, rfl⟩
      · split at h
        · rename_i r2 hr2
          cases h
          exact newList_validateItems_error _ _ hr2
        · exact ih h

theorem batchAddToList_cases (fault : Fault) (e : Env) (req : BatchCreateRequest) :
    (batchAddToList fault e req = (errorJSON 500 "db_error" "Failed to fetch list",
        e.record (.GetListByID req.list_id))) ∨
    (e.store.findList req.list_id = none ∧
      batchAddToList fault e req = (errorJSON 404 "not_found" "List not found",
        e.record (.GetListByID req.list_id))) ∨
    (∃ r, batchAddToList.validateSections req.sections = some r ∧
      batchAddToList fault e req = (r, e.record (.GetListByID req.list_id))) ∨
    (batchAddToList fault e req = (errorJSON 500 "db_error" "Failed to start transaction",
        (e.record (.GetListByID req.list_id)).record (.Begin false))) ∨
    ((batchAddToList fault e req).1.status = 500 ∧
      ((batchAddToList fault e req).1.errorCode = some "create_failed" ∨
        (batchAddToList fault e req).1.errorCode = some "commit_failed") ∧
      LogExtends e (batchAddToList fault e req).2 (fun ev => ev.isBroadcast = false)) ∨
    (∃ evs, (∃ x, e.store.findList req.list_id = some x) ∧
      batchAddToList.validateSections req.sections = none ∧
      (batchAddToList fault e req).1 =
        { status := 201,
          body := .batch
            { list := none,
              sections := sectionRows req.list_id
                (fun i => maxOrder (e.store.sectionOrders req.list_id) + 1 + (i : Int))
                req.sections 0 e.store.nextSectionID e.store.nextItemID,
              items := (sectionRows req.list_id
                (fun i => maxOrder (e.store.sectionOrders req.list_id) + 1 + (i : Int))
                req.sections 0 e.store.nextSectionID e.store.nextItemID).flatMap
                  (fun x => x.items) } } ∧
      TxExtends e.store (batchAddToList fault e req).2.store
        ((sectionRows req.list_id
          (fun i => maxOrder (e.store.sectionOrders req.list_id) + 1 + (i : Int))
          req.sections 0 e.store.nextSectionID e.store.nextItemID).map DbSection.row)
        ((sectionRows req.list_id
          (fun i => maxOrder (e.store.sectionOrders req.list_id) + 1 + (i : Int))
          req.sections 0 e.store.nextSectionID e.store.nextItemID).flatMap
            (fun x => x.items)) ∧
      (batchAddToList fault e req).2.log =
        e.log ++ [.GetListByID req.list_id, .Begin true,
          .GetMaxSectionOrderTx req.list_id (maxOrder (e.store.sectionOrders req.list_id))]
          ++ evs ++ [.Commit true,
            .BroadcastUpdate "batch_created" (.list_id req.list_id), .Rollback] ∧
      ∀ ev ∈ evs, ev.loopSuccess) := by
  rcases GetListByID_cases fault e req.list_id with h | ⟨hn, h⟩ | ⟨x, hx, h⟩
  · left; simp [batchAddToList, h]
  · right; left; simp [batchAddToList, h, hn]
  · right; right
    cases hv : batchAddToList.validateSections req.sections with
    | some r => left; exact ⟨r, rfl, by simp [batchAddToList, h, hv]⟩
    | none =>
      right
      rcases Begin_cases fault (e.record (.GetListByID req.list_id)) with hb | hb
      · left; simp [batchAddToList, h, hv, hb]
      · right
        have h0 : LogExtends e (((e.record (.GetListByID req.list_id)).record
            (.Begin true)).record (.GetMaxSectionOrderTx req.list_id
              (maxOrder (e.store.sectionOrders req.list_id))))
            (fun ev => ev.isBroadcast = false) :=
          ((LogExtends.quiet e _ (by rfl)).andThen (LogExtends.quiet _ _ (by rfl))).andThen
            (LogExtends.quiet _ _ (by rfl))
        cases hloop : createSections fault req.list_id
            (fun i => maxOrder (e.store.sectionOrders req.list_id) + 1 + (i : Int))
            req.sections 0
            { sections := [], items := [], tx := e.store,
              env := (((e.record (.GetListByID req.list_id)).record (.Begin true)).record
                (.GetMaxSectionOrderTx req.list_id
                  (maxOrder (e.store.sectionOrders req.list_id)))) } with
        | error re =>
          obtain ⟨r, e4⟩ := re
          left
          have heq : batchAddToList fault e req = (r, db.Rollback e4) := by
            simp only [batchAddToList, h, hv, hb, db.GetMaxSectionOrderTx, Env.record_store,
              hloop]
          obtain ⟨h1, h2, h3⟩ := createSections_error fault _ _ _ _ _ _ _ hloop
          rw [heq]
          exact ⟨h1, Or.inl h2, (h0.andThen (h3.mono isLoopWrite_not_broadcast)).andThen
            (LogExtends.quiet _ _ (by rfl))⟩
        | ok st =>
          obtain ⟨h1, h2, h2b, h3⟩ := createSections_ok fault _ _ _ _ _ _ hloop
          rcases Commit_cases fault st.env st.tx with hc | hc
          · left
            have heq : batchAddToList fault e req =
                (errorJSON 500 "commit_failed" "Failed to commit transaction",
                  db.Rollback (st.env.record (.Commit false))) := by
              simp only [batchAddToList, h, hv, hb, db.GetMaxSectionOrderTx, Env.record_store,
                hloop, hc]
            rw [heq]
            exact ⟨rfl, Or.inr rfl,
              ((h0.andThen (h1.mono (fun ev hev => isLoopWrite_not_broadcast ev hev.1))).andThen
                (LogExtends.quiet _ _ (by rfl))).andThen (LogExtends.quiet _ _ (by rfl))⟩
          · right
            have heq : batchAddToList fault e req =
                ({ status := 201,
                   body := .batch { list := none, sections := st.sections, items := st.items } },
                  db.Rollback (handlers.BroadcastUpdate
                    { store := st.tx, log := st.env.log ++ [.Commit true] } "batch_created"
                    (.list_id req.list_id))) := by
              simp only [batchAddToList, h, hv, hb, db.GetMaxSectionOrderTx, Env.record_store,
                hloop, hc]
            obtain ⟨hs, evs, hl, hp⟩ := h1
            rw [heq]
            refine ⟨evs, ⟨x, hx⟩, rfl, ?_, ?_, ?_, hp⟩
            · simp [h2, h2b]
            · simpa [db.Rollback, handlers.BroadcastUpdate] using h3
            · simp [db.Rollback, handlers.BroadcastUpdate, hl]

theorem batchCreateNewList_cases (fault : Fault) (e : Env) (l : BatchListInput) :
    ((l.name = "" ∨ len l.name > MaxListNameLength ∨
        batchCreateNewList.validateSections l.sections ≠ none) ∧
      ∃ r, r.status = 400 ∧ r.errorCode = some "validation_error" ∧
        batchCreateNewList fault e l = (r, e)) ∨
    (batchCreateNewList fault e l = (errorJSON 500 "db_error" "Failed to start transaction",
        e.record (.Begin false))) ∨
    ((batchCreateNewList fault e l).1.status = 500 ∧
      ((batchCreateNewList fault e l).1.errorCode = some "create_failed" ∨
        (batchCreateNewList fault e l).1.errorCode = some "commit_failed") ∧
      LogExtends e (batchCreateNewList fault e l).2 (fun ev => ev.isBroadcast = false)) ∨
    (∃ evs, l.name ≠ "" ∧ ¬ len l.name > MaxListNameLength ∧
      batchCreateNewList.validateSections l.sections = none ∧
      (batchCreateNewList fault e l).1 =
        { status := 201,
          body := .batch
            { list := some
                { (e.store.insertList l.name (NormalizeIcon l.icon)).1 with
                  stats := some ((batchCreateNewList fault e l).2.store.listStats
                    e.store.nextListID) },
              sections := sectionRows e.store.nextListID (fun i => (i : Int))
                l.sections 0 e.store.nextSectionID e.store.nextItemID,
              items := (sectionRows e.store.nextListID (fun i => (i : Int))
                l.sections 0 e.store.nextSectionID e.store.nextItemID).flatMap
                  (fun x => x.items) } } ∧
      TxExtends (e.store.insertList l.name (NormalizeIcon l.icon)).2
        (batchCreateNewList fault e l).2.store
        ((sectionRows e.store.nextListID (fun i => (i : Int))
          l.sections 0 e.store.nextSectionID e.store.nextItemID).map DbSection.row)
        ((sectionRows e.store.nextListID (fun i => (i : Int))
          l.sections 0 e.store.nextSectionID e.store.nextItemID).flatMap
            (fun x => x.items)) ∧
      (batchCreateNewList fault e l).2.log =
        e.log ++ [.Begin true, .CreateListTx l.name (NormalizeIcon l.icon) true]
          ++ evs ++ [.Commit true, .GetListStats e.store.nextListID,
            .BroadcastUpdate "batch_created" (.list_id e.store.nextListID), .Rollback] ∧
      ∀ ev ∈ evs, ev.loopSuccess) := by
  by_cases hname : l.name = ""
  · left
    exact ⟨Or.inl hname, errorJSON 400 "validation_error" "List name is required", rfl, rfl,
      by simp [batchCreateNewList, hname]⟩
  by_cases hlen : len l.name > MaxListNameLength
  · left
    exact ⟨Or.inr (Or.inl hlen), errorJSON 400 "validation_error"
      "List name exceeds maximum length of 100 characters", rfl, rfl,
      by simp [batchCreateNewList, hname, hlen]⟩
  cases hv : batchCreateNewList.validateSections l.sections with
  | some r =>
    left
    obtain ⟨h1, h2⟩ := newList_validateSections_error _ _ hv
    exact ⟨Or.inr (Or.inr (by simp)), r, h1, h2,
      by simp [batchCreateNewList, hname, hlen, hv]⟩
  | none =>
    right
    rcases Begin_cases fault e with hb | hb
    · left; simp [batchCreateNewList, hname, hlen, hv, hb]
    · right
      rcases CreateListTx_cases fault (e.record (.Begin true)) e.store l.name
          (NormalizeIcon l.icon) with hcl | hcl
      · left
        have heq : batchCreateNewList fault e l =
            (errorJSON 500 "create_failed" "Failed to create list",
              db.Rollback ((e.record (.Begin true)).record
                (.CreateListTx l.name (NormalizeIcon l.icon) false))) := by
          simp only [batchCreateNewList, hname, hlen, hv, hb, hcl, ↓reduceIte]
        rw [heq]
        exact ⟨rfl, Or.inl rfl, ((LogExtends.quiet e _ (by rfl)).andThen
          (LogExtends.quiet _ _ (by rfl))).andThen (LogExtends.quiet _ _ (by rfl))⟩
      · have h0 : LogExtends e ((e.record (.Begin true)).record
            (.CreateListTx l.name (NormalizeIcon l.icon) true))
            (fun ev => ev.isBroadcast = false) :=
          (LogExtends.quiet e _ (by rfl)).andThen (LogExtends.quiet _ _ (by rfl))
        cases hloop : createSections fault (e.store.insertList l.name (NormalizeIcon l.icon)).1.id
            (fun i => (i : Int)) l.sections 0
            { sections := [], items := [],
              tx := (e.store.insertList l.name (NormalizeIcon l.icon)).2,
              env := (e.record (.Begin true)).record
                (.CreateListTx l.name (NormalizeIcon l.icon) true) } with
        | error re =>
          obtain ⟨r, e4⟩ := re
          left
          have heq : batchCreateNewList fault e l = (r, db.Rollback e4) := by
            simp only [batchCreateNewList, hname, hlen, hv, hb, hcl, ↓reduceIte, hloop]
          obtain ⟨h1, h2, h3⟩ := createSections_error fault _ _ _ _ _ _ _ hloop
          rw [heq]
          exact ⟨h1, Or.inl h2, (h0.andThen (h3.mono isLoopWrite_not_broadcast)).andThen
            (LogExtends.quiet _ _ (by rfl))⟩
        | ok st =>
          obtain ⟨h1, h2, h2b, h3⟩ := createSections_ok fault _ _ _ _ _ _ hloop
          rcases Commit_cases fault st.env st.tx with hc | hc
          · left
            have heq : batchCreateNewList fault e l =
                (errorJSON 500 "commit_failed" "Failed to commit transaction",
                  db.Rollback (st.env.record (.Commit false))) := by
              simp only [batchCreateNewList, hname, hlen, hv, hb, hcl, ↓reduceIte, hloop, hc]
            rw [heq]
            exact ⟨rfl, Or.inr rfl,
              ((h0.andThen (h1.mono (fun ev hev => isLoopWrite_not_broadcast ev hev.1))).andThen
                (LogExtends.quiet _ _ (by rfl))).andThen (LogExtends.quiet _ _ (by rfl))⟩
          · right
            have heq : batchCreateNewList fault e l =
                ({ status := 201,
                   body := .batch
                     { list := some
                         { (e.store.insertList l.name (NormalizeIcon l.icon)).1 with
                           stats := some (st.tx.listStats e.store.nextListID) },
                       sections := st.sections, items := st.items } },
                  db.Rollback (handlers.BroadcastUpdate
                    (({ store := st.tx, log := st.env.log ++ [.Commit true] } : Env).record
                      (.GetListStats e.store.nextListID)) "batch_created"
                    (.list_id e.store.nextListID))) := by
              simp only [batchCreateNewList, hname, hlen, hv, hb, hcl, ↓reduceIte, hloop, hc,
                db.GetListStats]
              rfl
            obtain ⟨hs, evs, hl, hp⟩ := h1
            rw [heq]
            refine ⟨evs, hname, hlen, rfl, ?_, ?_, ?_, hp⟩
            · simp only [h2, h2b]
              simp [db.Rollback, handlers.BroadcastUpdate, Store.insertList]
            · simpa [db.Rollback, handlers.BroadcastUpdate, Store.insertList] using h3
            · simp [db.Rollback, handlers.BroadcastUpdate, hl]

theorem broadcasts_append (l1 l2 : List Event) :
    broadcasts (l1 ++ l2) = broadcasts l1 ++ broadcasts l2 := by
  induction l1 with
  | nil => rfl
  | cons ev rest ih => cases ev <;> simp [broadcasts, ih]

theorem broadcasts_quiet (evs : List Event) (h : ∀ ev ∈ evs, ev.isBroadcast = false) :
    broadcasts evs = [] := by
  induction evs with
  | nil => rfl
  | cons ev rest ih =>
    have h1 := h ev (by simp)
    have h2 := ih (fun x hx => h x (by simp [hx]))
    cases ev <;> simp_all [broadcasts, Event.isBroadcast]

theorem loopSuccess_quiet (evs : List Event) (h : ∀ ev ∈ evs, ev.loopSuccess) :
    broadcasts evs = [] :=
  broadcasts_quiet evs (fun ev hev => isLoopWrite_not_broadcast ev (h ev hev).1)

@[simp] theorem Outcome.ofRun_resp (r : Response × Env) : (Outcome.ofRun r).resp = r.1 := rfl

@[simp] theorem Outcome.ofRun_store (r : Response × Env) :
    (Outcome.ofRun r).store = r.2.store := rfl

@[simp] theorem Outcome.ofRun_log (r : Response × Env) : (Outcome.ofRun r).log = r.2.log := rfl

theorem LogExtends.init_log {s : Store} {e1 : Env} {p : Event → Prop}
    (h : LogExtends (Env.init s) e1 p) : e1.store = s ∧ ∀ ev ∈ e1.log, p ev := by
  obtain ⟨hs, evs, hl, hp⟩ := h
  have hl2 : e1.log = evs := by simpa [Env.init] using hl
  exact ⟨hs, by rw [hl2]; exact hp⟩

/-- An outcome that ended in an error inside the transaction or at `Begin`. -/
theorem BatchFacts.of_failure (s : Store) (o : Outcome) (payload : Payload)
    (hst : o.resp.status = 500) (hcode : o.resp.errorCode ≠ some "validation_error")
    (herr : ∃ code, o.resp.errorCode = some code)
    (hs : o.store = s) (hp : ∀ ev ∈ o.log, ev.isBroadcast = false) :
    BatchFacts s o payload :=
  ⟨by simp [hst], fun _ => hst, fun _ => hs, by simp [hst],
    fun _ => broadcasts_quiet _ hp, fun h => absurd h hcode, fun _ => herr⟩

/-- An outcome that ended before `Begin`, having issued at most one read. -/
theorem BatchFacts.of_early (s : Store) (o : Outcome) (payload : Payload)
    (hst : o.resp.status = 400 ∨ o.resp.status = 404 ∨ o.resp.status = 500)
    (hcode : o.resp.errorCode = some "validation_error" → o.resp.status = 400)
    (herr : ∃ code, o.resp.errorCode = some code)
    (hs : o.store = s)
    (hlog : o.log = [] ∨ (∃ id, o.log = [.GetListByID id]) ∨
      ∃ id, o.log = [.GetSectionByID id]) :
    BatchFacts s o payload := by
  have hne : o.resp.status ≠ 201 := by omega
  have hin : ∀ ev ∈ o.log, ev.isInert ∧ ev.isCheckedFailure = false := by
    intro ev hev
    rcases hlog with h | ⟨id, h⟩ | ⟨id, h⟩ <;> rw [h] at hev <;> simp at hev <;> subst hev <;>
      simp [Event.isInert, Event.isBegin, Event.isWrite, Event.isBroadcast,
        Event.isCheckedFailure]
  refine ⟨Or.inr hst, ?_, fun _ => hs, fun h => absurd h hne, fun _ => ?_,
    fun h => ⟨hcode h, hs, fun ev hev => (hin ev hev).1⟩, fun _ => herr⟩
  · rintro ⟨ev, hev, hc⟩
    rw [(hin ev hev).2] at hc
    cases hc
  · exact broadcasts_quiet _ (fun ev hev => (hin ev hev).1.2.2)

/-- An outcome that committed. -/
theorem BatchFacts.of_success (s : Store) (o : Outcome) (payload : Payload)
    (pre evs post : List Event)
    (hst : o.resp.status = 201) (hcode : o.resp.errorCode = none)
    (hlog : o.log = pre ++ evs ++ post ++ [.BroadcastUpdate "batch_created" payload, .Rollback])
    (hpre : ∀ ev ∈ pre ++ post, ev.isBroadcast = false ∧ ev.isCheckedFailure = false)
    (hevs : ∀ ev ∈ evs, ev.loopSuccess) :
    BatchFacts s o payload := by
  refine ⟨Or.inl hst, ?_, fun h => absurd hst h, fun _ => ?_, fun h => absurd hst h, ?_,
    fun h => absurd hst h⟩
  · rintro ⟨ev, hev, hc⟩
    rw [hlog] at hev
    simp only [List.mem_append, List.mem_cons, List.mem_singleton, List.not_mem_nil,
      or_false] at hev
    rcases hev with ((h | h) | h) | h | h
    · rw [(hpre ev (by simp [h])).2] at hc; cases hc
    · rw [(hevs ev h).2] at hc; cases hc
    · rw [(hpre ev (by simp [h])).2] at hc; cases hc
    · subst h; simp [Event.isCheckedFailure] at hc
    · subst h; simp [Event.isCheckedFailure] at hc
  · rw [hlog]
    simp only [broadcasts_append]
    rw [broadcasts_quiet pre (fun ev hev => (hpre ev (by simp [hev])).1),
      broadcasts_quiet post (fun ev hev => (hpre ev (by simp [hev])).1),
      loopSuccess_quiet evs hevs]
    rfl
  · intro h
    rw [hcode] at h
    cases h

theorem errorCode_ne_validation_of (r : Response)
    (h : r.errorCode = some "create_failed" ∨ r.errorCode = some "commit_failed") :
    r.errorCode ≠ some "validation_error" := by
  rcases h with h | h <;> rw [h] <;> decide

theorem batchAddToSection_facts (fault : Fault) (s : Store) (req : BatchCreateRequest) :
    BatchFacts s (Outcome.ofRun (batchAddToSection fault (Env.init s) req))
      (.section_id req.section_id) := by
  rcases batchAddToSection_cases fault (Env.init s) req with
    h | ⟨_, h⟩ | ⟨r, hv, h⟩ | h | ⟨h1, h2, h3⟩ | ⟨evs, _, _, h1, _, h3, h4⟩
  · rw [h]
    exact BatchFacts.of_early _ _ _ (by simp [errorJSON]) (by simp [errorJSON, Response.errorCode])
      ⟨_, rfl⟩ rfl (Or.inr (Or.inr ⟨_, rfl⟩))
  · rw [h]
    exact BatchFacts.of_early _ _ _ (by simp [errorJSON]) (by simp [errorJSON, Response.errorCode])
      ⟨_, rfl⟩ rfl (Or.inr (Or.inr ⟨_, rfl⟩))
  · rw [h]
    obtain ⟨g1, g2⟩ := addToSection_validateItems_error _ _ hv
    exact BatchFacts.of_early _ _ _ (Or.inl g1) (fun _ => g1) ⟨_, g2⟩ rfl (Or.inr (Or.inr ⟨_, rfl⟩))
  · rw [h]
    exact BatchFacts.of_failure _ _ _ rfl (by simp [errorJSON, Response.errorCode]) ⟨_, rfl⟩ rfl
      (by simp [Env.init, Event.isBroadcast])
  · exact BatchFacts.of_failure _ _ _ h1 (errorCode_ne_validation_of _ h2)
      (by rcases h2 with h | h <;> exact ⟨_, h⟩) h3.init_log.1 h3.init_log.2
  · refine BatchFacts.of_success _ _ _
      [.GetSectionByID req.section_id, .Begin true,
        .GetMaxItemOrderTx req.section_id (maxOrder (s.itemOrders req.section_id))]
      evs [.Commit true] (by rw [Outcome.ofRun_resp, h1]) (by rw [Outcome.ofRun_resp, h1]; rfl)
      (by rw [Outcome.ofRun_log, h3]; simp [Env.init]) ?_ h4
    intro ev hev
    simp only [List.mem_append, List.mem_cons, List.mem_singleton, List.not_mem_nil,
      or_false] at hev
    rcases hev with (rfl | rfl | rfl) | rfl <;> exact ⟨rfl, rfl⟩

theorem batchAddToList_facts (fault : Fault) (s : Store) (req : BatchCreateRequest) :
    BatchFacts s (Outcome.ofRun (batchAddToList fault (Env.init s) req))
      (.list_id req.list_id) := by
  rcases batchAddToList_cases fault (Env.init s) req with
    h | ⟨_, h⟩ | ⟨r, hv, h⟩ | h | ⟨h1, h2, h3⟩ | ⟨evs, _, _, h1, _, h3, h4⟩
  · rw [h]
    exact BatchFacts.of_early _ _ _ (by simp [errorJSON]) (by simp [errorJSON, Response.errorCode])
      ⟨_, rfl⟩ rfl (Or.inr (Or.inl ⟨_, rfl⟩))
  · rw [h]
    exact BatchFacts.of_early _ _ _ (by simp [errorJSON]) (by simp [errorJSON, Response.errorCode])
      ⟨_, rfl⟩ rfl (Or.inr (Or.inl ⟨_, rfl⟩))
  · rw [h]
    obtain ⟨g1, g2⟩ := addToList_validateSections_error _ _ hv
    exact BatchFacts.of_early _ _ _ (Or.inl g1) (fun _ => g1) ⟨_, g2⟩ rfl (Or.inr (Or.inl ⟨_, rfl⟩))
  · rw [h]
    exact BatchFacts.of_failure _ _ _ rfl (by simp [errorJSON, Response.errorCode]) ⟨_, rfl⟩ rfl
      (by simp [Env.init, Event.isBroadcast])
  · exact BatchFacts.of_failure _ _ _ h1 (errorCode_ne_validation_of _ h2)
      (by rcases h2 with h | h <;> exact ⟨_, h⟩) h3.init_log.1 h3.init_log.2
  · refine BatchFacts.of_success _ _ _
      [.GetListByID req.list_id, .Begin true,
        .GetMaxSectionOrderTx req.list_id (maxOrder (s.sectionOrders req.list_id))]
      evs [.Commit true] (by rw [Outcome.ofRun_resp, h1]) (by rw [Outcome.ofRun_resp, h1]; rfl)
      (by rw [Outcome.ofRun_log, h3]; simp [Env.init]) ?_ h4
    intro ev hev
    simp only [List.mem_append, List.mem_cons, List.mem_singleton, List.not_mem_nil,
      or_false] at hev
    rcases hev with (rfl | rfl | rfl) | rfl <;> exact ⟨rfl, rfl⟩

theorem batchCreateNewList_facts (fault : Fault) (s : Store) (l : BatchListInput) :
    BatchFacts s (Outcome.ofRun (batchCreateNewList fault (Env.init s) l))
      (.list_id s.nextListID) := by
  rcases batchCreateNewList_cases fault (Env.init s) l with
    ⟨_, r, g1, g2, h⟩ | h | ⟨h1, h2, h3⟩ | ⟨evs, _, _, _, h1, _, h3, h4⟩
  · rw [h]
    exact BatchFacts.of_early _ _ _ (Or.inl g1) (fun _ => g1) ⟨_, g2⟩ rfl (Or.inl rfl)
  · rw [h]
    exact BatchFacts.of_failure _ _ _ rfl (by simp [errorJSON, Response.errorCode]) ⟨_, rfl⟩ rfl
      (by simp [Env.init, Event.isBroadcast])
  · exact BatchFacts.of_failure _ _ _ h1 (errorCode_ne_validation_of _ h2)
      (by rcases h2 with h | h <;> exact ⟨_, h⟩) h3.init_log.1 h3.init_log.2
  · refine BatchFacts.of_success _ _ _
      [.Begin true, .CreateListTx l.name (NormalizeIcon l.icon) true]
      evs [.Commit true, .GetListStats s.nextListID]
      (by rw [Outcome.ofRun_resp, h1]) (by rw [Outcome.ofRun_resp, h1]; rfl) (by rw [Outcome.ofRun_log, h3]; simp [Env.init]) ?_ h4
    intro ev hev
    simp only [List.mem_append, List.mem_cons, List.mem_singleton, List.not_mem_nil,
      or_false] at hev
    rcases hev with (rfl | rfl) | rfl | rfl <;> exact ⟨rfl, rfl⟩

theorem BatchCreate_newList (fault : Fault) (s : Store) (req : BatchCreateRequest)
    (l : BatchListInput) (h : req.list = some l) :
    api.BatchCreate fault s (some req) =
      Outcome.ofRun (batchCreateNewList fault (Env.init s) l) := by
  simp only [api.BatchCreate, h]

theorem BatchCreate_addToList (fault : Fault) (s : Store) (req : BatchCreateRequest)
    (h : req.list = none) (h2 : req.list_id ≠ 0 ∧ req.sections.length > 0) :
    api.BatchCreate fault s (some req) =
      Outcome.ofRun (batchAddToList fault (Env.init s) req) := by
  simp only [api.BatchCreate, h, if_pos h2]

theorem BatchCreate_addToSection (fault : Fault) (s : Store) (req : BatchCreateRequest)
    (h : req.list = none) (h2 : ¬ (req.list_id ≠ 0 ∧ req.sections.length > 0))
    (h3 : req.section_id ≠ 0 ∧ req.items.length > 0) :
    api.BatchCreate fault s (some req) =
      Outcome.ofRun (batchAddToSection fault (Env.init s) req) := by
  simp only [api.BatchCreate, h, if_neg h2, if_pos h3]

theorem BatchCreate_noVariant (fault : Fault) (s : Store) (req : BatchCreateRequest)
    (h : req.list = none) (h2 : ¬ (req.list_id ≠ 0 ∧ req.sections.length > 0))
    (h3 : ¬ (req.section_id ≠ 0 ∧ req.items.length > 0)) :
    api.BatchCreate fault s (some req) =
      Outcome.ofRun (errorJSON 400 "validation_error"
        "Request must contain either: list (new list), list_id + sections (add to existing list), or section_id + items (add to existing section)",
        Env.init s) := by
  simp only [api.BatchCreate, h, if_neg h2, if_neg h3]

/-- Every outcome of `BatchCreate` satisfies the batch facts, with the payload
`batchPayload`. -/
theorem BatchCreate_facts (fault : Fault) (s : Store) (req : BatchCreateRequest) :
    BatchFacts s (api.BatchCreate fault s (some req)) (batchPayload s req) := by
  cases hl : req.list with
  | some l =>
    rw [BatchCreate_newList fault s req l hl]
    simpa [batchPayload, hl] using batchCreateNewList_facts fault s l
  | none =>
    by_cases h2 : req.list_id ≠ 0 ∧ req.sections.length > 0
    · rw [BatchCreate_addToList fault s req hl h2]
      simpa only [batchPayload, hl, if_pos h2] using batchAddToList_facts fault s req
    · by_cases h3 : req.section_id ≠ 0 ∧ req.items.length > 0
      · rw [BatchCreate_addToSection fault s req hl h2 h3]
        simpa only [batchPayload, hl, if_neg h2] using batchAddToSection_facts fault s req
      · rw [BatchCreate_noVariant fault s req hl h2 h3]
        exact BatchFacts.of_early _ _ _ (by simp [errorJSON])
          (by simp [errorJSON]) ⟨_, rfl⟩ rfl (Or.inl rfl)

theorem BatchCreate_invalid_json (fault : Fault) (s : Store) :
    BatchFacts s (api.BatchCreate fault s none) .null :=
  BatchFacts.of_early _ _ _ (by simp [api.BatchCreate, errorJSON])
    (by simp [api.BatchCreate, errorJSON]) ⟨_, rfl⟩ rfl (Or.inl rfl)

theorem CreateList_cases (fault : Fault) (s : Store) (body : Option CreateListRequest) :
    ((api.CreateList fault s body).resp.status = 400 ∧
      ((api.CreateList fault s body).resp.errorCode = some "invalid_json" ∨
        ((api.CreateList fault s body).resp.errorCode = some "validation_error" ∧
          ∃ req, body = some req ∧
            (req.name = "" ∨ len req.name > MaxListNameLength ∨ len req.icon > MaxIconLength))) ∧
      (api.CreateList fault s body).store = s ∧ (api.CreateList fault s body).log = []) ∨
    (∃ req, body = some req ∧
      api.CreateList fault s body =
        { resp := errorJSON 500 "create_failed" "Failed to create list", store := s,
          log := [.CreateList req.name (NormalizeIcon req.icon) false] }) ∨
    (∃ req, body = some req ∧ req.name ≠ "" ∧ ¬ len req.name > MaxListNameLength ∧
      ¬ len req.icon > MaxIconLength ∧
      api.CreateList fault s body =
        { resp := { status := 201,
                    body := .list (some (s.insertList req.name (NormalizeIcon req.icon)).1) },
          store := (s.insertList req.name (NormalizeIcon req.icon)).2,
          log := [.CreateList req.name (NormalizeIcon req.icon) true,
            .BroadcastUpdate "list_created"
              (.list (s.insertList req.name (NormalizeIcon req.icon)).1)] }) := by
  cases body with
  | none => left; simp [api.CreateList, errorJSON, Response.errorCode, Env.init]
  | some req =>
    by_cases h1 : req.name = ""
    · left; simp [api.CreateList, h1, errorJSON, Response.errorCode, Env.init]
    by_cases h2 : len req.name > MaxListNameLength
    · left; simp [api.CreateList, h1, h2, errorJSON, Response.errorCode, Env.init]
    by_cases h3 : len req.icon > MaxIconLength
    · left; simp [api.CreateList, h1, h2, h3, errorJSON, Response.errorCode, Env.init]
    right
    by_cases hf : fault 0 = true
    · left
      refine ⟨req, rfl, ?_⟩
      simp [api.CreateList, h1, h2, h3, db.CreateList, Env.init, hf, Outcome.ofRun]
    · right
      refine ⟨req, rfl, h1, h2, h3, ?_⟩
      simp [api.CreateList, h1, h2, h3, db.CreateList, Env.init, hf, Outcome.ofRun,
        handlers.BroadcastUpdate]

theorem MoveListUp_cases (fault : Fault) (s : Store) (id : Option Int) :
    (id = none ∧ api.MoveListUp fault s id =
      { resp := errorJSON 400 "invalid_id" "Invalid list ID", store := s, log := [] }) ∨
    (∃ i, id = some i ∧ api.MoveListUp fault s id =
      { resp := errorJSON 500 "db_error" "Failed to fetch list", store := s,
        log := [.GetListByID i] }) ∨
    (∃ i, id = some i ∧ s.findList i = none ∧ api.MoveListUp fault s id =
      { resp := errorJSON 404 "not_found" "List not found", store := s,
        log := [.GetListByID i] }) ∨
    (∃ i, id = some i ∧ api.MoveListUp fault s id =
      { resp := errorJSON 500 "move_failed" "Failed to move list", store := s,
        log := [.GetListByID i, .MoveListUp i false] }) ∨
    (∃ i s1 l, id = some i ∧ (∃ x, s.findList i = some x) ∧ s.moveListUp i = some s1 ∧
      (l = none ∨ l = s1.findList i) ∧
      (fault 3 = false → l = s1.findList i) ∧
      api.MoveListUp fault s id =
      { resp := { status := 200, body := .list l }, store := s1,
        log := [.GetListByID i, .MoveListUp i true,
          .BroadcastUpdate "lists_reordered" .null, .GetListByID i] }) := by
  cases id with
  | none => left; exact ⟨rfl, rfl⟩
  | some i =>
    right
    rcases GetListByID_cases fault (Env.init s) i with h | ⟨hn, h⟩ | ⟨x, hx, h⟩
    · left; exact ⟨i, rfl, by simp only [api.MoveListUp, h]; simp [Outcome.ofRun, Env.init]⟩
    · right; left
      exact ⟨i, rfl, hn, by simp only [api.MoveListUp, h]; simp [Outcome.ofRun, Env.init]⟩
    · right; right
      by_cases hf : fault 1 = true
      · left
        refine ⟨i, rfl, ?_⟩
        simp only [api.MoveListUp, h]; simp [Outcome.ofRun, Env.init, db.MoveListUp, hf]
      · cases hm : s.moveListUp i with
        | none =>
          left
          refine ⟨i, rfl, ?_⟩
          simp only [api.MoveListUp, h]; simp [Outcome.ofRun, Env.init, db.MoveListUp, hf, hm]
        | some s1 =>
          right
          by_cases hf3 : fault 3 = true
          · refine ⟨i, s1, none, rfl, ⟨x, hx⟩, hm, Or.inl rfl, by simp [hf3], ?_⟩
            simp only [api.MoveListUp, h]; simp [Outcome.ofRun, Env.init, db.MoveListUp, hf, hm,
              handlers.BroadcastUpdate, db.GetListByID, hf3, listOrNil]
          · refine ⟨i, s1, s1.findList i, rfl, ⟨x, hx⟩, hm, Or.inr rfl, fun _ => rfl, ?_⟩
            simp only [api.MoveListUp, h]
            cases hfl : s1.findList i <;>
              simp [Outcome.ofRun, Env.init, db.MoveListUp, hf, hm,
                handlers.BroadcastUpdate, db.GetListByID, hf3, listOrNil, hfl]

theorem MoveListDown_cases (fault : Fault) (s : Store) (id : Option Int) :
    (id = none ∧ api.MoveListDown fault s id =
      { resp := errorJSON 400 "invalid_id" "Invalid list ID", store := s, log := [] }) ∨
    (∃ i, id = some i ∧ api.MoveListDown fault s id =
      { resp := errorJSON 500 "db_error" "Failed to fetch list", store := s,
        log := [.GetListByID i] }) ∨
    (∃ i, id = some i ∧ s.findList i = none ∧ api.MoveListDown fault s id =
      { resp := errorJSON 404 "not_found" "List not found", store := s,
        log := [.GetListByID i] }) ∨
    (∃ i, id = some i ∧ api.MoveListDown fault s id =
      { resp := errorJSON 500 "move_failed" "Failed to move list", store := s,
        log := [.GetListByID i, .MoveListDown i false] }) ∨
    (∃ i s1 l, id = some i ∧ (∃ x, s.findList i = some x) ∧ s.moveListDown i = some s1 ∧
      (l = none ∨ l = s1.findList i) ∧
      (fault 3 = false → l = s1.findList i) ∧
      api.MoveListDown fault s id =
      { resp := { status := 200, body := .list l }, store := s1,
        log := [.GetListByID i, .MoveListDown i true,
          .BroadcastUpdate "lists_reordered" .null, .GetListByID i] }) := by
  cases id with
  | none => left; exact ⟨rfl, rfl⟩
  | some i =>
    right
    rcases GetListByID_cases fault (Env.init s) i with h | ⟨hn, h⟩ | ⟨x, hx, h⟩
    · left; exact ⟨i, rfl, by simp only [api.MoveListDown, h]; simp [Outcome.ofRun, Env.init]⟩
    · right; left
      exact ⟨i, rfl, hn, by simp only [api.MoveListDown, h]; simp [Outcome.ofRun, Env.init]⟩
    · right; right
      by_cases hf : fault 1 = true
      · left
        refine ⟨i, rfl, ?_⟩
        simp only [api.MoveListDown, h]; simp [Outcome.ofRun, Env.init, db.MoveListDown, hf]
      · cases hm : s.moveListDown i with
        | none =>
          left
          refine ⟨i, rfl, ?_⟩
          simp only [api.MoveListDown, h]; simp [Outcome.ofRun, Env.init, db.MoveListDown, hf, hm]
        | some s1 =>
          right
          by_cases hf3 : fault 3 = true
          · refine ⟨i, s1, none, rfl, ⟨x, hx⟩, hm, Or.inl rfl, by simp [hf3], ?_⟩
            simp only [api.MoveListDown, h]; simp [Outcome.ofRun, Env.init, db.MoveListDown, hf, hm,
              handlers.BroadcastUpdate, db.GetListByID, hf3, listOrNil]
          · refine ⟨i, s1, s1.findList i, rfl, ⟨x, hx⟩, hm, Or.inr rfl, fun _ => rfl, ?_⟩
            simp only [api.MoveListDown, h]
            cases hfl : s1.findList i <;>
              simp [Outcome.ofRun, Env.init, db.MoveListDown, hf, hm,
                handlers.BroadcastUpdate, db.GetListByID, hf3, listOrNil, hfl]

/-! ## C1: rollback on failure inside the transaction -/

/-- C1, as stated, fails for the item-history write: on the store `exStore`
the add-items request `exAddItems` whose first history write fails (the store
call at log position 4) is still answered 201, and its items are committed. -/
theorem batch_history_failure_commits :
    Event.SaveItemHistoryTx "butter" 1 false ∈
        (api.BatchCreate (fun n => n == 4) exStore (some exAddItems)).log ∧
      (api.BatchCreate (fun n => n == 4) exStore (some exAddItems)).resp.status = 201 ∧
      (api.BatchCreate (fun n => n == 4) exStore (some exAddItems)).store ≠ exStore := by
  decide

/-- C1, amended: in every batch mode, under every fault schedule, if a list
insert, section insert, item insert or the commit fails, then the handler
answers with an error response of status 500 and the committed store is exactly
the store before the call. -/
theorem batch_checked_failure_rolls_back (fault : Fault) (s : Store)
    (req : BatchCreateRequest)
    (h : ∃ ev ∈ (api.BatchCreate fault s (some req)).log, ev.isCheckedFailure = true) :
    (api.BatchCreate fault s (some req)).resp.status = 500 ∧
      (∃ code, (api.BatchCreate fault s (some req)).resp.errorCode = some code) ∧
      (api.BatchCreate fault s (some req)).store = s := by
  have hf := BatchCreate_facts fault s req
  have hst := hf.failure h
  have hne : (api.BatchCreate fault s (some req)).resp.status ≠ 201 := by omega
  exact ⟨hst, hf.error_body hne, hf.atomic hne⟩

/-- Witness for C1: a new list with two sections of two items each, the last
item insert failing (store call at log position 10), leaves the store as it
was. -/
theorem batch_checked_failure_rolls_back_witness :
    (∃ ev ∈ (api.BatchCreate (fun n => n == 10) exStore (some exNewList)).log,
        ev.isCheckedFailure = true) ∧
      (api.BatchCreate (fun n => n == 10) exStore (some exNewList)).resp.status = 500 ∧
      (api.BatchCreate (fun n => n == 10) exStore (some exNewList)).store = exStore :=
  ⟨by decide,
    (batch_checked_failure_rolls_back (fun n => n == 10) exStore exNewList (by decide)).1,
    (batch_checked_failure_rolls_back (fun n => n == 10) exStore exNewList (by decide)).2.2⟩

/-! ## C6: a validation error opens no transaction -/

/-- C6: every request to `CreateList` or `BatchCreate` (in any mode, under any
fault schedule) that is answered with `validation_error` leaves the committed
store as it was, and its call log holds no `Begin`, no store write and no
broadcast, wherever in the input the invalid entry stands. -/
theorem validation_error_opens_nothing (fault : Fault) (s : Store) (rq : Request)
    (hrq : rq.isCreate = true)
    (hv : (api.serve fault s rq).resp.errorCode = some "validation_error") :
    (api.serve fault s rq).store = s ∧
      (∀ ev ∈ (api.serve fault s rq).log,
        ev.isBegin = false ∧ ev.isWrite = false ∧ ev.isBroadcast = false) ∧
      broadcasts (api.serve fault s rq).log = [] := by
  cases rq with
  | CreateList body =>
    simp only [api.serve] at hv ⊢
    rcases CreateList_cases fault s body with ⟨_, _, hs, hl⟩ | ⟨req, _, h⟩ | ⟨req, _, _, _, _, h⟩
    · rw [hs, hl]; simp [broadcasts]
    · rw [h] at hv; simp [errorJSON, Response.errorCode] at hv
    · rw [h] at hv; simp [Response.errorCode] at hv
  | BatchCreate body =>
    simp only [api.serve] at hv ⊢
    cases body with
    | none =>
      have hf := BatchCreate_invalid_json fault s
      obtain ⟨h1, h2, h3⟩ := hf.validation hv
      exact ⟨h2, h3, hf.broadcast_err (by omega)⟩
    | some req =>
      have hf := BatchCreate_facts fault s req
      obtain ⟨h1, h2, h3⟩ := hf.validation hv
      exact ⟨h2, h3, hf.broadcast_err (by omega)⟩
  | UpdateList _ _ => simp [Request.isCreate] at hrq
  | DeleteList _ => simp [Request.isCreate] at hrq
  | GetListSections _ => simp [Request.isCreate] at hrq
  | MoveListUp _ => simp [Request.isCreate] at hrq
  | MoveListDown _ => simp [Request.isCreate] at hrq

/-- Witness for C6: a new-list request whose last item of the last section has
an empty name is answered with `validation_error` and nothing is opened. -/
theorem validation_error_opens_nothing_witness :
    (api.serve noFault exStore (.BatchCreate (some exInvalidNewList))).resp.errorCode =
        some "validation_error" ∧
      (api.serve noFault exStore (.BatchCreate (some exInvalidNewList))).store = exStore ∧
      broadcasts (api.serve noFault exStore (.BatchCreate (some exInvalidNewList))).log = [] :=
  ⟨by decide,
    (validation_error_opens_nothing noFault exStore (.BatchCreate (some exInvalidNewList))
      (by decide) (by decide)).1,
    (validation_error_opens_nothing noFault exStore (.BatchCreate (some exInvalidNewList))
      (by decide) (by decide)).2.2⟩

/-! ## C8: broadcasts -/

/-- C8, as stated, fails for the moves: a successful `MoveListUp` (list 2 of
`exTwoLists`, no store failure) broadcasts one event whose payload is nil and
carries no id. -/
theorem move_broadcast_carries_no_id :
    (api.MoveListUp noFault exTwoLists (some 2)).resp.status = 200 ∧
      broadcasts (api.MoveListUp noFault exTwoLists (some 2)).log =
        [("lists_reordered", Payload.null)] ∧
      Payload.null.carriedID = none := by
  decide

/-- C8, amended: under every fault schedule a call to `CreateList`,
`MoveListUp`, `MoveListDown` or `BatchCreate` that fails (non-2xx) broadcasts
nothing, and one that succeeds broadcasts exactly one event: `list_created`
with the created list (the list of the response), `batch_created` with the id
of the list created or extended or of the section extended, and for the moves
`lists_reordered` with a nil payload. -/
theorem broadcast_exactly_once (fault : Fault) (s : Store) (rq : Request)
    (hrq : rq.isCreateOrMove = true) :
    ((api.serve fault s rq).resp.isSuccess = false →
        broadcasts (api.serve fault s rq).log = []) ∧
      ((api.serve fault s rq).resp.isSuccess = true →
        match rq with
        | .CreateList _ =>
          ∃ l, (api.serve fault s rq).resp.body = .list (some l) ∧
            broadcasts (api.serve fault s rq).log = [("list_created", .list l)]
        | .BatchCreate (some req) =>
          broadcasts (api.serve fault s rq).log = [("batch_created", batchPayload s req)] ∧
            (batchPayload s req).carriedID ≠ none
        | .MoveListUp _ =>
          broadcasts (api.serve fault s rq).log = [("lists_reordered", .null)]
        | .MoveListDown _ =>
          broadcasts (api.serve fault s rq).log = [("lists_reordered", .null)]
        | _ => False) := by
  cases rq with
  | CreateList body =>
    simp only [api.serve]
    rcases CreateList_cases fault s body with ⟨h1, _, _, hl⟩ | ⟨req, _, h⟩ | ⟨req, _, _, _, _, h⟩
    · refine ⟨fun _ => by rw [hl]; rfl, fun h => ?_⟩
      simp [Response.isSuccess, h1] at h
    · rw [h]; simp [Response.isSuccess, errorJSON, broadcasts]
    · rw [h]; simp [Response.isSuccess, broadcasts]
  | BatchCreate body =>
    simp only [api.serve]
    cases body with
    | none =>
      have hf := BatchCreate_invalid_json fault s
      have hst : (api.BatchCreate fault s none).resp.status = 400 := rfl
      refine ⟨fun _ => hf.broadcast_err (by omega), fun h => ?_⟩
      simp [Response.isSuccess, hst] at h
    | some req =>
      have hf := BatchCreate_facts fault s req
      constructor
      · intro h
        apply hf.broadcast_err
        intro h201
        simp [Response.isSuccess, h201] at h
      · intro h
        have h201 : (api.BatchCreate fault s (some req)).resp.status = 201 := by
          rcases hf.status with h1 | h1 | h1 | h1
          · exact h1
          all_goals simp [Response.isSuccess, h1] at h
        refine ⟨hf.broadcast_ok h201, ?_⟩
        unfold batchPayload
        split
        · simp [Payload.carriedID]
        · split <;> simp [Payload.carriedID]
  | MoveListUp id =>
    simp only [api.serve]
    rcases MoveListUp_cases fault s id with ⟨_, h⟩ | ⟨i, _, h⟩ | ⟨i, _, _, h⟩ | ⟨i, _, h⟩ |
      ⟨i, s1, l, _, _, _, _, _, h⟩ <;> rw [h] <;>
      simp [Response.isSuccess, errorJSON, broadcasts]
  | MoveListDown id =>
    simp only [api.serve]
    rcases MoveListDown_cases fault s id with ⟨_, h⟩ | ⟨i, _, h⟩ | ⟨i, _, _, h⟩ | ⟨i, _, h⟩ |
      ⟨i, s1, l, _, _, _, _, _, h⟩ <;> rw [h] <;>
      simp [Response.isSuccess, errorJSON, broadcasts]
  | UpdateList _ _ => simp [Request.isCreateOrMove] at hrq
  | DeleteList _ => simp [Request.isCreateOrMove] at hrq
  | GetListSections _ => simp [Request.isCreateOrMove] at hrq

/-- Witness for C8: the add-items request `exAddItems` on `exStore` succeeds
and broadcasts once, with the id of section 1. -/
theorem broadcast_exactly_once_witness :
    (api.serve noFault exStore (.BatchCreate (some exAddItems))).resp.isSuccess = true ∧
      broadcasts (api.serve noFault exStore (.BatchCreate (some exAddItems))).log =
        [("batch_created", .section_id 1)] :=
  ⟨by decide,
    ((broadcast_exactly_once noFault exStore (.BatchCreate (some exAddItems)) (by decide)).2
      (by decide)).1⟩

/-! ## Lemmas: the rows created by the loops -/

theorem itemRows_getElem? (sid : Int) (order : Nat → Int) (inputs : List BatchItemInput) :
    ∀ (i : Nat) (id : Int) (k : Nat) (inp : BatchItemInput), inputs[k]? = some inp →
      (itemRows sid order inputs i id)[k]? =
        some { id := id + k, section_id := sid, name := inp.name,
               description := inp.description, completed := false, uncertain := false,
               sort_order := order (i + k) } := by
  induction inputs with
  | nil => intro i id k inp h; simp at h
  | cons x rest ih =>
    intro i id k inp h
    cases k with
    | zero =>
      simp only [List.getElem?_cons_zero, Option.some.injEq] at h
      subst h
      simp [itemRows]
    | succ k =>
      simp only [List.getElem?_cons_succ] at h
      have := ih (i + 1) (id + 1) k inp h
      simp only [itemRows, List.getElem?_cons_succ, this]
      simp only [Option.some.injEq, DbItem.mk.injEq, true_and, and_true]
      refine ⟨by push_cast; ring, by congr 1; omega⟩

theorem itemRows_section (sid : Int) (order : Nat → Int) (inputs : List BatchItemInput) :
    ∀ (i : Nat) (id : Int), ∀ x ∈ itemRows sid order inputs i id, x.section_id = sid := by
  induction inputs with
  | nil => intro i id x hx; simp [itemRows] at hx
  | cons inp rest ih =>
    intro i id x hx
    simp only [itemRows, List.mem_cons] at hx
    rcases hx with rfl | hx
    · rfl
    · exact ih _ _ x hx

theorem itemRows_orders (sid : Int) (order : Nat → Int) (inputs : List BatchItemInput) :
    ∀ (i : Nat) (id : Int),
      (itemRows sid order inputs i id).map (fun x => x.sort_order) =
        (List.range' i inputs.length).map order := by
  induction inputs with
  | nil => intro i id; rfl
  | cons inp rest ih =>
    intro i id
    simp [itemRows, ih, List.range'_succ]

theorem sectionRows_getElem? (listID : Int) (order : Nat → Int)
    (inputs : List BatchSectionInput) :
    ∀ (i : Nat) (sid iid : Int) (k : Nat) (inp : BatchSectionInput), inputs[k]? = some inp →
      ∃ iid1, (sectionRows listID order inputs i sid iid)[k]? =
        some { id := sid + k, list_id := listID, name := inp.name, sort_order := order (i + k),
               items := itemRows (sid + k) (fun j => (j : Int)) inp.items 0 iid1 } := by
  induction inputs with
  | nil => intro i sid iid k inp h; simp at h
  | cons x rest ih =>
    intro i sid iid k inp h
    cases k with
    | zero =>
      simp only [List.getElem?_cons_zero, Option.some.injEq] at h
      subst h
      exact ⟨iid, by simp [sectionRows]⟩
    | succ k =>
      simp only [List.getElem?_cons_succ] at h
      obtain ⟨iid1, h1⟩ := ih (i + 1) (sid + 1) (iid + x.items.length) k inp h
      refine ⟨iid1, ?_⟩
      simp only [sectionRows, List.getElem?_cons_succ, h1]
      have e1 : sid + 1 + (k : Int) = sid + ((k + 1 : Nat) : Int) := by push_cast; ring
      have e2 : i + 1 + k = i + (k + 1) := by omega
      rw [e1, e2]

theorem sectionRows_facts (listID : Int) (order : Nat → Int) (inputs : List BatchSectionInput)
    (i : Nat) (sid iid : Int) (k : Nat) (inp : BatchSectionInput) (h : inputs[k]? = some inp) :
    ∃ sec, (sectionRows listID order inputs i sid iid)[k]? = some sec ∧
      sec.list_id = listID ∧ sec.name = inp.name ∧ sec.sort_order = order (i + k) ∧
      sec.items.length = inp.items.length ∧
      ∀ (j : Nat) (it : BatchItemInput), inp.items[j]? = some it →
        ∃ row : DbItem, sec.items[j]? = some row ∧ row.section_id = sec.id ∧
          row.name = it.name ∧ row.description = it.description ∧ row.sort_order = j := by
  obtain ⟨iid1, h1⟩ := sectionRows_getElem? listID order inputs i sid iid k inp h
  refine ⟨_, h1, rfl, rfl, rfl, by simp [itemRows_length], ?_⟩
  intro j it hj
  refine ⟨_, itemRows_getElem? _ _ _ _ _ _ _ hj, rfl, rfl, rfl, by simp⟩

theorem addToSection_validateItems_none (xs : List BatchItemInput) :
    batchAddToSection.validateItems xs = none ↔
      ∀ it ∈ xs, it.name ≠ "" ∧ len it.name ≤ MaxItemNameLength := by
  induction xs with
  | nil => simp [batchAddToSection.validateItems]
  | cons x rest ih =>
    simp only [batchAddToSection.validateItems, List.mem_cons, forall_eq_or_imp]
    by_cases h1 : x.name = ""
    · simp [h1]
    · by_cases h2 : len x.name > MaxItemNameLength
      · simp [h1, h2]
      · simp [h1, h2, ih, Nat.le_of_not_gt h2]

theorem addToList_validateItems_none (xs : List BatchItemInput) :
    batchAddToList.validateItems xs = none ↔
      ∀ it ∈ xs, it.name ≠ "" ∧ len it.name ≤ MaxItemNameLength := by
  induction xs with
  | nil => simp [batchAddToList.validateItems]
  | cons x rest ih =>
    simp only [batchAddToList.validateItems, List.mem_cons, forall_eq_or_imp]
    by_cases h1 : x.name = ""
    · simp [h1]
    · by_cases h2 : len x.name > MaxItemNameLength
      · simp [h1, h2]
      · simp [h1, h2, ih, Nat.le_of_not_gt h2]

theorem addToList_validateSections_none (xs : List BatchSectionInput) :
    batchAddToList.validateSections xs = none ↔
      ∀ x ∈ xs, x.name ≠ "" ∧ len x.name ≤ MaxSectionNameLength ∧
        ∀ it ∈ x.items, it.name ≠ "" ∧ len it.name ≤ MaxItemNameLength := by
  induction xs with
  | nil => simp [batchAddToList.validateSections]
  | cons x rest ih =>
    simp only [batchAddToList.validateSections, List.mem_cons, forall_eq_or_imp]
    by_cases h1 : x.name = ""
    · simp [h1]
    · by_cases h2 : len x.name > MaxSectionNameLength
      · simp [h1, h2]
      · cases h3 : batchAddToList.validateItems x.items with
        | some r =>
          have : ¬ ∀ it ∈ x.items, it.name ≠ "" ∧ len it.name ≤ MaxItemNameLength := by
            rw [← addToList_validateItems_none, h3]; simp
          simp [h1, h2, this]
        | none =>
          have := (addToList_validateItems_none x.items).mp h3
          simp [h1, h2, ih, Nat.le_of_not_gt h2]
          exact fun _ => this

theorem newList_validateItems_none (xs : List BatchItemInput) :
    batchCreateNewList.validateItems xs = none ↔
      ∀ it ∈ xs, it.name ≠ "" ∧ len it.name ≤ MaxItemNameLength ∧
        len it.description ≤ MaxDescriptionLength := by
  induction xs with
  | nil => simp [batchCreateNewList.validateItems]
  | cons x rest ih =>
    simp only [batchCreateNewList.validateItems, List.mem_cons, forall_eq_or_imp]
    by_cases h1 : x.name = ""
    · simp [h1]
    · by_cases h2 : len x.name > MaxItemNameLength
      · simp [h1, h2]
      · by_cases h3 : len x.description > MaxDescriptionLength
        · simp [h1, h2, h3]
        · simp [h1, h2, h3, ih, Nat.le_of_not_gt h2, Nat.le_of_not_gt h3]

theorem newList_validateSections_none (xs : List BatchSectionInput) :
    batchCreateNewList.validateSections xs = none ↔
      ∀ x ∈ xs, x.name ≠ "" ∧ len x.name ≤ MaxSectionNameLength ∧
        ∀ it ∈ x.items, it.name ≠ "" ∧ len it.name ≤ MaxItemNameLength ∧
          len it.description ≤ MaxDescriptionLength := by
  induction xs with
  | nil => simp [batchCreateNewList.validateSections]
  | cons x rest ih =>
    simp only [batchCreateNewList.validateSections, List.mem_cons, forall_eq_or_imp]
    by_cases h1 : x.name = ""
    · simp [h1]
    · by_cases h2 : len x.name > MaxSectionNameLength
      · simp [h1, h2]
      · cases h3 : batchCreateNewList.validateItems x.items with
        | some r =>
          have : ¬ ∀ it ∈ x.items, it.name ≠ "" ∧ len it.name ≤ MaxItemNameLength ∧
              len it.description ≤ MaxDescriptionLength := by
            rw [← newList_validateItems_none, h3]; simp
          simp [h1, h2, this]
        | none =>
          have := (newList_validateItems_none x.items).mp h3
          simp [h1, h2, ih, Nat.le_of_not_gt h2]
          exact fun _ => this

theorem batchAddToSection_total (s : Store) (req : BatchCreateRequest) (sec : DbSection)
    (hsec : s.findSection req.section_id = some sec)
    (hvalid : batchAddToSection.validateItems req.items = none) :
    (batchAddToSection noFault (Env.init s) req).1.status = 201 := by
  have hf : ∀ n, noFault n = false := fun _ => rfl
  obtain ⟨res, hres⟩ := createItems_total noFault hf req.section_id
    (maxOrder (s.itemOrders req.section_id) + 1) req.items 0 [] s
    ((((Env.init s).record (.GetSectionByID req.section_id)).record (.Begin true)).record
      (.GetMaxItemOrderTx req.section_id (maxOrder (s.itemOrders req.section_id))))
  obtain ⟨a, b, c⟩ := res
  simp only [batchAddToSection, db.GetSectionByID, hf, Env.init, hsec, hvalid, db.Begin,
    db.GetMaxItemOrderTx, Env.record_store, Bool.false_eq_true, ↓reduceIte]
  simp only [Env.init] at hres
  simp only [hres, db.Commit, hf, Bool.false_eq_true, ↓reduceIte]

theorem batchAddToList_total (s : Store) (req : BatchCreateRequest) (l : DbList)
    (hl : s.findList req.list_id = some l)
    (hvalid : batchAddToList.validateSections req.sections = none) :
    (batchAddToList noFault (Env.init s) req).1.status = 201 := by
  have hf : ∀ n, noFault n = false := fun _ => rfl
  obtain ⟨res, hres⟩ := createSections_total noFault hf req.list_id
    (fun i => maxOrder (s.sectionOrders req.list_id) + 1 + (i : Int)) req.sections 0
    { sections := [], items := [], tx := s,
      env := ((((Env.init s).record (.GetListByID req.list_id)).record (.Begin true)).record
        (.GetMaxSectionOrderTx req.list_id (maxOrder (s.sectionOrders req.list_id)))) }
  simp only [batchAddToList, db.GetListByID, hf, Env.init, hl, hvalid, db.Begin,
    db.GetMaxSectionOrderTx, Env.record_store, Bool.false_eq_true, ↓reduceIte]
  simp only [Env.init] at hres
  simp only [hres, db.Commit, hf, Bool.false_eq_true, ↓reduceIte]

theorem batchCreateNewList_total (s : Store) (l : BatchListInput)
    (hname : l.name ≠ "") (hlen : ¬ len l.name > MaxListNameLength)
    (hvalid : batchCreateNewList.validateSections l.sections = none) :
    (batchCreateNewList noFault (Env.init s) l).1.status = 201 := by
  have hf : ∀ n, noFault n = false := fun _ => rfl
  obtain ⟨res, hres⟩ := createSections_total noFault hf
    (s.insertList l.name (NormalizeIcon l.icon)).1.id
    (fun i => (i : Int)) l.sections 0
    { sections := [], items := [], tx := (s.insertList l.name (NormalizeIcon l.icon)).2,
      env := (((Env.init s).record (.Begin true)).record
        (.CreateListTx l.name (NormalizeIcon l.icon) true)) }
  simp only [batchCreateNewList, hname, hlen, hf, Env.init, hvalid, db.Begin,
    db.CreateListTx, Env.record_store, Bool.false_eq_true, ↓reduceIte]
  simp only [Env.init] at hres
  simp only [hres, db.Commit, hf, Bool.false_eq_true, ↓reduceIte, db.GetListStats]

/-! ## Lemmas: maximum order and scopes -/

theorem foldl_max_ge_init (l : List Int) : ∀ a : Int, a ≤ l.foldl max a := by
  induction l with
  | nil => intro a; simp
  | cons x rest ih =>
    intro a
    simp only [List.foldl_cons]
    exact le_trans (le_max_left a x) (ih _)

theorem foldl_max_ge_mem (l : List Int) : ∀ (a : Int), ∀ o ∈ l, o ≤ l.foldl max a := by
  induction l with
  | nil => intro a o ho; simp at ho
  | cons x rest ih =>
    intro a o ho
    simp only [List.foldl_cons]
    rcases List.mem_cons.mp ho with rfl | ho
    · exact le_trans (le_max_right a o) (foldl_max_ge_init rest _)
    · exact ih _ o ho

theorem foldl_max_mem (l : List Int) : ∀ a : Int, l.foldl max a = a ∨ l.foldl max a ∈ l := by
  induction l with
  | nil => intro a; simp
  | cons x rest ih =>
    intro a
    simp only [List.foldl_cons, List.mem_cons]
    rcases ih (max a x) with h | h
    · rcases max_choice a x with hm | hm
      · left; rw [h, hm]
      · right; left; rw [h, hm]
    · right; right; exact h

theorem maxOrder_ge (os : List Int) (o : Int) (h : o ∈ os) : o ≤ maxOrder os := by
  cases os with
  | nil => simp at h
  | cons x rest =>
    simp only [maxOrder]
    rcases List.mem_cons.mp h with rfl | h
    · exact foldl_max_ge_init rest _
    · exact foldl_max_ge_mem rest _ o h

theorem maxOrder_mem (os : List Int) (h : os ≠ []) : maxOrder os ∈ os := by
  cases os with
  | nil => exact absurd rfl h
  | cons x rest =>
    simp only [maxOrder, List.mem_cons]
    exact foldl_max_mem rest x

theorem itemOrders_extends (s s1 : Store) (sid : Int) (order : Nat → Int)
    (inputs : List BatchItemInput) (i : Nat) (id : Int)
    (h : s1.items = s.items ++ itemRows sid order inputs i id) :
    s1.itemOrders sid = s.itemOrders sid ++ (List.range' i inputs.length).map order := by
  unfold Store.itemOrders
  rw [h, List.filter_append, List.map_append]
  congr 1
  rw [List.filter_eq_self.mpr, itemRows_orders]
  intro x hx
  simp [itemRows_section sid order inputs i id x hx]

theorem batchAddToSection_success (fault : Fault) (s : Store) (req : BatchCreateRequest)
    (h : (batchAddToSection fault (Env.init s) req).1.status = 201) :
    ∃ evs, (∃ x, s.findSection req.section_id = some x) ∧
      batchAddToSection.validateItems req.items = none ∧
      (batchAddToSection fault (Env.init s) req).1 =
        { status := 201,
          body := .batch
            { list := none, sections := [],
              items := itemRows req.section_id
                (fun j => maxOrder (s.itemOrders req.section_id) + 1 + (j : Int))
                req.items 0 s.nextItemID } } ∧
      TxExtends s (batchAddToSection fault (Env.init s) req).2.store []
        (itemRows req.section_id
          (fun j => maxOrder (s.itemOrders req.section_id) + 1 + (j : Int))
          req.items 0 s.nextItemID) ∧
      (batchAddToSection fault (Env.init s) req).2.log =
        [.GetSectionByID req.section_id, .Begin true,
          .GetMaxItemOrderTx req.section_id (maxOrder (s.itemOrders req.section_id))]
          ++ evs ++ [.Commit true,
            .BroadcastUpdate "batch_created" (.section_id req.section_id), .Rollback] ∧
      ∀ ev ∈ evs, ev.loopSuccess := by
  rcases batchAddToSection_cases fault (Env.init s) req with
    h1 | ⟨_, h1⟩ | ⟨r, hv, h1⟩ | h1 | ⟨h1, _, _⟩ | ⟨evs, g1, g2, g3, g4, g5, g6⟩
  · rw [h1] at h; simp [errorJSON] at h
  · rw [h1] at h; simp [errorJSON] at h
  · rw [h1] at h
    have := (addToSection_validateItems_error _ _ hv).1
    simp only at h
    omega
  · rw [h1] at h; simp [errorJSON] at h
  · omega
  · exact ⟨evs, g1, g2, g3, g4, by simpa [Env.init] using g5, g6⟩

theorem batchAddToList_success (fault : Fault) (s : Store) (req : BatchCreateRequest)
    (h : (batchAddToList fault (Env.init s) req).1.status = 201) :
    ∃ evs, (∃ x, s.findList req.list_id = some x) ∧
      batchAddToList.validateSections req.sections = none ∧
      (batchAddToList fault (Env.init s) req).1 =
        { status := 201,
          body := .batch
            { list := none,
              sections := sectionRows req.list_id
                (fun i => maxOrder (s.sectionOrders req.list_id) + 1 + (i : Int))
                req.sections 0 s.nextSectionID s.nextItemID,
              items := (sectionRows req.list_id
                (fun i => maxOrder (s.sectionOrders req.list_id) + 1 + (i : Int))
                req.sections 0 s.nextSectionID s.nextItemID).flatMap
                  (fun x => x.items) } } ∧
      TxExtends s (batchAddToList fault (Env.init s) req).2.store
        ((sectionRows req.list_id
          (fun i => maxOrder (s.sectionOrders req.list_id) + 1 + (i : Int))
          req.sections 0 s.nextSectionID s.nextItemID).map DbSection.row)
        ((sectionRows req.list_id
          (fun i => maxOrder (s.sectionOrders req.list_id) + 1 + (i : Int))
          req.sections 0 s.nextSectionID s.nextItemID).flatMap
            (fun x => x.items)) ∧
      (batchAddToList fault (Env.init s) req).2.log =
        [.GetListByID req.list_id, .Begin true,
          .GetMaxSectionOrderTx req.list_id (maxOrder (s.sectionOrders req.list_id))]
          ++ evs ++ [.Commit true,
            .BroadcastUpdate "batch_created" (.list_id req.list_id), .Rollback] ∧
      ∀ ev ∈ evs, ev.loopSuccess := by
  rcases batchAddToList_cases fault (Env.init s) req with
    h1 | ⟨_, h1⟩ | ⟨r, hv, h1⟩ | h1 | ⟨h1, _, _⟩ | ⟨evs, g1, g2, g3, g4, g5, g6⟩
  · rw [h1] at h; simp [errorJSON] at h
  · rw [h1] at h; simp [errorJSON] at h
  · rw [h1] at h
    have := (addToList_validateSections_error _ _ hv).1
    simp only at h
    omega
  · rw [h1] at h; simp [errorJSON] at h
  · omega
  · exact ⟨evs, g1, g2, g3, g4, by simpa [Env.init] using g5, g6⟩

theorem batchCreateNewList_success (fault : Fault) (s : Store) (l : BatchListInput)
    (h : (batchCreateNewList fault (Env.init s) l).1.status = 201) :
    ∃ evs, l.name ≠ "" ∧ ¬ len l.name > MaxListNameLength ∧
      batchCreateNewList.validateSections l.sections = none ∧
      (batchCreateNewList fault (Env.init s) l).1 =
        { status := 201,
          body := .batch
            { list := some
                { (s.insertList l.name (NormalizeIcon l.icon)).1 with
                  stats := some ((batchCreateNewList fault (Env.init s) l).2.store.listStats
                    s.nextListID) },
              sections := sectionRows s.nextListID (fun i => (i : Int))
                l.sections 0 s.nextSectionID s.nextItemID,
              items := (sectionRows s.nextListID (fun i => (i : Int))
                l.sections 0 s.nextSectionID s.nextItemID).flatMap
                  (fun x => x.items) } } ∧
      TxExtends (s.insertList l.name (NormalizeIcon l.icon)).2
        (batchCreateNewList fault (Env.init s) l).2.store
        ((sectionRows s.nextListID (fun i => (i : Int))
          l.sections 0 s.nextSectionID s.nextItemID).map DbSection.row)
        ((sectionRows s.nextListID (fun i => (i : Int))
          l.sections 0 s.nextSectionID s.nextItemID).flatMap
            (fun x => x.items)) ∧
      (batchCreateNewList fault (Env.init s) l).2.log =
        [.Begin true, .CreateListTx l.name (NormalizeIcon l.icon) true]
          ++ evs ++ [.Commit true, .GetListStats s.nextListID,
            .BroadcastUpdate "batch_created" (.list_id s.nextListID), .Rollback] ∧
      ∀ ev ∈ evs, ev.loopSuccess := by
  rcases batchCreateNewList_cases fault (Env.init s) l with
    ⟨_, r, g1, _, h1⟩ | h1 | ⟨h1, _, _⟩ | ⟨evs, g1, g2, g3, g4, g5, g6, g7⟩
  · rw [h1] at h
    simp only at h
    omega
  · rw [h1] at h; simp [errorJSON] at h
  · omega
  · exact ⟨evs, g1, g2, g3, g4, g5, by simpa [Env.init] using g6, g7⟩

/-! ## C3: add-items mode appends after the current maximum -/

theorem maxOrder_perm_zero_one (os : List Int) (h : os.Perm [0, 1]) : maxOrder os = 1 := by
  have hne : os ≠ [] := by
    intro h0
    rw [h0] at h
    simpa using h.length_eq
  have hm : maxOrder os ∈ ([0, 1] : List Int) := h.mem_iff.mp (maxOrder_mem os hne)
  have h1 : (1 : Int) ≤ maxOrder os := maxOrder_ge os 1 (h.mem_iff.mpr (by simp))
  simp only [List.mem_cons, List.mem_singleton, List.not_mem_nil, or_false] at hm
  omega

/-- C3: for an existing section and a valid input item list, `batchAddToSection`
succeeds when no store call fails; and every successful call (whatever the
fault schedule) has asked `GetMaxItemOrderTx` once, got some `m`, and created
exactly one item per input item in that section, the `i`-th with sort order
`m + 1 + i`, returned in input order and appended to the items table.  In
particular a section with orders {0, 1} that receives two items ends with
orders {0, 1, 2, 3}. -/
theorem add_items_appends_after_max (s : Store) (req : BatchCreateRequest) (sec : DbSection)
    (hsec : s.findSection req.section_id = some sec)
    (hvalid : ∀ it ∈ req.items, it.name ≠ "" ∧ len it.name ≤ MaxItemNameLength) :
    (batchAddToSection noFault (Env.init s) req).1.status = 201 ∧
    ∀ fault : Fault, (batchAddToSection fault (Env.init s) req).1.status = 201 →
      ∃ (created : List DbItem) (m : Int),
        m = maxOrder (s.itemOrders req.section_id) ∧
        Event.GetMaxItemOrderTx req.section_id m ∈
          (batchAddToSection fault (Env.init s) req).2.log ∧
        (batchAddToSection fault (Env.init s) req).1.body =
          .batch { list := none, sections := [], items := created } ∧
        (batchAddToSection fault (Env.init s) req).2.store.items = s.items ++ created ∧
        created.length = req.items.length ∧
        (∀ (i : Nat) (inp : BatchItemInput), req.items[i]? = some inp →
          created[i]? = some
            { id := s.nextItemID + i, section_id := req.section_id, name := inp.name,
              description := inp.description, completed := false, uncertain := false,
              sort_order := m + 1 + i }) ∧
        ((s.itemOrders req.section_id).Perm [0, 1] → req.items.length = 2 →
          ((batchAddToSection fault (Env.init s) req).2.store.itemOrders
            req.section_id).Perm [0, 1, 2, 3]) := by
  refine ⟨batchAddToSection_total s req sec hsec
    ((addToSection_validateItems_none _).mpr hvalid), ?_⟩
  intro fault hok
  obtain ⟨evs, _, _, g3, g4, g5, _⟩ := batchAddToSection_success fault s req hok
  refine ⟨_, _, rfl, ?_, ?_, g4.items_eq, itemRows_length _ _ _ _ _, ?_, ?_⟩
  · rw [g5]; simp
  · rw [g3]
  · intro i inp hi
    rw [itemRows_getElem? _ _ _ _ _ _ _ hi]
    simp
  · intro hperm hlen
    rw [itemOrders_extends s _ req.section_id _ req.items 0 s.nextItemID g4.items_eq,
      maxOrder_perm_zero_one _ hperm, hlen]
    exact hperm.append_right _

/-- Witness for C3: section 1 of `exStore` holds two items at orders 0 and 1;
the two items of `exAddItems` are created at orders 2 and 3. -/
theorem add_items_appends_after_max_witness :
    (batchAddToSection noFault (Env.init exStore) exAddItems).1.status = 201 ∧
      (batchAddToSection noFault (Env.init exStore) exAddItems).2.store.itemOrders 1 =
        [0, 1, 2, 3] :=
  ⟨(add_items_appends_after_max exStore exAddItems
      { id := 1, list_id := 1, name := "Dairy", sort_order := 0, items := [] }
      (by decide) (by decide)).1, by decide⟩

/-! ## C4: add-sections mode -/

/-- C4: for an existing list and valid input sections, `batchAddToList` succeeds
when no store call fails; and every successful call (whatever the fault
schedule) has asked `GetMaxSectionOrderTx` once, got some `m`, and created one
section per input section under that list, the `i`-th with sort order
`m + 1 + i`, and under each new section one item per input item, the `j`-th
with sort order `j`, whatever `m` is. -/
theorem add_sections_appends_after_max (s : Store) (req : BatchCreateRequest) (l : DbList)
    (hl : s.findList req.list_id = some l)
    (hvalid : ∀ x ∈ req.sections, x.name ≠ "" ∧ len x.name ≤ MaxSectionNameLength ∧
      ∀ it ∈ x.items, it.name ≠ "" ∧ len it.name ≤ MaxItemNameLength) :
    (batchAddToList noFault (Env.init s) req).1.status = 201 ∧
    ∀ fault : Fault, (batchAddToList fault (Env.init s) req).1.status = 201 →
      ∃ (secs : List DbSection) (m : Int),
        m = maxOrder (s.sectionOrders req.list_id) ∧
        Event.GetMaxSectionOrderTx req.list_id m ∈
          (batchAddToList fault (Env.init s) req).2.log ∧
        (batchAddToList fault (Env.init s) req).1.body =
          .batch { list := none, sections := secs,
                   items := secs.flatMap (fun x => x.items) } ∧
        (batchAddToList fault (Env.init s) req).2.store.sections =
          s.sections ++ secs.map DbSection.row ∧
        (batchAddToList fault (Env.init s) req).2.store.items =
          s.items ++ secs.flatMap (fun x => x.items) ∧
        secs.length = req.sections.length ∧
        ∀ (i : Nat) (inp : BatchSectionInput), req.sections[i]? = some inp →
          ∃ x : DbSection, secs[i]? = some x ∧ x.list_id = req.list_id ∧
            x.name = inp.name ∧ x.sort_order = m + 1 + i ∧
            x.items.length = inp.items.length ∧
            ∀ (j : Nat) (it : BatchItemInput), inp.items[j]? = some it →
              ∃ row : DbItem, x.items[j]? = some row ∧ row.section_id = x.id ∧
                row.name = it.name ∧ row.description = it.description ∧
                row.sort_order = j := by
  refine ⟨batchAddToList_total s req l hl
    ((addToList_validateSections_none _).mpr hvalid), ?_⟩
  intro fault hok
  obtain ⟨evs, _, _, g3, g4, g5, _⟩ := batchAddToList_success fault s req hok
  refine ⟨_, _, rfl, ?_, ?_, g4.sections_eq, g4.items_eq, sectionRows_length _ _ _ _ _ _, ?_⟩
  · rw [g5]; simp
  · rw [g3]
  · intro i inp hi
    have := sectionRows_facts req.list_id
      (fun i => maxOrder (s.sectionOrders req.list_id) + 1 + (i : Int)) req.sections 0
      s.nextSectionID s.nextItemID i inp hi
    simpa using this

/-- Witness for C4: list 1 of `exStore` holds one section at order 0; the two
sections of `exAddSections` are created at orders 1 and 2, their items at
orders 0, and 0 and 1. -/
theorem add_sections_appends_after_max_witness :
    (batchAddToList noFault (Env.init exStore) exAddSections).1.status = 201 ∧
      (batchAddToList noFault (Env.init exStore) exAddSections).2.store.sectionOrders 1 =
        [0, 1, 2] ∧
      (batchAddToList noFault (Env.init exStore) exAddSections).2.store.itemOrders 3 =
        [0, 1] :=
  ⟨(add_sections_appends_after_max exStore exAddSections
      { id := 1, name := "Groceries", icon := "🛒", sort_order := 0, stats := none }
      (by decide) (by decide)).1, by decide, by decide⟩

/-! ## C5: new-list mode -/

/-- C5: for a valid new-list input, `batchCreateNewList` succeeds when no store
call fails; and every successful call (whatever the fault schedule) has first
inserted one list (the only list insert of the call, before every section and
item insert), then one section per input section under that list, the `i`-th
with sort order `i`, each with one item per input item, the `j`-th with sort
order `j`.  The sections of the response are in input order, and its flat
items list is the concatenation, in section order, of the items of each
section in input order. -/
theorem new_list_batch_orders (s : Store) (l : BatchListInput)
    (hname : l.name ≠ "" ∧ len l.name ≤ MaxListNameLength)
    (hvalid : ∀ x ∈ l.sections, x.name ≠ "" ∧ len x.name ≤ MaxSectionNameLength ∧
      ∀ it ∈ x.items, it.name ≠ "" ∧ len it.name ≤ MaxItemNameLength ∧
        len it.description ≤ MaxDescriptionLength) :
    (batchCreateNewList noFault (Env.init s) l).1.status = 201 ∧
    ∀ fault : Fault, (batchCreateNewList fault (Env.init s) l).1.status = 201 →
      ∃ (list : DbList) (secs : List DbSection) (evs : List Event),
        (batchCreateNewList fault (Env.init s) l).1.body =
          .batch { list := some list, sections := secs,
                   items := secs.flatMap (fun x => x.items) } ∧
        list.name = l.name ∧ list.icon = NormalizeIcon l.icon ∧
        (batchCreateNewList fault (Env.init s) l).2.log =
          [.Begin true, .CreateListTx l.name (NormalizeIcon l.icon) true] ++ evs ++
            [.Commit true, .GetListStats list.id,
              .BroadcastUpdate "batch_created" (.list_id list.id), .Rollback] ∧
        (∀ ev ∈ evs, ev.isLoopWrite = true) ∧
        (batchCreateNewList fault (Env.init s) l).2.store.lists =
          s.lists ++ [{ list with stats := none }] ∧
        (batchCreateNewList fault (Env.init s) l).2.store.sections =
          s.sections ++ secs.map DbSection.row ∧
        (batchCreateNewList fault (Env.init s) l).2.store.items =
          s.items ++ secs.flatMap (fun x => x.items) ∧
        secs.length = l.sections.length ∧
        ∀ (i : Nat) (inp : BatchSectionInput), l.sections[i]? = some inp →
          ∃ x : DbSection, secs[i]? = some x ∧ x.list_id = list.id ∧
            x.name = inp.name ∧ x.sort_order = i ∧
            x.items.length = inp.items.length ∧
            ∀ (j : Nat) (it : BatchItemInput), inp.items[j]? = some it →
              ∃ row : DbItem, x.items[j]? = some row ∧ row.section_id = x.id ∧
                row.name = it.name ∧ row.description = it.description ∧
                row.sort_order = j := by
  refine ⟨batchCreateNewList_total s l hname.1 (by omega)
    ((newList_validateSections_none _).mpr hvalid), ?_⟩
  intro fault hok
  obtain ⟨evs, _, _, _, g3, g4, g5, g6⟩ := batchCreateNewList_success fault s l hok
  refine ⟨_, _, evs, by rw [g3], rfl, rfl, ?_, fun ev hev => (g6 ev hev).1, ?_,
    ?_, ?_, sectionRows_length _ _ _ _ _ _, ?_⟩
  · rw [g5]; rfl
  · rw [g4.lists_eq]; rfl
  · rw [g4.sections_eq]; rfl
  · rw [g4.items_eq]; rfl
  · intro i inp hi
    have := sectionRows_facts s.nextListID (fun i => (i : Int)) l.sections 0
      s.nextSectionID s.nextItemID i inp hi
    simpa [Store.insertList] using this

/-- Witness for C5: the new list of `exNewListInput` on `exStore` gets id 2; its
two sections get orders 0 and 1 and the items of each get orders 0 and 1. -/
theorem new_list_batch_orders_witness :
    (batchCreateNewList noFault (Env.init exStore) exNewListInput).1.status = 201 ∧
      (batchCreateNewList noFault (Env.init exStore) exNewListInput).2.store.sectionOrders 2 =
        [0, 1] ∧
      (batchCreateNewList noFault (Env.init exStore) exNewListInput).2.store.itemOrders 3 =
        [0, 1] :=
  ⟨(new_list_batch_orders exStore exNewListInput (by decide) (by decide)).1,
    by decide, by decide⟩

/-! ## C7: length limits in the batch modes -/

theorem utf8ByteSize_go_replicate_a (n : Nat) :
    String.utf8ByteSize.go (List.replicate n 'a') = n := by
  induction n with
  | zero => rfl
  | succ k ih =>
    have h1 : 'a'.utf8Size = 1 := by decide
    simp only [List.replicate_succ, String.utf8ByteSize.go, ih, h1]

theorem len_replicate_a (n : Nat) : len (String.mk (List.replicate n 'a')) = n :=
  utf8ByteSize_go_replicate_a n

/-- C7 fails on the code: in add-items mode and in add-sections mode an item
whose description has 501 characters is accepted (201) and stored, whereas
new-list mode rejects the same item with `validation_error`. -/
theorem batch_add_modes_accept_long_description :
    exLongDescription.length = 501 ∧
      (api.BatchCreate noFault exStore (some exLongDescItems)).resp.status = 201 ∧
      (∃ it ∈ (api.BatchCreate noFault exStore (some exLongDescItems)).store.items,
        it.description = exLongDescription) ∧
      (api.BatchCreate noFault exStore (some exLongDescSections)).resp.status = 201 ∧
      (∃ it ∈ (api.BatchCreate noFault exStore (some exLongDescSections)).store.items,
        it.description = exLongDescription) ∧
      (api.BatchCreate noFault exStore (some exLongDescNewList)).resp.errorCode =
        some "validation_error" := by
  have hlen : len exLongDescription = 501 := len_replicate_a 501
  refine ⟨List.length_replicate _ _, by decide, ?_, by decide, ?_, ?_⟩
  · have h : (api.BatchCreate noFault exStore (some exLongDescItems)).store.items =
        exStore.items ++ [DbItem.mk 3 1 "tea" exLongDescription false false 2] := rfl
    exact ⟨DbItem.mk 3 1 "tea" exLongDescription false false 2, by rw [h]; simp, rfl⟩
  · have h : (api.BatchCreate noFault exStore (some exLongDescSections)).store.items =
        exStore.items ++ [DbItem.mk 3 2 "tea" exLongDescription false false 0] := rfl
    exact ⟨DbItem.mk 3 2 "tea" exLongDescription false false 0, by rw [h]; simp, rfl⟩
  · have hv : batchCreateNewList.validateSections
        [{ name := "Drinks", items := [{ name := "tea", description := exLongDescription }] }]
        = some (errorJSON 400 "validation_error"
          "Item description exceeds maximum length of 500 characters") := by
      have h1 : len "Drinks" = 6 := by decide
      have h2 : len "tea" = 3 := by decide
      have h3 : ("Drinks" : String) ≠ "" := by decide
      have h4 : ("tea" : String) ≠ "" := by decide
      simp [batchCreateNewList.validateSections, batchCreateNewList.validateItems, hlen, h1,
        h2, h3, h4, MaxSectionNameLength, MaxItemNameLength, MaxDescriptionLength]
    have hp : ("Party" : String) ≠ "" := by decide
    have hp2 : ¬ len "Party" > MaxListNameLength := by decide
    simp [api.BatchCreate, exLongDescNewList, batchCreateNewList, hp, hp2, hv, errorJSON,
      Response.errorCode]

/-! ## C10: unknown ids -/

theorem GetListByID_not_found (fault : Fault) (s : Store) (id : Int)
    (hfault : fault 0 = false) (hid : s.findList id = none) :
    db.GetListByID fault (Env.init s) id =
      (.error .ErrNoRows, { store := s, log := [.GetListByID id] }) := by
  simp [db.GetListByID, Env.init, hfault, hid, Env.record]

theorem GetSectionByID_not_found (fault : Fault) (s : Store) (id : Int)
    (hfault : fault 0 = false) (hid : s.findSection id = none) :
    db.GetSectionByID fault (Env.init s) id =
      (.error .ErrNoRows, { store := s, log := [.GetSectionByID id] }) := by
  simp [db.GetSectionByID, Env.init, hfault, hid, Env.record]

/-- C10, as stated, fails for `BatchCreate`: a batch request that names the
unknown list 99 but brings no sections is answered 400 `validation_error`, not
404 `not_found`. -/
theorem batch_unknown_list_without_sections :
    exStore.findList 99 = none ∧
      exUnknownListNoSections.list_id = 99 ∧
      (api.BatchCreate noFault exStore (some exUnknownListNoSections)).resp.status = 400 ∧
      (api.BatchCreate noFault exStore (some exUnknownListNoSections)).resp.errorCode =
        some "validation_error" := by
  decide

/-- C10, amended: when the lookup itself is answered by the store, a list id
that does not exist makes `MoveListUp`, `MoveListDown`, `UpdateList`,
`DeleteList` and `GetListSections` return 404 `not_found` with the store
unchanged and nothing in the call log but the lookup (no write, no
transaction, no broadcast); so does `BatchCreate` when the request selects
add-sections mode with that list id (no `list` field, a non-zero id, at least
one section), and likewise when it selects add-items mode with a section id
that does not exist. -/
theorem unknown_id_is_not_found (fault : Fault) (s : Store) (id : Int)
    (hfault : fault 0 = false) (hid : s.findList id = none) :
    api.MoveListUp fault s (some id) = listNotFound s id ∧
    api.MoveListDown fault s (some id) = listNotFound s id ∧
    (∀ body : UpdateListRequest, api.UpdateList fault s (some id) (some body) =
      listNotFound s id) ∧
    api.DeleteList fault s (some id) = listNotFound s id ∧
    api.GetListSections fault s (some id) = listNotFound s id ∧
    (∀ req : BatchCreateRequest, req.list = none → req.list_id = id → id ≠ 0 →
      req.sections ≠ [] → api.BatchCreate fault s (some req) = listNotFound s id) ∧
    (∀ req : BatchCreateRequest, req.list = none →
      ¬ (req.list_id ≠ 0 ∧ req.sections.length > 0) →
      req.section_id ≠ 0 → req.items ≠ [] → s.findSection req.section_id = none →
      api.BatchCreate fault s (some req) = sectionNotFound s req.section_id) := by
  have hg := GetListByID_not_found fault s id hfault hid
  refine ⟨?_, ?_, ?_, ?_, ?_, ?_, ?_⟩
  · simp only [api.MoveListUp, hg]; rfl
  · simp only [api.MoveListDown, hg]; rfl
  · intro body; simp only [api.UpdateList, hg]; rfl
  · simp only [api.DeleteList, hg]; rfl
  · simp only [api.GetListSections, hg]; rfl
  · intro req hl hreq hne hsec
    have h2 : req.list_id ≠ 0 ∧ req.sections.length > 0 :=
      ⟨by rw [hreq]; exact hne, List.length_pos.mpr hsec⟩
    rw [BatchCreate_addToList fault s req hl h2]
    subst hreq
    simp only [batchAddToList, hg]; rfl
  · intro req hl h2 hne hitems hsid
    have h3 : req.section_id ≠ 0 ∧ req.items.length > 0 := ⟨hne, List.length_pos.mpr hitems⟩
    rw [BatchCreate_addToSection fault s req hl h2 h3]
    simp only [batchAddToSection, GetSectionByID_not_found fault s _ hfault hsid]; rfl

/-- Witness for C10: list 99 does not exist in `exStore`; moving it is answered
404 and the add-sections request for it as well. -/
theorem unknown_id_is_not_found_witness :
    exStore.findList 99 = none ∧
      api.MoveListUp noFault exStore (some 99) = listNotFound exStore 99 ∧
      api.BatchCreate noFault exStore (some exUnknownListSections) = listNotFound exStore 99 :=
  ⟨by decide, (unknown_id_is_not_found noFault exStore 99 rfl (by decide)).1,
    (unknown_id_is_not_found noFault exStore 99 rfl (by decide)).2.2.2.2.2.1
      exUnknownListSections rfl rfl (by decide) (by decide)⟩

/-! ## C9: moves at the boundary -/

theorem pickHighest_nil_of_lowest (ls : List DbList) (l : DbList)
    (h : ∀ x ∈ ls, l.sort_order ≤ x.sort_order) :
    pickHighest (ls.filter (fun x => x.sort_order < l.sort_order)) = none := by
  have : ls.filter (fun x => x.sort_order < l.sort_order) = [] := by
    rw [List.filter_eq_nil_iff]
    intro x hx
    have := h x hx
    simp only [decide_eq_true_eq]
    omega
  rw [this]; rfl

theorem pickLowest_nil_of_highest (ls : List DbList) (l : DbList)
    (h : ∀ x ∈ ls, x.sort_order ≤ l.sort_order) :
    pickLowest (ls.filter (fun x => x.sort_order > l.sort_order)) = none := by
  have : ls.filter (fun x => x.sort_order > l.sort_order) = [] := by
    rw [List.filter_eq_nil_iff]
    intro x hx
    have := h x hx
    simp only [decide_eq_true_eq]
    omega
  rw [this]; rfl

/-- C9: without store failure, for every store and every existing list,
`MoveListUp` on a list of lowest sort order and `MoveListDown` on a list of
highest sort order answer 200 with the list exactly as `GetListByID` returned
it before the call, and leave the whole store (so every sort order) as it
was. -/
theorem move_at_boundary_is_noop (s : Store) (id : Int) (l : DbList)
    (hl : s.findList id = some l) :
    ((∀ x ∈ s.lists, l.sort_order ≤ x.sort_order) →
      api.MoveListUp noFault s (some id) =
        { resp := { status := 200, body := .list (some l) }, store := s,
          log := [.GetListByID id, .MoveListUp id true,
            .BroadcastUpdate "lists_reordered" .null, .GetListByID id] }) ∧
    ((∀ x ∈ s.lists, x.sort_order ≤ l.sort_order) →
      api.MoveListDown noFault s (some id) =
        { resp := { status := 200, body := .list (some l) }, store := s,
          log := [.GetListByID id, .MoveListDown id true,
            .BroadcastUpdate "lists_reordered" .null, .GetListByID id] }) := by
  constructor
  · intro hlow
    have hm : s.moveListUp id = some s := by
      simp [Store.moveListUp, hl, pickHighest_nil_of_lowest s.lists l hlow]
    simp [api.MoveListUp, db.GetListByID, db.MoveListUp, Env.init, hl, hm,
      handlers.BroadcastUpdate, listOrNil, Outcome.ofRun]
  · intro hhigh
    have hm : s.moveListDown id = some s := by
      simp [Store.moveListDown, hl, pickLowest_nil_of_highest s.lists l hhigh]
    simp [api.MoveListDown, db.GetListByID, db.MoveListDown, Env.init, hl, hm,
      handlers.BroadcastUpdate, listOrNil, Outcome.ofRun]

/-- Witness for C9: in `exTwoLists` list 1 is first and list 2 is last. -/
theorem move_at_boundary_is_noop_witness :
    exTwoLists.findList 1 =
        some { id := 1, name := "A", icon := "", sort_order := 0, stats := none } ∧
      (api.MoveListUp noFault exTwoLists (some 1)).resp.status = 200 ∧
      (api.MoveListUp noFault exTwoLists (some 1)).store = exTwoLists ∧
      (api.MoveListDown noFault exTwoLists (some 2)).store = exTwoLists := by
  refine ⟨by decide, ?_, ?_, ?_⟩
  · rw [(move_at_boundary_is_noop exTwoLists 1 (DbList.mk 1 "A" "" 0 none)
      (by decide)).1 (by decide)]
  · rw [(move_at_boundary_is_noop exTwoLists 1 (DbList.mk 1 "A" "" 0 none)
      (by decide)).1 (by decide)]
  · rw [(move_at_boundary_is_noop exTwoLists 2 (DbList.mk 2 "B" "" 1 none)
      (by decide)).2 (by decide)]

/-! ## Lemmas: dense scopes -/

theorem dense_iff (os : List Int) :
    Dense os ↔ os.Nodup ∧ ∀ o ∈ os, 0 ≤ o ∧ o < os.length := by
  have hinj : Function.Injective (fun n : Nat => (n : Int)) := fun a b h => by
    simpa using h
  constructor
  · intro h
    refine ⟨h.nodup_iff.mpr ((List.nodup_range _).map hinj), ?_⟩
    intro o ho
    have := h.mem_iff.mp ho
    simp only [List.mem_map, List.mem_range] at this
    obtain ⟨k, hk, rfl⟩ := this
    exact ⟨by omega, by omega⟩
  · rintro ⟨hnd, hb⟩
    apply (List.subperm_of_subset hnd ?_).perm_of_length_le (by simp)
    intro o ho
    obtain ⟨h0, h1⟩ := hb o ho
    simp only [List.mem_map, List.mem_range]
    exact ⟨o.toNat, by omega, by omega⟩

theorem dense_nil : Dense [] := by
  simp [Dense]

theorem dense_maxOrder (os : List Int) (h : Dense os) : maxOrder os + 1 = os.length := by
  cases hos : os with
  | nil => rfl
  | cons x rest =>
    rw [← hos]
    have hne : os ≠ [] := by rw [hos]; simp
    obtain ⟨_, hb⟩ := (dense_iff os).mp h
    have h1 := (hb _ (maxOrder_mem os hne)).2
    have hlen : 0 < os.length := List.length_pos.mpr hne
    have hmem : ((os.length - 1 : Nat) : Int) ∈ os := by
      apply h.mem_iff.mpr
      simp only [List.mem_map, List.mem_range]
      exact ⟨os.length - 1, by omega, rfl⟩
    have h2 := maxOrder_ge os _ hmem
    omega

theorem dense_append_block (os : List Int) (h : Dense os) (k : Nat) :
    Dense (os ++ (List.range' 0 k).map (fun (j : Nat) => maxOrder os + 1 + (j : Int))) := by
  rw [dense_iff] at h ⊢
  obtain ⟨hnd, hb⟩ := h
  have hm := dense_maxOrder os ((dense_iff os).mpr ⟨hnd, hb⟩)
  refine ⟨?_, ?_⟩
  · rw [List.nodup_append]
    refine ⟨hnd, ?_, ?_⟩
    · apply (List.nodup_range' 0 k).map_on
      intro a ha b hb2 hab
      simp only [List.mem_range'_1] at ha hb2
      omega
    · intro o ho ho2
      simp only [List.mem_map, List.mem_range'_1] at ho2
      obtain ⟨j, hj, rfl⟩ := ho2
      have := (hb _ ho).2
      omega
  · intro o ho
    simp only [List.length_append, List.length_map, List.length_range']
    rcases List.mem_append.mp ho with ho | ho
    · have := hb o ho
      exact ⟨this.1, by push_cast; omega⟩
    · simp only [List.mem_map, List.mem_range'_1] at ho
      obtain ⟨j, hj, rfl⟩ := ho
      exact ⟨by omega, by push_cast; omega⟩

theorem dense_map_swap (os : List Int) (h : Dense os) (a b : Int) (ha : a ∈ os)
    (hb : b ∈ os) : Dense (os.map (Equiv.swap a b)) := by
  rw [dense_iff] at h ⊢
  obtain ⟨hnd, hbd⟩ := h
  refine ⟨hnd.map (Equiv.injective _), ?_⟩
  intro o ho
  simp only [List.mem_map] at ho
  obtain ⟨x, hx, rfl⟩ := ho
  simp only [List.length_map]
  by_cases hxa : x = a
  · subst hxa; rw [Equiv.swap_apply_left]; exact hbd _ hb
  · by_cases hxb : x = b
    · subst hxb; rw [Equiv.swap_apply_right]; exact hbd _ ha
    · rw [Equiv.swap_apply_of_ne_of_ne hxa hxb]; exact hbd _ hx

/-! ## Lemmas: the store operations keep the scopes dense -/

theorem findList_some (s : Store) (id : Int) (l : DbList) (h : s.findList id = some l) :
    l ∈ s.lists ∧ l.id = id := by
  unfold Store.findList at h
  exact ⟨List.mem_of_find?_eq_some h, by simpa using List.find?_some h⟩

theorem findSection_some (s : Store) (id : Int) (x : DbSection)
    (h : s.findSection id = some x) : x ∈ s.sections ∧ x.id = id := by
  unfold Store.findSection at h
  exact ⟨List.mem_of_find?_eq_some h, by simpa using List.find?_some h⟩

theorem insertList_keys (s : Store) (name icon : String) (h : s.KeysOK) :
    (s.insertList name icon).2.KeysOK := by
  obtain ⟨h1, h2, h3, h4, h5⟩ := h
  refine ⟨?_, ?_, ?_, ?_, ?_⟩
  · simp only [Store.insertList, List.map_append, List.map_cons, List.map_nil]
    rw [List.nodup_append]
    refine ⟨h1, by simp, ?_⟩
    intro a ha hb
    simp only [List.mem_singleton] at hb
    simp only [List.mem_map] at ha
    obtain ⟨l, hl, rfl⟩ := ha
    have := h2 l hl
    omega
  · intro l hl
    simp only [Store.insertList, List.mem_append, List.mem_singleton] at hl ⊢
    rcases hl with hl | rfl
    · have := h2 l hl; omega
    · simp
  · exact h3
  · intro x hx
    have := h4 x hx
    simp only [Store.insertList]
    omega
  · exact h5

theorem insertList_dense (s : Store) (name icon : String) (h : s.AllDense) :
    (s.insertList name icon).2.AllDense := by
  obtain ⟨h1, h2, h3⟩ := h
  refine ⟨?_, h2, h3⟩
  have := dense_append_block s.listOrders h1 1
  simpa [Store.insertList, Store.listOrders] using this

theorem pickHighest_mem (ls : List DbList) (m : DbList) (h : pickHighest ls = some m) :
    m ∈ ls := by
  induction ls generalizing m with
  | nil => simp [pickHighest] at h
  | cons l rest ih =>
    simp only [pickHighest] at h
    cases hp : pickHighest rest with
    | none =>
      rw [hp] at h
      simp only [Option.some.injEq] at h
      subst h
      simp
    | some m2 =>
      rw [hp] at h
      simp only at h
      split at h
      · simp only [Option.some.injEq] at h; subst h; simp [ih m2 hp]
      · simp only [Option.some.injEq] at h; subst h; simp

theorem pickLowest_mem (ls : List DbList) (m : DbList) (h : pickLowest ls = some m) :
    m ∈ ls := by
  induction ls generalizing m with
  | nil => simp [pickLowest] at h
  | cons l rest ih =>
    simp only [pickLowest] at h
    cases hp : pickLowest rest with
    | none =>
      rw [hp] at h
      simp only [Option.some.injEq] at h
      subst h
      simp
    | some m2 =>
      rw [hp] at h
      simp only at h
      split at h
      · simp only [Option.some.injEq] at h; subst h; simp [ih m2 hp]
      · simp only [Option.some.injEq] at h; subst h; simp

theorem setListOrder_ids (ls : List DbList) (id o : Int) :
    (setListOrder ls id o).map (fun l => l.id) = ls.map (fun l => l.id) := by
  unfold setListOrder
  rw [List.map_map]
  apply List.map_congr_left
  intro l _
  simp only [Function.comp]
  split <;> rfl

theorem swap_orders (ls : List DbList) (cur nb : DbList)
    (hids : (ls.map (fun l => l.id)).Nodup)
    (hord : (ls.map (fun l => l.sort_order)).Nodup)
    (hcur : cur ∈ ls) (hnb : nb ∈ ls) (hne : cur.sort_order ≠ nb.sort_order) :
    (setListOrder (setListOrder ls cur.id nb.sort_order) nb.id cur.sort_order).map
        (fun l => l.sort_order) =
      (ls.map (fun l => l.sort_order)).map (Equiv.swap cur.sort_order nb.sort_order) := by
  have hidinj : ∀ a ∈ ls, ∀ b ∈ ls, a.id = b.id → a = b :=
    fun a ha b hb h => List.inj_on_of_nodup_map hids ha hb h
  have hordinj : ∀ a ∈ ls, ∀ b ∈ ls, a.sort_order = b.sort_order → a = b :=
    fun a ha b hb h => List.inj_on_of_nodup_map hord ha hb h
  have hidne : cur.id ≠ nb.id := by
    intro h
    exact hne (by rw [hidinj cur hcur nb hnb h])
  simp only [setListOrder, List.map_map]
  apply List.map_congr_left
  intro l hl
  simp only [Function.comp]
  by_cases h1 : l.id = cur.id
  · have : l = cur := hidinj l hl cur hcur h1
    subst this
    simp [hidne, Equiv.swap_apply_left]
  · by_cases h2 : l.id = nb.id
    · have : l = nb := hidinj l hl nb hnb h2
      subst this
      simp [h1, Equiv.swap_apply_right]
    · have h3 : l.sort_order ≠ cur.sort_order := fun h => h1 (by rw [hordinj l hl cur hcur h])
      have h4 : l.sort_order ≠ nb.sort_order := fun h => h2 (by rw [hordinj l hl nb hnb h])
      simp [h1, h2, Equiv.swap_apply_of_ne_of_ne h3 h4]

theorem keys_of_same_ids (s s1 : Store) (h : s.KeysOK)
    (hids : s1.lists.map (fun l => l.id) = s.lists.map (fun l => l.id))
    (hsec : s1.sections = s.sections) (hit : s1.items = s.items)
    (hn1 : s1.nextListID = s.nextListID) (hn2 : s1.nextSectionID = s.nextSectionID) :
    s1.KeysOK := by
  obtain ⟨h1, h2, h3, h4, h5⟩ := h
  refine ⟨by rw [hids]; exact h1, ?_, by rw [hsec, hn2]; exact h3,
    by rw [hsec, hn1]; exact h4, by rw [hit, hn2]; exact h5⟩
  intro l hl
  have : l.id ∈ s1.lists.map (fun l => l.id) := List.mem_map_of_mem _ hl
  rw [hids, List.mem_map] at this
  obtain ⟨l0, hl0, h0⟩ := this
  rw [hn1, ← h0]
  exact h2 l0 hl0

theorem swap_keeps_dense (s : Store) (cur nb : DbList) (hk : s.KeysOK) (hd : s.AllDense)
    (hcur : cur ∈ s.lists) (hnb : nb ∈ s.lists) (hne : cur.sort_order ≠ nb.sort_order) :
    ({ s with lists :=
        setListOrder (setListOrder s.lists cur.id nb.sort_order) nb.id cur.sort_order }
      : Store).KeysOK ∧
    ({ s with lists :=
        setListOrder (setListOrder s.lists cur.id nb.sort_order) nb.id cur.sort_order }
      : Store).AllDense := by
  obtain ⟨h1, h2, h3⟩ := hd
  constructor
  · exact keys_of_same_ids s _ hk (by simp [setListOrder_ids]) rfl rfl rfl rfl
  · refine ⟨?_, h2, h3⟩
    have hnd := ((dense_iff _).mp h1).1
    have := swap_orders s.lists cur nb hk.list_ids_nodup hnd hcur hnb hne
    simp only [Store.listOrders] at h1 hnd ⊢
    rw [this]
    exact dense_map_swap _ h1 _ _ (List.mem_map_of_mem _ hcur) (List.mem_map_of_mem _ hnb)

theorem moveListUp_keeps (s s1 : Store) (id : Int) (hk : s.KeysOK) (hd : s.AllDense)
    (h : s.moveListUp id = some s1) : s1.KeysOK ∧ s1.AllDense := by
  unfold Store.moveListUp at h
  cases hf : s.findList id with
  | none => simp [hf] at h
  | some cur =>
    simp only [hf] at h
    cases hp : pickHighest (s.lists.filter (fun l => l.sort_order < cur.sort_order)) with
    | none =>
      simp only [hp, Option.some.injEq] at h
      subst h
      exact ⟨hk, hd⟩
    | some nb =>
      simp only [hp, Option.some.injEq] at h
      subst h
      have hnb := pickHighest_mem _ _ hp
      simp only [List.mem_filter, decide_eq_true_eq] at hnb
      exact swap_keeps_dense s cur nb hk hd (findList_some s id cur hf).1 hnb.1 (by omega)

theorem moveListDown_keeps (s s1 : Store) (id : Int) (hk : s.KeysOK) (hd : s.AllDense)
    (h : s.moveListDown id = some s1) : s1.KeysOK ∧ s1.AllDense := by
  unfold Store.moveListDown at h
  cases hf : s.findList id with
  | none => simp [hf] at h
  | some cur =>
    simp only [hf] at h
    cases hp : pickLowest (s.lists.filter (fun l => l.sort_order > cur.sort_order)) with
    | none =>
      simp only [hp, Option.some.injEq] at h
      subst h
      exact ⟨hk, hd⟩
    | some nb =>
      simp only [hp, Option.some.injEq] at h
      subst h
      have hnb := pickLowest_mem _ _ hp
      simp only [List.mem_filter, decide_eq_true_eq] at hnb
      exact swap_keeps_dense s cur nb hk hd (findList_some s id cur hf).1 hnb.1 (by omega)

theorem updateList_keeps (s : Store) (id : Int) (name icon : String) (hk : s.KeysOK)
    (hd : s.AllDense) : (s.updateList id name icon).KeysOK ∧ (s.updateList id name icon).AllDense := by
  have hids : (s.updateList id name icon).lists.map (fun l => l.id) =
      s.lists.map (fun l => l.id) := by
    simp only [Store.updateList, List.map_map]
    apply List.map_congr_left
    intro l _
    simp only [Function.comp]
    split <;> rfl
  have hords : (s.updateList id name icon).listOrders = s.listOrders := by
    simp only [Store.updateList, Store.listOrders, List.map_map]
    apply List.map_congr_left
    intro l _
    simp only [Function.comp]
    split <;> rfl
  obtain ⟨h1, h2, h3⟩ := hd
  exact ⟨keys_of_same_ids s _ hk hids rfl rfl rfl rfl, by rw [hords]; exact h1, h2, h3⟩

theorem db_UpdateList_cases (fault : Fault) (e : Env) (id : Int) (name icon : String) :
    db.UpdateList fault e id name icon = (none, e.record (.UpdateList id name icon false)) ∨
    ∃ l, db.UpdateList fault e id name icon =
      (some l, { store := e.store.updateList id name icon,
                 log := e.log ++ [.UpdateList id name icon true] }) := by
  unfold db.UpdateList
  split
  · left; rfl
  · cases (e.store.updateList id name icon).findList id with
    | none => left; rfl
    | some l => right; exact ⟨l, rfl⟩

theorem UpdateList_store (fault : Fault) (s : Store) (id : Option Int)
    (body : Option UpdateListRequest) :
    (api.UpdateList fault s id body).store = s ∨
      ∃ i name icon, (api.UpdateList fault s id body).store = s.updateList i name icon := by
  unfold api.UpdateList
  cases id with
  | none => left; rfl
  | some i =>
    cases body with
    | none => left; rfl
    | some req =>
      rcases GetListByID_cases fault (Env.init s) i with h | ⟨_, h⟩ | ⟨x, _, h⟩
      · left; simp only [h]; rfl
      · left; simp only [h]; rfl
      · simp only [h]
        by_cases hlen : len (if req.name = "" then x.name else req.name) > MaxListNameLength
        · left; rw [if_pos hlen]; rfl
        · rw [if_neg hlen]
          rcases db_UpdateList_cases fault ((Env.init s).record (.GetListByID i)) i
            (if req.name = "" then x.name else req.name)
            (if req.icon = "" then x.icon else NormalizeIcon req.icon) with hu | ⟨l, hu⟩
          · left; simp only [hu]; rfl
          · right; simp only [hu]; exact ⟨_, _, _, rfl⟩

theorem GetListSections_store (fault : Fault) (s : Store) (id : Option Int) :
    (api.GetListSections fault s id).store = s := by
  unfold api.GetListSections
  cases id with
  | none => rfl
  | some i =>
    rcases GetListByID_cases fault (Env.init s) i with h | ⟨_, h⟩ | ⟨x, _, h⟩
    · simp only [h]; rfl
    · simp only [h]; rfl
    · simp only [h, db.GetSectionsByList]
      by_cases hf : fault ((Env.init s).record (.GetListByID i)).log.length = true
      · rw [if_pos hf]; rfl
      · rw [if_neg hf]; rfl

theorem extend_items_keeps (s s1 : Store) (sid : Int) (inputs : List BatchItemInput) (id : Int)
    (hk : s.KeysOK) (hd : s.AllDense) (hsid : sid < s.nextSectionID)
    (hx : TxExtends s s1 []
      (itemRows sid (fun j => maxOrder (s.itemOrders sid) + 1 + (j : Int)) inputs 0 id)) :
    s1.KeysOK ∧ s1.AllDense := by
  obtain ⟨k1, k2, k3, k4, k5⟩ := hk
  obtain ⟨d1, d2, d3⟩ := hd
  have hsec : s1.sections = s.sections := by simpa using hx.sections_eq
  have hns : s1.nextSectionID = s.nextSectionID := by simpa using hx.nextSectionID_eq
  constructor
  · refine ⟨by rw [hx.lists_eq]; exact k1, by rw [hx.lists_eq, hx.nextListID_eq]; exact k2,
      by rw [hsec, hns]; exact k3, by rw [hsec, hx.nextListID_eq]; exact k4, ?_⟩
    intro x hxm
    rw [hx.items_eq, List.mem_append] at hxm
    rw [hns]
    rcases hxm with h | h
    · exact k5 x h
    · rw [itemRows_section _ _ _ _ _ x h]; exact hsid
  · refine ⟨by simpa [Store.listOrders, hx.lists_eq] using d1, ?_, ?_⟩
    · intro L
      simpa [Store.sectionOrders, hsec] using d2 L
    · intro S
      by_cases hS : S = sid
      · subst hS
        rw [itemOrders_extends s s1 S _ inputs 0 id hx.items_eq]
        exact dense_append_block _ (d3 S) _
      · have : s1.itemOrders S = s.itemOrders S := by
          unfold Store.itemOrders
          rw [hx.items_eq, List.filter_append]
          have : (itemRows sid (fun j => maxOrder (s.itemOrders sid) + 1 + (j : Int))
              inputs 0 id).filter (fun x => x.section_id == S) = [] := by
            rw [List.filter_eq_nil_iff]
            intro x hxm
            rw [itemRows_section _ _ _ _ _ x hxm]
            simpa using fun h => hS h.symm
          rw [this, List.append_nil]
        rw [this]
        exact d3 S

theorem sectionRows_list (listID : Int) (order : Nat → Int) (inputs : List BatchSectionInput) :
    ∀ (i : Nat) (sid iid : Int), ∀ x ∈ sectionRows listID order inputs i sid iid,
      x.list_id = listID ∧ sid ≤ x.id ∧ x.id < sid + inputs.length := by
  induction inputs with
  | nil => intro i sid iid x hx; simp [sectionRows] at hx
  | cons inp rest ih =>
    intro i sid iid x hx
    simp only [sectionRows, List.mem_cons] at hx
    rcases hx with rfl | hx
    · simp
    · obtain ⟨h1, h2, h3⟩ := ih _ _ _ x hx
      simp only [List.length_cons]
      exact ⟨h1, by omega, by push_cast; omega⟩

theorem sectionRows_orders (listID : Int) (order : Nat → Int)
    (inputs : List BatchSectionInput) :
    ∀ (i : Nat) (sid iid : Int),
      (sectionRows listID order inputs i sid iid).map (fun x => x.sort_order) =
        (List.range' i inputs.length).map order := by
  induction inputs with
  | nil => intro i sid iid; rfl
  | cons inp rest ih =>
    intro i sid iid
    simp [sectionRows, ih, List.range'_succ]

theorem sectionRows_items_parent (listID : Int) (order : Nat → Int)
    (inputs : List BatchSectionInput) :
    ∀ (i : Nat) (sid iid : Int),
      ∀ x ∈ (sectionRows listID order inputs i sid iid).flatMap (fun x => x.items),
        sid ≤ x.section_id ∧ x.section_id < sid + inputs.length := by
  induction inputs with
  | nil => intro i sid iid x hx; simp [sectionRows] at hx
  | cons inp rest ih =>
    intro i sid iid x hx
    simp only [sectionRows, List.flatMap_cons, List.mem_append] at hx
    simp only [List.length_cons]
    rcases hx with hx | hx
    · rw [itemRows_section _ _ _ _ _ x hx]
      exact ⟨le_refl _, by push_cast; omega⟩
    · obtain ⟨h1, h2⟩ := ih _ _ _ x hx
      exact ⟨by omega, by push_cast; omega⟩

theorem dense_range_cast (k : Nat) :
    Dense ((List.range' 0 k).map (fun (j : Nat) => (j : Int))) := by
  have := dense_append_block [] dense_nil k
  simpa [maxOrder] using this

theorem sectionRows_items_dense (listID : Int) (order : Nat → Int)
    (inputs : List BatchSectionInput) (S : Int) :
    ∀ (i : Nat) (sid iid : Int),
      Dense ((((sectionRows listID order inputs i sid iid).flatMap (fun x => x.items)).filter
        (fun x => x.section_id == S)).map (fun x => x.sort_order)) := by
  induction inputs with
  | nil => intro i sid iid; simpa [sectionRows] using dense_nil
  | cons inp rest ih =>
    intro i sid iid
    simp only [sectionRows, List.flatMap_cons, List.filter_append, List.map_append]
    by_cases hS : S = sid
    · subst hS
      have h1 : (itemRows S (fun j => (j : Int)) inp.items 0 iid).filter
          (fun x => x.section_id == S) = itemRows S (fun j => (j : Int)) inp.items 0 iid := by
        rw [List.filter_eq_self]
        intro x hx
        simp [itemRows_section _ _ _ _ _ x hx]
      have h2 : ((sectionRows listID order rest (i + 1) (S + 1)
          (iid + inp.items.length)).flatMap (fun x => x.items)).filter
          (fun x => x.section_id == S) = [] := by
        rw [List.filter_eq_nil_iff]
        intro x hx
        have := (sectionRows_items_parent _ _ _ _ _ _ x hx).1
        simp only [beq_iff_eq]
        omega
      rw [h1, h2, List.map_nil, List.append_nil, itemRows_orders]
      exact dense_range_cast _
    · have h1 : (itemRows sid (fun j => (j : Int)) inp.items 0 iid).filter
          (fun x => x.section_id == S) = [] := by
        rw [List.filter_eq_nil_iff]
        intro x hx
        rw [itemRows_section _ _ _ _ _ x hx]
        simpa using fun h => hS h.symm
      rw [h1, List.map_nil, List.nil_append]
      exact ih _ _ _

theorem extend_sections_keeps (s s1 : Store) (listID : Int) (inputs : List BatchSectionInput)
    (hk : s.KeysOK) (hd : s.AllDense) (hlist : listID < s.nextListID)
    (hx : TxExtends s s1
      ((sectionRows listID (fun i => maxOrder (s.sectionOrders listID) + 1 + (i : Int))
        inputs 0 s.nextSectionID s.nextItemID).map DbSection.row)
      ((sectionRows listID (fun i => maxOrder (s.sectionOrders listID) + 1 + (i : Int))
        inputs 0 s.nextSectionID s.nextItemID).flatMap (fun x => x.items))) :
    s1.KeysOK ∧ s1.AllDense := by
  obtain ⟨k1, k2, k3, k4, k5⟩ := hk
  obtain ⟨d1, d2, d3⟩ := hd
  have hns : s1.nextSectionID = s.nextSectionID + inputs.length := by
    simpa [sectionRows_length] using hx.nextSectionID_eq
  constructor
  · refine ⟨by rw [hx.lists_eq]; exact k1, by rw [hx.lists_eq, hx.nextListID_eq]; exact k2,
      ?_, ?_, ?_⟩
    · intro x hxm
      rw [hx.sections_eq, List.mem_append] at hxm
      rw [hns]
      rcases hxm with h | h
      · have := k3 x h; omega
      · simp only [List.mem_map] at h
        obtain ⟨r, hr, rfl⟩ := h
        exact (sectionRows_list _ _ _ _ _ _ r hr).2.2
    · intro x hxm
      rw [hx.sections_eq, List.mem_append] at hxm
      rw [hx.nextListID_eq]
      rcases hxm with h | h
      · exact k4 x h
      · simp only [List.mem_map] at h
        obtain ⟨r, hr, rfl⟩ := h
        have := (sectionRows_list _ _ _ _ _ _ r hr).1
        simp only [DbSection.row]
        omega
    · intro x hxm
      rw [hx.items_eq, List.mem_append] at hxm
      rw [hns]
      rcases hxm with h | h
      · have := k5 x h; omega
      · exact (sectionRows_items_parent _ _ _ _ _ _ x h).2
  · refine ⟨by simpa [Store.listOrders, hx.lists_eq] using d1, ?_, ?_⟩
    · intro L
      unfold Store.sectionOrders
      rw [hx.sections_eq, List.filter_append, List.map_append]
      by_cases hL : L = listID
      · subst hL
        have h1 : ((sectionRows L (fun i => maxOrder (s.sectionOrders L) + 1 + (i : Int))
            inputs 0 s.nextSectionID s.nextItemID).map DbSection.row).filter
            (fun x => x.list_id == L) =
            (sectionRows L (fun i => maxOrder (s.sectionOrders L) + 1 + (i : Int))
              inputs 0 s.nextSectionID s.nextItemID).map DbSection.row := by
          rw [List.filter_eq_self]
          intro x hxm
          simp only [List.mem_map] at hxm
          obtain ⟨r, hr, rfl⟩ := hxm
          simp [DbSection.row, (sectionRows_list _ _ _ _ _ _ r hr).1]
        rw [h1, List.map_map]
        have h2 : ((fun x : DbSection => x.sort_order) ∘ DbSection.row) =
            (fun x : DbSection => x.sort_order) := rfl
        rw [h2, sectionRows_orders]
        exact dense_append_block _ (d2 L) _
      · have h1 : ((sectionRows listID
            (fun i => maxOrder (s.sectionOrders listID) + 1 + (i : Int))
            inputs 0 s.nextSectionID s.nextItemID).map DbSection.row).filter
            (fun x => x.list_id == L) = [] := by
          rw [List.filter_eq_nil_iff]
          intro x hxm
          simp only [List.mem_map] at hxm
          obtain ⟨r, hr, rfl⟩ := hxm
          simp only [DbSection.row, (sectionRows_list _ _ _ _ _ _ r hr).1, beq_iff_eq]
          exact fun h => hL h.symm
        rw [h1, List.map_nil, List.append_nil]
        exact d2 L
    · intro S
      unfold Store.itemOrders
      rw [hx.items_eq, List.filter_append, List.map_append]
      by_cases hS : S < s.nextSectionID
      · have h1 : ((sectionRows listID
            (fun i => maxOrder (s.sectionOrders listID) + 1 + (i : Int))
            inputs 0 s.nextSectionID s.nextItemID).flatMap (fun x => x.items)).filter
            (fun x => x.section_id == S) = [] := by
          rw [List.filter_eq_nil_iff]
          intro x hxm
          have := (sectionRows_items_parent _ _ _ _ _ _ x hxm).1
          simp only [beq_iff_eq]
          omega
        rw [h1, List.map_nil, List.append_nil]
        exact d3 S
      · have h1 : s.items.filter (fun x => x.section_id == S) = [] := by
          rw [List.filter_eq_nil_iff]
          intro x hxm
          have := k5 x hxm
          simp only [beq_iff_eq]
          omega
        rw [h1, List.map_nil, List.nil_append]
        exact sectionRows_items_dense _ _ _ S _ _ _

theorem batchAddToSection_keeps (fault : Fault) (s : Store) (req : BatchCreateRequest)
    (hk : s.KeysOK) (hd : s.AllDense) :
    (batchAddToSection fault (Env.init s) req).2.store.KeysOK ∧
      (batchAddToSection fault (Env.init s) req).2.store.AllDense := by
  by_cases hst : (batchAddToSection fault (Env.init s) req).1.status = 201
  · obtain ⟨evs, ⟨x, hx⟩, _, _, g4, _, _⟩ := batchAddToSection_success fault s req hst
    obtain ⟨hmem, hid⟩ := findSection_some s _ x hx
    exact extend_items_keeps s _ req.section_id req.items s.nextItemID hk hd
      (by rw [← hid]; exact hk.section_ids_lt x hmem) g4
  · have := (batchAddToSection_facts fault s req).atomic hst
    simp only [Outcome.ofRun_store] at this
    rw [this]
    exact ⟨hk, hd⟩

theorem batchAddToList_keeps (fault : Fault) (s : Store) (req : BatchCreateRequest)
    (hk : s.KeysOK) (hd : s.AllDense) :
    (batchAddToList fault (Env.init s) req).2.store.KeysOK ∧
      (batchAddToList fault (Env.init s) req).2.store.AllDense := by
  by_cases hst : (batchAddToList fault (Env.init s) req).1.status = 201
  · obtain ⟨evs, ⟨x, hx⟩, _, _, g4, _, _⟩ := batchAddToList_success fault s req hst
    obtain ⟨hmem, hid⟩ := findList_some s _ x hx
    exact extend_sections_keeps s _ req.list_id req.sections hk hd
      (by rw [← hid]; exact hk.list_ids_lt x hmem) g4
  · have := (batchAddToList_facts fault s req).atomic hst
    simp only [Outcome.ofRun_store] at this
    rw [this]
    exact ⟨hk, hd⟩

theorem batchCreateNewList_keeps (fault : Fault) (s : Store) (l : BatchListInput)
    (hk : s.KeysOK) (hd : s.AllDense) :
    (batchCreateNewList fault (Env.init s) l).2.store.KeysOK ∧
      (batchCreateNewList fault (Env.init s) l).2.store.AllDense := by
  by_cases hst : (batchCreateNewList fault (Env.init s) l).1.status = 201
  · obtain ⟨evs, _, _, _, _, g4, _, _⟩ := batchCreateNewList_success fault s l hst
    have hempty : (s.insertList l.name (NormalizeIcon l.icon)).2.sectionOrders s.nextListID
        = [] := by
      simp only [Store.sectionOrders, Store.insertList, List.map_eq_nil_iff,
        List.filter_eq_nil_iff, beq_iff_eq]
      intro x hx
      have := hk.section_parent_lt x hx
      omega
    have hord : (fun (i : Nat) => (i : Int)) =
        (fun (i : Nat) =>
          maxOrder ((s.insertList l.name (NormalizeIcon l.icon)).2.sectionOrders s.nextListID)
            + 1 + (i : Int)) := by
      funext i
      rw [hempty]
      simp [maxOrder]
    rw [hord] at g4
    exact extend_sections_keeps (s.insertList l.name (NormalizeIcon l.icon)).2 _ s.nextListID
      l.sections (insertList_keys s _ _ hk) (insertList_dense s _ _ hd)
      (by simp [Store.insertList]) g4
  · have := (batchCreateNewList_facts fault s l).atomic hst
    simp only [Outcome.ofRun_store] at this
    rw [this]
    exact ⟨hk, hd⟩

theorem BatchCreate_keeps (fault : Fault) (s : Store) (body : Option BatchCreateRequest)
    (hk : s.KeysOK) (hd : s.AllDense) :
    (api.BatchCreate fault s body).store.KeysOK ∧
      (api.BatchCreate fault s body).store.AllDense := by
  cases body with
  | none => exact ⟨hk, hd⟩
  | some req =>
    cases hl : req.list with
    | some l =>
      rw [BatchCreate_newList fault s req l hl]
      exact batchCreateNewList_keeps fault s l hk hd
    | none =>
      by_cases h2 : req.list_id ≠ 0 ∧ req.sections.length > 0
      · rw [BatchCreate_addToList fault s req hl h2]
        exact batchAddToList_keeps fault s req hk hd
      · by_cases h3 : req.section_id ≠ 0 ∧ req.items.length > 0
        · rw [BatchCreate_addToSection fault s req hl h2 h3]
          exact batchAddToSection_keeps fault s req hk hd
        · rw [BatchCreate_noVariant fault s req hl h2 h3]
          exact ⟨hk, hd⟩

/-! ## C15: `NormalizeIcon` is idempotent -/

theorem lookup_mem_values (xs : List (String × String)) (k v : String)
    (h : xs.lookup k = some v) : v ∈ xs.map (fun p => p.2) := by
  induction xs with
  | nil => simp [List.lookup] at h
  | cons p rest ih =>
    obtain ⟨a, b⟩ := p
    simp only [List.lookup] at h
    split at h
    · simp only [Option.some.injEq] at h
      subst h
      simp
    · simp [ih h]

theorem iconAliases_values_fixed :
    ∀ v ∈ iconAliases.map (fun p => p.2), NormalizeIcon v = v := by
  decide

/-- C15: `NormalizeIcon` is idempotent: for every string `icon`,
`NormalizeIcon (NormalizeIcon icon) = NormalizeIcon icon`; the empty string is
mapped to itself, a string that is no alias is returned unchanged, and an alias
is mapped to an emoji that `NormalizeIcon` leaves as it is. -/
theorem NormalizeIcon_idempotent (icon : String) :
    NormalizeIcon (NormalizeIcon icon) = NormalizeIcon icon ∧
      NormalizeIcon "" = "" ∧
      (iconAliases.lookup icon = none → NormalizeIcon icon = icon) ∧
      (∀ emoji, iconAliases.lookup icon = some emoji → icon ≠ "" →
        NormalizeIcon icon = emoji ∧ NormalizeIcon emoji = emoji) := by
  have hnone : iconAliases.lookup icon = none → NormalizeIcon icon = icon := by
    intro h
    unfold NormalizeIcon
    split
    · rename_i h0; exact h0.symm
    · simp [h]
  have hsome : ∀ emoji, iconAliases.lookup icon = some emoji → icon ≠ "" →
      NormalizeIcon icon = emoji ∧ NormalizeIcon emoji = emoji := by
    intro emoji h hne
    refine ⟨?_, iconAliases_values_fixed emoji (lookup_mem_values _ _ _ h)⟩
    unfold NormalizeIcon
    simp [hne, h]
  refine ⟨?_, rfl, hnone, hsome⟩
  by_cases h0 : icon = ""
  · subst h0; rfl
  · cases h : iconAliases.lookup icon with
    | none => rw [hnone h]; exact hnone h
    | some emoji =>
      obtain ⟨h1, h2⟩ := hsome emoji h h0
      rw [h1, h2]

/-! ## C11: `UpdateList` keeps the unset fields -/

theorem find_after_update (ls : List DbList) (id : Int) (name icon : String) (l : DbList)
    (h : ls.find? (fun x => x.id == id) = some l) :
    (ls.map (fun x => if x.id == id then { x with name := name, icon := icon } else x)).find?
        (fun x => x.id == id) = some { l with name := name, icon := icon } := by
  induction ls with
  | nil => simp at h
  | cons x rest ih =>
    by_cases hx : x.id = id
    · have hb : (x.id == id) = true := by simpa using hx
      rw [List.find?_cons, hb] at h
      simp only [Option.some.injEq] at h
      subst h
      rw [List.map_cons, if_pos hb, List.find?_cons]
      simp [hx]
    · have hb : (x.id == id) = false := by simpa using hx
      rw [List.find?_cons, hb] at h
      rw [List.map_cons, List.find?_cons]
      simp only [hb, Bool.false_eq_true, if_false]
      exact ih h

theorem updateList_findList (s : Store) (id : Int) (name icon : String) (l : DbList)
    (h : s.findList id = some l) :
    (s.updateList id name icon).findList id = some { l with name := name, icon := icon } :=
  find_after_update s.lists id name icon l h

theorem UpdateList_found (fault : Fault) (s : Store) (id : Int) (existing : DbList)
    (req : UpdateListRequest) (name icon : String)
    (hex : s.findList id = some existing)
    (hname : name = if req.name = "" then existing.name else req.name)
    (hicon : icon = if req.icon = "" then existing.icon else NormalizeIcon req.icon) :
    (fault 0 = true ∧ api.UpdateList fault s (some id) (some req) =
        { resp := errorJSON 500 "db_error" "Failed to fetch list", store := s,
          log := [.GetListByID id] }) ∨
    (len name > MaxListNameLength ∧
      api.UpdateList fault s (some id) (some req) =
        { resp := errorJSON 400 "validation_error"
            "Name exceeds maximum length of 100 characters",
          store := s, log := [.GetListByID id] }) ∨
    (fault 1 = true ∧ api.UpdateList fault s (some id) (some req) =
        { resp := errorJSON 500 "update_failed" "Failed to update list", store := s,
          log := [.GetListByID id, .UpdateList id name icon false] }) ∨
    (¬ len name > MaxListNameLength ∧ fault 0 = false ∧ fault 1 = false ∧
      api.UpdateList fault s (some id) (some req) =
        { resp := { status := 200,
                    body := .list (some { existing with name := name, icon := icon }) },
          store := s.updateList id name icon,
          log := [.GetListByID id, .UpdateList id name icon true,
            .BroadcastUpdate "list_updated"
              (.list { existing with name := name, icon := icon })] }) := by
  by_cases hf0 : fault 0 = true
  · left
    refine ⟨hf0, ?_⟩
    simp [api.UpdateList, db.GetListByID, Env.init, hf0, Outcome.ofRun]
  · right
    have hg : db.GetListByID fault (Env.init s) id =
        (.ok existing, { store := s, log := [.GetListByID id] }) := by
      simp [db.GetListByID, Env.init, hf0, hex, Env.record]
    by_cases hlen : len name > MaxListNameLength
    · left
      refine ⟨hlen, ?_⟩
      rw [hname] at hlen
      simp only [api.UpdateList, hg, if_pos hlen]
      rfl
    · right
      have hlen2 := hlen
      rw [hname] at hlen2
      have hfind := updateList_findList s id name icon existing hex
      by_cases hf1 : fault 1 = true
      · left
        refine ⟨hf1, ?_⟩
        simp only [api.UpdateList, hg, if_neg hlen2, ← hname, ← hicon]
        simp [db.UpdateList, hf1, Outcome.ofRun, Nat.le_of_not_gt hlen]
      · right
        refine ⟨hlen, by simpa using hf0, by simpa using hf1, ?_⟩
        simp only [api.UpdateList, hg, if_neg hlen2, ← hname, ← hicon]
        simp [db.UpdateList, hf1, hfind, Outcome.ofRun, handlers.BroadcastUpdate,
          Nat.le_of_not_gt hlen]

/-- C11: for every existing list and every parsed `UpdateList` request, under
every fault schedule, the only store write the handler issues is
`db.UpdateList` with the name of the request, or the previous name when the
request name is empty, and with the normalized icon of the request, or the
previous icon as it is (not normalized again) when the request icon is empty.
Without store failure and with the resulting name within the limit, that write
is issued, succeeds and is the whole effect on the store.  An update with both
fields unset leaves the list exactly as `GetListByID` returned it. -/
theorem update_list_keeps_unset_fields (s : Store) (id : Int) (existing : DbList)
    (req : UpdateListRequest) (hex : s.findList id = some existing) :
    (∀ (fault : Fault), ∀ ev ∈ (api.UpdateList fault s (some id) (some req)).log,
      ev.isWrite = true →
      ∃ ok, ev = .UpdateList id (if req.name = "" then existing.name else req.name)
        (if req.icon = "" then existing.icon else NormalizeIcon req.icon) ok) ∧
    (len (if req.name = "" then existing.name else req.name) ≤ MaxListNameLength →
      (api.UpdateList noFault s (some id) (some req)).resp.status = 200 ∧
      (api.UpdateList noFault s (some id) (some req)).store =
        s.updateList id (if req.name = "" then existing.name else req.name)
          (if req.icon = "" then existing.icon else NormalizeIcon req.icon) ∧
      Event.UpdateList id (if req.name = "" then existing.name else req.name)
          (if req.icon = "" then existing.icon else NormalizeIcon req.icon) true ∈
        (api.UpdateList noFault s (some id) (some req)).log ∧
      (api.UpdateList noFault s (some id) (some req)).store.findList id =
        some { existing with
          name := if req.name = "" then existing.name else req.name,
          icon := if req.icon = "" then existing.icon else NormalizeIcon req.icon }) ∧
    (req.name = "" → req.icon = "" → ∀ fault : Fault,
      (api.UpdateList fault s (some id) (some req)).store.findList id = some existing) := by
  refine ⟨?_, ?_, ?_⟩
  · intro fault ev hev hw
    rcases UpdateList_found fault s id existing req _ _ hex rfl rfl with
      ⟨_, h⟩ | ⟨_, h⟩ | ⟨_, h⟩ | ⟨_, _, _, h⟩ <;> rw [h] at hev <;>
      simp only [List.mem_cons, List.mem_singleton, List.not_mem_nil, or_false] at hev
    · subst hev; simp [Event.isWrite] at hw
    · subst hev; simp [Event.isWrite] at hw
    · rcases hev with rfl | rfl
      · simp [Event.isWrite] at hw
      · exact ⟨false, rfl⟩
    · rcases hev with rfl | rfl | rfl
      · simp [Event.isWrite] at hw
      · exact ⟨true, rfl⟩
      · simp [Event.isWrite] at hw
  · intro hlen
    rcases UpdateList_found noFault s id existing req _ _ hex rfl rfl with
      ⟨h0, _⟩ | ⟨h0, _⟩ | ⟨h0, _⟩ | ⟨_, _, _, h⟩
    · simp at h0
    · omega
    · simp at h0
    · rw [h]
      exact ⟨rfl, rfl, by simp, updateList_findList s id _ _ existing hex⟩
  · intro hn hi fault
    rcases UpdateList_found fault s id existing req _ _ hex rfl rfl with
      ⟨_, h⟩ | ⟨_, h⟩ | ⟨_, h⟩ | ⟨_, _, _, h⟩ <;> rw [h]
    · exact hex
    · exact hex
    · exact hex
    · simp only [hn, hi, if_true]
      exact updateList_findList s id _ _ existing hex

/-- Witness for C11: list 1 of `exStore` is "Groceries" with icon 🛒; an update
that sets neither field is answered 200 and leaves the store as it was. -/
theorem update_list_keeps_unset_fields_witness :
    exStore.findList 1 = some (DbList.mk 1 "Groceries" "🛒" 0 none) ∧
      (api.UpdateList noFault exStore (some 1) (some { name := "", icon := "" })).resp.status
        = 200 ∧
      (api.UpdateList noFault exStore (some 1) (some { name := "", icon := "" })).store.findList 1
        = some (DbList.mk 1 "Groceries" "🛒" 0 none) :=
  ⟨by decide,
    ((update_list_keeps_unset_fields exStore 1 (DbList.mk 1 "Groceries" "🛒" 0 none)
      { name := "", icon := "" } (by decide)).2.1 (by decide)).1,
    (update_list_keeps_unset_fields exStore 1 (DbList.mk 1 "Groceries" "🛒" 0 none)
      { name := "", icon := "" } (by decide)).2.2 rfl rfl noFault⟩

/-! ## C12: limits of the stored name and icon -/

/-- C12 fails on the code: `UpdateList` and `batchCreateNewList` pass an icon
of 21 characters to the store (`db.UpdateList`, `db.CreateListTx`) and answer
200 and 201, whereas `CreateList` rejects the same icon with
`validation_error`. -/
theorem update_and_batch_pass_long_icon :
    exLongIcon.length = 21 ∧
      Event.UpdateList 1 "Groceries" exLongIcon true ∈
        (api.UpdateList noFault exStore (some 1) (some exUpdateLongIcon)).log ∧
      (api.UpdateList noFault exStore (some 1) (some exUpdateLongIcon)).resp.status = 200 ∧
      Event.CreateListTx "Party" exLongIcon true ∈
        (api.BatchCreate noFault exStore (some exNewListLongIcon)).log ∧
      (api.BatchCreate noFault exStore (some exNewListLongIcon)).resp.status = 201 ∧
      (api.CreateList noFault exStore
        (some { name := "Party", icon := exLongIcon })).resp.errorCode =
          some "validation_error" := by
  decide

/-! ## C13: validation of `CreateList` -/

/-- C13 fails on the code: a name of 51 characters (102 bytes, each character
the letter `ż`) with an empty icon, and the name "A" with an icon of 6 emoji
characters (24 bytes), are both rejected with `validation_error` before any
store call, although they are within 100 and 20 characters. -/
theorem create_list_counts_bytes :
    exPolishName.length = 51 ∧
      (api.CreateList noFault exStore
        (some { name := exPolishName, icon := "" })).resp.errorCode =
          some "validation_error" ∧
      (api.CreateList noFault exStore (some { name := exPolishName, icon := "" })).log = [] ∧
      exEmojiIcon.length = 6 ∧
      (api.CreateList noFault exStore
        (some { name := "A", icon := exEmojiIcon })).resp.errorCode =
          some "validation_error" ∧
      (api.CreateList noFault exStore (some { name := "A", icon := exEmojiIcon })).log = [] := by
  decide

/-! ## C14: selection of the batch mode -/

/-- C14, as stated, fails when more than one variant is populated: the request
`exTwoVariants` carries a `list` and also `list_id` 1 with a section; it is not
answered with `validation_error` but run in new-list mode (201, a third list is
created, list 1 gets no section). -/
theorem batch_two_variants_runs_new_list :
    exTwoVariants.list ≠ none ∧ exTwoVariants.list_id ≠ 0 ∧ exTwoVariants.sections ≠ [] ∧
      (api.BatchCreate noFault exStore (some exTwoVariants)).resp.status = 201 ∧
      (api.BatchCreate noFault exStore (some exTwoVariants)).resp.errorCode = none ∧
      Event.CreateListTx "Party" "🎂" true ∈
        (api.BatchCreate noFault exStore (some exTwoVariants)).log ∧
      (api.BatchCreate noFault exStore (some exTwoVariants)).store.sectionOrders 1 =
        exStore.sectionOrders 1 := by
  decide

/-- C14, amended: for every parsed request `BatchCreate` runs exactly one
variant, chosen by priority: new-list mode iff the `list` field is populated
(whatever else is); add-sections mode iff `list` is absent and `list_id` is
non-zero with at least one section; add-items mode iff neither of these holds
and `section_id` is non-zero with at least one item; and it returns its own
`validation_error` iff no variant is populated. -/
theorem batch_mode_by_priority (fault : Fault) (s : Store) (req : BatchCreateRequest) :
    api.BatchCreate fault s (some req) = runMode fault s req (selectedMode req) ∧
    (∀ l, selectedMode req = .newList l ↔ req.list = some l) ∧
    (selectedMode req = .addSections ↔
      req.list = none ∧ req.list_id ≠ 0 ∧ req.sections ≠ []) ∧
    (selectedMode req = .addItems ↔
      req.list = none ∧ ¬ (req.list_id ≠ 0 ∧ req.sections ≠ []) ∧
        req.section_id ≠ 0 ∧ req.items ≠ []) ∧
    (selectedMode req = .noVariant ↔
      req.list = none ∧ ¬ (req.list_id ≠ 0 ∧ req.sections ≠ []) ∧
        ¬ (req.section_id ≠ 0 ∧ req.items ≠ [])) ∧
    (runMode fault s req .noVariant).resp.errorCode = some "validation_error" := by
  have hs : req.sections.length > 0 ↔ req.sections ≠ [] := List.length_pos
  have hi : req.items.length > 0 ↔ req.items ≠ [] := List.length_pos
  cases hl : req.list with
  | some l =>
    refine ⟨?_, ?_, ?_, ?_, ?_, rfl⟩
    · rw [BatchCreate_newList fault s req l hl]; simp [selectedMode, hl, runMode]
    · intro l2; simp [selectedMode, hl]
    · simp [selectedMode, hl]
    · simp [selectedMode, hl]
    · simp [selectedMode, hl]
  | none =>
    by_cases h2 : req.list_id ≠ 0 ∧ req.sections.length > 0
    · have h2b : req.list_id ≠ 0 ∧ req.sections ≠ [] := ⟨h2.1, hs.mp h2.2⟩
      refine ⟨?_, ?_, ?_, ?_, ?_, rfl⟩
      · rw [BatchCreate_addToList fault s req hl h2]
        simp only [selectedMode, hl, if_pos h2, runMode]
      · intro l2; simp only [selectedMode, hl, if_pos h2]; simp
      · simp only [selectedMode, hl, if_pos h2]; simp [h2b]
      · simp only [selectedMode, hl, if_pos h2]; simp [h2b]
      · simp only [selectedMode, hl, if_pos h2]; simp [h2b]
    · have h2b : ¬ (req.list_id ≠ 0 ∧ req.sections ≠ []) := fun h => h2 ⟨h.1, hs.mpr h.2⟩
      by_cases h3 : req.section_id ≠ 0 ∧ req.items.length > 0
      · have h3b : req.section_id ≠ 0 ∧ req.items ≠ [] := ⟨h3.1, hi.mp h3.2⟩
        refine ⟨?_, ?_, ?_, ?_, ?_, rfl⟩
        · rw [BatchCreate_addToSection fault s req hl h2 h3]
          simp only [selectedMode, hl, if_neg h2, if_pos h3, runMode]
        · intro l2; simp only [selectedMode, hl, if_neg h2, if_pos h3]; simp
        · simp only [selectedMode, hl, if_neg h2, if_pos h3]
          constructor
          · intro h; cases h
          · intro h; exact absurd ⟨h.2.1, h.2.2⟩ h2b
        · simp only [selectedMode, hl, if_neg h2, if_pos h3]
          exact ⟨fun _ => ⟨trivial, h2b, h3b.1, h3b.2⟩, fun _ => trivial⟩
        · simp only [selectedMode, hl, if_neg h2, if_pos h3]
          constructor
          · intro h; cases h
          · intro h; exact absurd h3b h.2.2
      · have h3b : ¬ (req.section_id ≠ 0 ∧ req.items ≠ []) := fun h => h3 ⟨h.1, hi.mpr h.2⟩
        refine ⟨?_, ?_, ?_, ?_, ?_, rfl⟩
        · rw [BatchCreate_noVariant fault s req hl h2 h3]
          simp only [selectedMode, hl, if_neg h2, if_neg h3, runMode]
        · intro l2; simp only [selectedMode, hl, if_neg h2, if_neg h3]; simp
        · simp only [selectedMode, hl, if_neg h2, if_neg h3]
          constructor
          · intro h; cases h
          · intro h; exact absurd ⟨h.2.1, h.2.2⟩ h2b
        · simp only [selectedMode, hl, if_neg h2, if_neg h3]
          constructor
          · intro h; cases h
          · intro h; exact absurd ⟨h.2.2.1, h.2.2.2⟩ h3b
        · simp only [selectedMode, hl, if_neg h2, if_neg h3]
          exact ⟨fun _ => ⟨trivial, h2b, h3b⟩, fun _ => trivial⟩

/-! ## Lemmas: order compaction and scopes -/

theorem dense_perm {a b : List Int} (h : a.Perm b) (hd : Dense a) : Dense b := by
  unfold Dense at *
  rw [← h.length_eq]
  exact h.symm.trans hd

theorem dense_nodup (os : List Int) (h : Dense os) : os.Nodup :=
  ((dense_iff os).mp h).1

theorem rank_lt (os : List Int) (a b : Int) (ha : a ∈ os) (hab : a < b) :
    rank os a < rank os b := by
  unfold rank
  have h1 : os.filter (fun x => decide (x < a)) =
      (os.filter (fun x => decide (x < b))).filter (fun x => decide (x < a)) := by
    rw [List.filter_filter]
    apply List.filter_congr
    intro x _
    by_cases hx : x < a
    · have : x < b := by omega
      simp [hx, this]
    · simp [hx]
  have h2 : ((os.filter (fun x => decide (x < b))).filter (fun x => decide (x < a))).length <
      (os.filter (fun x => decide (x < b))).length := by
    rw [List.length_filter_lt_length_iff_exists]
    exact ⟨a, by simp [ha, hab], by simp⟩
  rw [h1]
  exact_mod_cast h2

theorem rank_bounds (os : List Int) (a : Int) (ha : a ∈ os) :
    0 ≤ rank os a ∧ rank os a < os.length := by
  unfold rank
  refine ⟨by positivity, ?_⟩
  have : (os.filter (fun x => decide (x < a))).length < os.length := by
    rw [List.length_filter_lt_length_iff_exists]
    exact ⟨a, ha, by simp⟩
  exact_mod_cast this

theorem dense_rank (os : List Int) (h : os.Nodup) : Dense (os.map (rank os)) := by
  rw [dense_iff]
  refine ⟨?_, ?_⟩
  · apply h.map_on
    intro a ha b hb hab
    by_contra hne
    rcases lt_or_gt_of_ne hne with hlt | hlt
    · have := rank_lt os a b ha hlt
      omega
    · have := rank_lt os b a hb hlt
      omega
  · intro o ho
    simp only [List.mem_map] at ho
    obtain ⟨a, ha, rfl⟩ := ho
    simpa using rank_bounds os a ha

theorem scopeOf_map {α : Type} (par ord : α → Int) (ls : List α) (P : Int) (f : α → α)
    (g : Int → Int) (hpar : ∀ x ∈ ls, par (f x) = par x)
    (hord : ∀ x ∈ ls, par x = P → ord (f x) = g (ord x)) :
    scopeOf par ord (ls.map f) P = (scopeOf par ord ls P).map g := by
  induction ls with
  | nil => rfl
  | cons x rest ih =>
    have ih2 := ih (fun y hy => hpar y (by simp [hy])) (fun y hy => hord y (by simp [hy]))
    unfold scopeOf at ih2 ⊢
    simp only [List.map_cons, List.filter_cons, hpar x (by simp)]
    by_cases hx : par x = P
    · simp only [hx, beq_self_eq_true, if_true, List.map_cons]
      rw [ih2, hord x (by simp) hx]
    · have : (par x == P) = false := by simpa using hx
      simp only [this, Bool.false_eq_true, if_false]
      exact ih2

theorem scopeOf_map_same {α : Type} (par ord : α → Int) (ls : List α) (P : Int) (f : α → α)
    (hpar : ∀ x ∈ ls, par (f x) = par x)
    (hord : ∀ x ∈ ls, par x = P → ord (f x) = ord x) :
    scopeOf par ord (ls.map f) P = scopeOf par ord ls P := by
  rw [scopeOf_map par ord ls P f id hpar hord]
  simp

theorem scopeOf_filter_sublist {α : Type} (par ord : α → Int) (ls : List α) (P : Int)
    (q : α → Bool) : (scopeOf par ord (ls.filter q) P).Sublist (scopeOf par ord ls P) := by
  unfold scopeOf
  exact ((List.filter_sublist ls).filter _).map _

theorem scopeOf_filter_same {α : Type} (par ord : α → Int) (ls : List α) (P : Int)
    (q : α → Bool) (h : ∀ x ∈ ls, par x = P → q x = true) :
    scopeOf par ord (ls.filter q) P = scopeOf par ord ls P := by
  unfold scopeOf
  rw [List.filter_filter]
  congr 1
  apply List.filter_congr
  intro x hx
  by_cases hp : par x = P
  · simp [hp, h x hx hp]
  · simp [hp]

theorem scopeOf_filter_nil {α : Type} (par ord : α → Int) (ls : List α) (P : Int)
    (q : α → Bool) (h : ∀ x ∈ ls, par x = P → q x = false) :
    scopeOf par ord (ls.filter q) P = [] := by
  unfold scopeOf
  rw [List.map_eq_nil_iff, List.filter_eq_nil_iff]
  intro x hx
  rw [List.mem_filter] at hx
  intro hp
  have := h x hx.1 (by simpa using hp)
  rw [this] at hx
  simp at hx

theorem scopeOf_perm {α : Type} (par ord : α → Int) {ls ls2 : List α} (P : Int)
    (h : ls.Perm ls2) : (scopeOf par ord ls P).Perm (scopeOf par ord ls2 P) := by
  unfold scopeOf
  exact (h.filter _).map _

theorem sectionOrders_scopeOf (s : Store) (L : Int) :
    s.sectionOrders L =
      scopeOf (fun x : DbSection => x.list_id) (fun x => x.sort_order) s.sections L := rfl

theorem itemOrders_scopeOf (s : Store) (S : Int) :
    s.itemOrders S =
      scopeOf (fun x : DbItem => x.section_id) (fun x => x.sort_order) s.items S := rfl

/-! ## Lemmas: the ids of the rows created by the batch loops -/

theorem itemRows_ids (sid : Int) (order : Nat → Int) (inputs : List BatchItemInput) :
    ∀ (i : Nat) (id : Int),
      ((itemRows sid order inputs i id).map (fun x => x.id)).Nodup ∧
        ∀ x ∈ itemRows sid order inputs i id, id ≤ x.id ∧ x.id < id + inputs.length := by
  induction inputs with
  | nil => intro i id; simp [itemRows]
  | cons inp rest ih =>
    intro i id
    obtain ⟨h1, h2⟩ := ih (i + 1) (id + 1)
    constructor
    · simp only [itemRows, List.map_cons, List.nodup_cons]
      refine ⟨?_, h1⟩
      intro hmem
      simp only [List.mem_map] at hmem
      obtain ⟨x, hx, hxid⟩ := hmem
      have := (h2 x hx).1
      omega
    · intro x hx
      simp only [itemRows, List.mem_cons] at hx
      simp only [List.length_cons]
      rcases hx with rfl | hx
      · exact ⟨le_refl _, by push_cast; omega⟩
      · have := h2 x hx
        exact ⟨by omega, by push_cast; omega⟩

theorem sectionRows_ids_nodup (listID : Int) (order : Nat → Int)
    (inputs : List BatchSectionInput) :
    ∀ (i : Nat) (sid iid : Int),
      ((sectionRows listID order inputs i sid iid).map (fun x => x.id)).Nodup := by
  induction inputs with
  | nil => intro i sid iid; simp [sectionRows]
  | cons inp rest ih =>
    intro i sid iid
    simp only [sectionRows, List.map_cons, List.nodup_cons]
    refine ⟨?_, ih _ _ _⟩
    intro hmem
    simp only [List.mem_map] at hmem
    obtain ⟨x, hx, hxid⟩ := hmem
    have := (sectionRows_list _ _ _ _ _ _ x hx).2.1
    omega

theorem sectionRows_item_ids (listID : Int) (order : Nat → Int)
    (inputs : List BatchSectionInput) :
    ∀ (i : Nat) (sid iid : Int),
      (((sectionRows listID order inputs i sid iid).flatMap (fun x => x.items)).map
          (fun x => x.id)).Nodup ∧
        ∀ x ∈ (sectionRows listID order inputs i sid iid).flatMap (fun x => x.items),
          iid ≤ x.id ∧ x.id < iid +
            ((sectionRows listID order inputs i sid iid).flatMap (fun x => x.items)).length := by
  induction inputs with
  | nil => intro i sid iid; simp [sectionRows]
  | cons inp rest ih =>
    intro i sid iid
    obtain ⟨h1, h2⟩ := ih (i + 1) (sid + 1) (iid + inp.items.length)
    obtain ⟨g1, g2⟩ := itemRows_ids sid (fun j => (j : Int)) inp.items 0 iid
    simp only [sectionRows, List.flatMap_cons, List.map_append, List.length_append,
      itemRows_length]
    constructor
    · rw [List.nodup_append]
      refine ⟨g1, h1, ?_⟩
      intro a ha hb
      simp only [List.mem_map] at ha hb
      obtain ⟨x, hx, rfl⟩ := ha
      obtain ⟨y, hy, hxy⟩ := hb
      have := (g2 x hx).2
      have := (h2 y hy).1
      omega
    · intro x hx
      rw [List.mem_append] at hx
      rcases hx with hx | hx
      · have := g2 x hx
        exact ⟨this.1, by push_cast; omega⟩
      · have := h2 x hx
        exact ⟨by omega, by push_cast; omega⟩

theorem extend_rowkeys (s s1 : Store) (secs : List DbSection) (its : List DbItem)
    (hk : s.KeysOK) (hr : s.RowKeysOK) (hx : TxExtends s s1 secs its)
    (hs1 : (secs.map (fun x => x.id)).Nodup) (hs2 : ∀ x ∈ secs, s.nextSectionID ≤ x.id)
    (hi1 : (its.map (fun x => x.id)).Nodup)
    (hi2 : ∀ x ∈ its, s.nextItemID ≤ x.id ∧ x.id < s.nextItemID + its.length) :
    s1.RowKeysOK := by
  obtain ⟨r1, r2, r3⟩ := hr
  refine ⟨?_, ?_, ?_⟩
  · rw [hx.sections_eq, List.map_append, List.nodup_append]
    refine ⟨r1, hs1, ?_⟩
    intro a ha hb
    simp only [List.mem_map] at ha hb
    obtain ⟨x, hxm, rfl⟩ := ha
    obtain ⟨y, hy, hxy⟩ := hb
    have := hk.section_ids_lt x hxm
    have := hs2 y hy
    omega
  · rw [hx.items_eq, List.map_append, List.nodup_append]
    refine ⟨r2, hi1, ?_⟩
    intro a ha hb
    simp only [List.mem_map] at ha hb
    obtain ⟨x, hxm, rfl⟩ := ha
    obtain ⟨y, hy, hxy⟩ := hb
    have := r3 x hxm
    have := (hi2 y hy).1
    omega
  · intro x hxm
    rw [hx.items_eq, List.mem_append] at hxm
    rw [hx.nextItemID_eq]
    rcases hxm with h | h
    · have := r3 x h
      omega
    · exact (hi2 x h).2

theorem extend_items_rowkeys (s s1 : Store) (sid : Int) (order : Nat → Int)
    (inputs : List BatchItemInput) (hk : s.KeysOK) (hr : s.RowKeysOK)
    (hx : TxExtends s s1 [] (itemRows sid order inputs 0 s.nextItemID)) : s1.RowKeysOK := by
  obtain ⟨g1, g2⟩ := itemRows_ids sid order inputs 0 s.nextItemID
  refine extend_rowkeys s s1 _ _ hk hr hx (by simp) (by simp) g1 ?_
  intro x hxm
  rw [itemRows_length]
  exact g2 x hxm

theorem extend_sections_rowkeys (s s1 : Store) (listID : Int) (order : Nat → Int)
    (inputs : List BatchSectionInput) (hk : s.KeysOK) (hr : s.RowKeysOK)
    (hx : TxExtends s s1
      ((sectionRows listID order inputs 0 s.nextSectionID s.nextItemID).map DbSection.row)
      ((sectionRows listID order inputs 0 s.nextSectionID s.nextItemID).flatMap
        (fun x => x.items))) : s1.RowKeysOK := by
  obtain ⟨g1, g2⟩ := sectionRows_item_ids listID order inputs 0 s.nextSectionID s.nextItemID
  refine extend_rowkeys s s1 _ _ hk hr hx ?_ ?_ g1 g2
  · rw [List.map_map]
    exact sectionRows_ids_nodup listID order inputs 0 s.nextSectionID s.nextItemID
  · intro x hxm
    simp only [List.mem_map] at hxm
    obtain ⟨r, hr2, rfl⟩ := hxm
    exact (sectionRows_list _ _ _ _ _ _ r hr2).2.1

theorem rowkeys_of_same (s s1 : Store) (h : s.RowKeysOK) (hsec : s1.sections = s.sections)
    (hit : s1.items = s.items) (hn : s1.nextItemID = s.nextItemID) : s1.RowKeysOK := by
  obtain ⟨r1, r2, r3⟩ := h
  exact ⟨by rw [hsec]; exact r1, by rw [hit]; exact r2, by rw [hit, hn]; exact r3⟩

theorem batchAddToSection_rowkeys (fault : Fault) (s : Store) (req : BatchCreateRequest)
    (hk : s.KeysOK) (hr : s.RowKeysOK) :
    (batchAddToSection fault (Env.init s) req).2.store.RowKeysOK := by
  by_cases hst : (batchAddToSection fault (Env.init s) req).1.status = 201
  · obtain ⟨evs, _, _, _, g4, _, _⟩ := batchAddToSection_success fault s req hst
    exact extend_items_rowkeys s _ req.section_id _ req.items hk hr g4
  · have := (batchAddToSection_facts fault s req).atomic hst
    simp only [Outcome.ofRun_store] at this
    rw [this]
    exact hr

theorem batchAddToList_rowkeys (fault : Fault) (s : Store) (req : BatchCreateRequest)
    (hk : s.KeysOK) (hr : s.RowKeysOK) :
    (batchAddToList fault (Env.init s) req).2.store.RowKeysOK := by
  by_cases hst : (batchAddToList fault (Env.init s) req).1.status = 201
  · obtain ⟨evs, _, _, _, g4, _, _⟩ := batchAddToList_success fault s req hst
    exact extend_sections_rowkeys s _ req.list_id _ req.sections hk hr g4
  · have := (batchAddToList_facts fault s req).atomic hst
    simp only [Outcome.ofRun_store] at this
    rw [this]
    exact hr

theorem batchCreateNewList_rowkeys (fault : Fault) (s : Store) (l : BatchListInput)
    (hk : s.KeysOK) (hr : s.RowKeysOK) :
    (batchCreateNewList fault (Env.init s) l).2.store.RowKeysOK := by
  by_cases hst : (batchCreateNewList fault (Env.init s) l).1.status = 201
  · obtain ⟨evs, _, _, _, _, g4, _, _⟩ := batchCreateNewList_success fault s l hst
    exact extend_sections_rowkeys (s.insertList l.name (NormalizeIcon l.icon)).2 _ s.nextListID
      _ l.sections (insertList_keys s _ _ hk) (rowkeys_of_same s _ hr rfl rfl rfl) g4
  · have := (batchCreateNewList_facts fault s l).atomic hst
    simp only [Outcome.ofRun_store] at this
    rw [this]
    exact hr

theorem BatchCreate_rowkeys (fault : Fault) (s : Store) (body : Option BatchCreateRequest)
    (hk : s.KeysOK) (hr : s.RowKeysOK) : (api.BatchCreate fault s body).store.RowKeysOK := by
  cases body with
  | none => exact hr
  | some req =>
    cases hl : req.list with
    | some l =>
      rw [BatchCreate_newList fault s req l hl]
      exact batchCreateNewList_rowkeys fault s l hk hr
    | none =>
      by_cases h2 : req.list_id ≠ 0 ∧ req.sections.length > 0
      · rw [BatchCreate_addToList fault s req hl h2]
        exact batchAddToList_rowkeys fault s req hk hr
      · by_cases h3 : req.section_id ≠ 0 ∧ req.items.length > 0
        · rw [BatchCreate_addToSection fault s req hl h2 h3]
          exact batchAddToSection_rowkeys fault s req hk hr
        · rw [BatchCreate_noVariant fault s req hl h2 h3]
          exact hr

/-! ## Lemmas: deleting a list -/

theorem compactLists_ids (ls : List DbList) :
    (compactLists ls).map (fun l => l.id) = ls.map (fun l => l.id) := by
  unfold compactLists
  rw [List.map_map]
  rfl

theorem compactLists_orders (ls : List DbList) :
    (compactLists ls).map (fun l => l.sort_order) =
      (ls.map (fun l => l.sort_order)).map (rank (ls.map (fun l => l.sort_order))) := by
  unfold compactLists
  rw [List.map_map, List.map_map]
  rfl

theorem deleteList_keys (s : Store) (id : Int) (hk : s.KeysOK) : (s.deleteList id).KeysOK := by
  obtain ⟨k1, k2, k3, k4, k5⟩ := hk
  refine ⟨?_, ?_, ?_, ?_, ?_⟩
  · simp only [Store.deleteList, compactLists_ids]
    exact k1.sublist ((List.filter_sublist _).map _)
  · intro l hl
    have hmem : l.id ∈ (s.deleteList id).lists.map (fun l => l.id) := List.mem_map_of_mem _ hl
    simp only [Store.deleteList, compactLists_ids, List.mem_map, List.mem_filter] at hmem
    obtain ⟨l0, ⟨hl0, _⟩, h0⟩ := hmem
    have := k2 l0 hl0
    simp only [Store.deleteList]
    omega
  · intro x hx
    simp only [Store.deleteList, List.mem_filter] at hx
    exact k3 x hx.1
  · intro x hx
    simp only [Store.deleteList, List.mem_filter] at hx
    exact k4 x hx.1
  · intro x hx
    simp only [Store.deleteList, List.mem_filter] at hx
    exact k5 x hx.1

theorem deleteList_rowkeys (s : Store) (id : Int) (hr : s.RowKeysOK) :
    (s.deleteList id).RowKeysOK := by
  obtain ⟨r1, r2, r3⟩ := hr
  refine ⟨?_, ?_, ?_⟩
  · simp only [Store.deleteList]
    exact r1.sublist ((List.filter_sublist _).map _)
  · simp only [Store.deleteList]
    exact r2.sublist ((List.filter_sublist _).map _)
  · intro x hx
    simp only [Store.deleteList, List.mem_filter] at hx
    exact r3 x hx.1

theorem deleteList_dense (s : Store) (id : Int) (hd : s.AllDense) :
    (s.deleteList id).AllDense := by
  obtain ⟨d1, d2, d3⟩ := hd
  refine ⟨?_, ?_, ?_⟩
  · simp only [Store.listOrders, Store.deleteList, compactLists_orders]
    apply dense_rank
    exact (dense_nodup _ d1).sublist ((List.filter_sublist _).map _)
  · intro L
    rw [sectionOrders_scopeOf]
    simp only [Store.deleteList]
    by_cases hL : L = id
    · subst hL
      rw [scopeOf_filter_nil]
      · exact dense_nil
      · intro x _ hx
        simp [hx]
    · rw [scopeOf_filter_same]
      · exact d2 L
      · intro x _ hx
        simp only [hx, Bool.not_eq_eq_eq_not, Bool.not_true, beq_eq_false_iff_ne, ne_eq]
        exact hL
  · intro S
    rw [itemOrders_scopeOf]
    simp only [Store.deleteList]
    by_cases hS : S ∈ (s.sections.filter (fun x => x.list_id == id)).map (fun x => x.id)
    · rw [scopeOf_filter_nil]
      · exact dense_nil
      · intro x _ hx
        simp only [hx, Bool.not_eq_eq_eq_not, Bool.not_false, List.contains_eq_any_beq,
          List.any_eq_true, beq_iff_eq]
        exact ⟨S, hS, rfl⟩
    · rw [scopeOf_filter_same]
      · exact d3 S
      · intro x _ hx
        simp only [hx, Bool.not_eq_eq_eq_not, Bool.not_true, List.contains_eq_any_beq,
          List.any_eq_false, beq_iff_eq]
        intro y hy hSy
        exact hS (hSy ▸ hy)

theorem deleteList_sound (s : Store) (id : Int) (h : s.Sound) : (s.deleteList id).Sound :=
  ⟨deleteList_keys s id h.1, deleteList_rowkeys s id h.2.1, deleteList_dense s id h.2.2⟩

theorem DeleteList_store (fault : Fault) (s : Store) (id : Option Int) :
    (api.DeleteList fault s id).store = s ∨
      ∃ i, (api.DeleteList fault s id).store = s.deleteList i := by
  unfold api.DeleteList
  cases id with
  | none => left; rfl
  | some i =>
    rcases GetListByID_cases fault (Env.init s) i with h | ⟨_, h⟩ | ⟨x, _, h⟩
    · left; simp only [h]; rfl
    · left; simp only [h]; rfl
    · simp only [h, db.DeleteList]
      by_cases hf : fault ((Env.init s).record (.GetListByID i)).log.length = true
      · left; rw [if_pos hf]; rfl
      · right; rw [if_neg hf]; exact ⟨i, rfl⟩

/-! ## Lemmas: the section and item operations keep the store sound -/

theorem findItem_some (s : Store) (id : Int) (x : DbItem) (h : s.findItem id = some x) :
    x ∈ s.items ∧ x.id = id := by
  unfold Store.findItem at h
  exact ⟨List.mem_of_find?_eq_some h, by simpa using List.find?_some h⟩

theorem highestBy_mem {α : Type} (ord : α → Int) (xs : List α) (m : α)
    (h : highestBy ord xs = some m) : m ∈ xs := by
  induction xs generalizing m with
  | nil => simp [highestBy] at h
  | cons x rest ih =>
    simp only [highestBy] at h
    cases hp : highestBy ord rest with
    | none =>
      rw [hp] at h
      simp only [Option.some.injEq] at h
      subst h
      simp
    | some m2 =>
      rw [hp] at h
      simp only at h
      split at h
      · simp only [Option.some.injEq] at h; subst h; simp [ih m2 hp]
      · simp only [Option.some.injEq] at h; subst h; simp

theorem lowestBy_mem {α : Type} (ord : α → Int) (xs : List α) (m : α)
    (h : lowestBy ord xs = some m) : m ∈ xs := by
  induction xs generalizing m with
  | nil => simp [lowestBy] at h
  | cons x rest ih =>
    simp only [lowestBy] at h
    cases hp : lowestBy ord rest with
    | none =>
      rw [hp] at h
      simp only [Option.some.injEq] at h
      subst h
      simp
    | some m2 =>
      rw [hp] at h
      simp only at h
      split at h
      · simp only [Option.some.injEq] at h; subst h; simp [ih m2 hp]
      · simp only [Option.some.injEq] at h; subst h; simp

theorem sound_set_sections (s : Store) (xs : List DbSection) (h : s.Sound)
    (h1 : (xs.map (fun x => x.id)).Nodup)
    (h2 : ∀ x ∈ xs, ∃ y ∈ s.sections, x.id = y.id ∧ x.list_id = y.list_id)
    (h3 : ∀ L, Dense (scopeOf (fun x : DbSection => x.list_id) (fun x => x.sort_order) xs L)) :
    ({ s with sections := xs } : Store).Sound := by
  obtain ⟨⟨k1, k2, k3, k4, k5⟩, ⟨r1, r2, r3⟩, d1, d2, d3⟩ := h
  refine ⟨⟨k1, k2, ?_, ?_, k5⟩, ⟨h1, r2, r3⟩, d1, h3, d3⟩
  · intro x hx
    obtain ⟨y, hy, e1, _⟩ := h2 x hx
    have := k3 y hy
    simp only
    omega
  · intro x hx
    obtain ⟨y, hy, _, e2⟩ := h2 x hx
    have := k4 y hy
    simp only
    omega

theorem sound_set_items (s : Store) (xs : List DbItem) (h : s.Sound)
    (h1 : (xs.map (fun x => x.id)).Nodup)
    (h2 : ∀ x ∈ xs, x.id < s.nextItemID ∧ x.section_id < s.nextSectionID)
    (h3 : ∀ S, Dense (scopeOf (fun x : DbItem => x.section_id) (fun x => x.sort_order) xs S)) :
    ({ s with items := xs } : Store).Sound := by
  obtain ⟨⟨k1, k2, k3, k4, k5⟩, ⟨r1, r2, r3⟩, d1, d2, d3⟩ := h
  exact ⟨⟨k1, k2, k3, k4, fun x hx => (h2 x hx).2⟩, ⟨r1, h1, fun x hx => (h2 x hx).1⟩,
    d1, d2, h3⟩

theorem mem_scopeOf {α : Type} (par ord : α → Int) (ls : List α) (x : α) (hx : x ∈ ls) :
    ord x ∈ scopeOf par ord ls (par x) := by
  unfold scopeOf
  exact List.mem_map_of_mem _ (List.mem_filter.mpr ⟨hx, by simp⟩)

theorem scope_ord_inj {α : Type} (par ord : α → Int) (ls : List α) (P : Int)
    (hnd : (scopeOf par ord ls P).Nodup) (x y : α) (hx : x ∈ ls) (hy : y ∈ ls)
    (hpx : par x = P) (hpy : par y = P) (h : ord x = ord y) : x = y := by
  unfold scopeOf at hnd
  exact List.inj_on_of_nodup_map hnd (List.mem_filter.mpr ⟨hx, by simp [hpx]⟩)
    (List.mem_filter.mpr ⟨hy, by simp [hpy]⟩) h

theorem scopeOf_swap {α : Type} (par ord key : α → Int) (ls : List α) (f : α → α)
    (cur nb : α) (hids : (ls.map key).Nodup) (hcur : cur ∈ ls) (hnb : nb ∈ ls)
    (hpar : par nb = par cur)
    (hd : ∀ P, Dense (scopeOf par ord ls P))
    (hfpar : ∀ x, par (f x) = par x)
    (hf1 : ord (f cur) = ord nb) (hf2 : ord (f nb) = ord cur)
    (hf3 : ∀ x, key x ≠ key cur → key x ≠ key nb → f x = x) :
    ∀ P, Dense (scopeOf par ord (ls.map f) P) := by
  have hidinj : ∀ a ∈ ls, ∀ b ∈ ls, key a = key b → a = b :=
    fun a ha b hb h => List.inj_on_of_nodup_map hids ha hb h
  intro P
  by_cases hP : P = par cur
  · subst hP
    have hnd := dense_nodup _ (hd (par cur))
    rw [scopeOf_map par ord ls (par cur) f (Equiv.swap (ord cur) (ord nb))
      (fun x _ => hfpar x)]
    · apply dense_map_swap _ (hd (par cur))
      · exact mem_scopeOf par ord ls cur hcur
      · rw [← hpar]; exact mem_scopeOf par ord ls nb hnb
    · intro x hx hpx
      by_cases h1 : key x = key cur
      · have : x = cur := hidinj x hx cur hcur h1
        subst this
        rw [hf1, Equiv.swap_apply_left]
      · by_cases h2 : key x = key nb
        · have : x = nb := hidinj x hx nb hnb h2
          subst this
          rw [hf2, Equiv.swap_apply_right]
        · rw [hf3 x h1 h2]
          have h3 : ord x ≠ ord cur := fun h =>
            h1 (by rw [scope_ord_inj par ord ls _ hnd x cur hx hcur hpx rfl h])
          have h4 : ord x ≠ ord nb := fun h =>
            h2 (by rw [scope_ord_inj par ord ls _ hnd x nb hx hnb hpx hpar h])
          rw [Equiv.swap_apply_of_ne_of_ne h3 h4]
  · rw [scopeOf_map_same par ord ls P f (fun x _ => hfpar x)]
    · exact hd P
    · intro x hx hpx
      have h1 : key x ≠ key cur := fun h => by
        have : x = cur := hidinj x hx cur hcur h
        subst this
        exact hP hpx.symm
      have h2 : key x ≠ key nb := fun h => by
        have : x = nb := hidinj x hx nb hnb h
        subst this
        exact hP (hpx.symm.trans hpar)
      rw [hf3 x h1 h2]

theorem setSection_keys (x : DbSection) (a o : Int) :
    (if x.id == a then { x with sort_order := o } else x).id = x.id ∧
      (if x.id == a then { x with sort_order := o } else x).list_id = x.list_id := by
  split <;> exact ⟨rfl, rfl⟩

theorem setItem_keys (x : DbItem) (a o : Int) :
    (if x.id == a then { x with sort_order := o } else x).id = x.id ∧
      (if x.id == a then { x with sort_order := o } else x).section_id = x.section_id := by
  split <;> exact ⟨rfl, rfl⟩

theorem swap_sections_sound (s : Store) (cur nb : DbSection) (h : s.Sound)
    (hcur : cur ∈ s.sections) (hnb : nb ∈ s.sections) (hpar : nb.list_id = cur.list_id)
    (hne : cur.sort_order ≠ nb.sort_order) :
    ({ s with sections :=
        (setSectionOrder (setSectionOrder s.sections cur.id nb.sort_order) nb.id
          cur.sort_order) } : Store).Sound := by
  have hidne : cur.id ≠ nb.id := by
    intro hid
    have := List.inj_on_of_nodup_map h.2.1.section_ids_nodup hcur hnb hid
    exact hne (by rw [this])
  have hmap : setSectionOrder (setSectionOrder s.sections cur.id nb.sort_order) nb.id
      cur.sort_order = s.sections.map (fun x =>
        (fun y : DbSection => if y.id == nb.id then { y with sort_order := cur.sort_order } else y)
          ((fun y : DbSection => if y.id == cur.id then { y with sort_order := nb.sort_order }
            else y) x)) := by
    simp only [setSectionOrder, List.map_map]
    rfl
  rw [hmap]
  have hid : ∀ x : DbSection,
      ((fun y : DbSection => if y.id == nb.id then { y with sort_order := cur.sort_order } else y)
          ((fun y : DbSection => if y.id == cur.id then { y with sort_order := nb.sort_order }
            else y) x)).id = x.id ∧
      ((fun y : DbSection => if y.id == nb.id then { y with sort_order := cur.sort_order } else y)
          ((fun y : DbSection => if y.id == cur.id then { y with sort_order := nb.sort_order }
            else y) x)).list_id = x.list_id := by
    intro x
    have a := setSection_keys ((fun y : DbSection =>
      if y.id == cur.id then { y with sort_order := nb.sort_order } else y) x) nb.id
      cur.sort_order
    have b := setSection_keys x cur.id nb.sort_order
    exact ⟨a.1.trans b.1, a.2.trans b.2⟩
  apply sound_set_sections s _ h
  · rw [List.map_map]
    have : ((fun x : DbSection => x.id) ∘ fun x =>
        (fun y : DbSection => if y.id == nb.id then { y with sort_order := cur.sort_order } else y)
          ((fun y : DbSection => if y.id == cur.id then { y with sort_order := nb.sort_order }
            else y) x)) = (fun x : DbSection => x.id) := by
      funext x
      exact (hid x).1
    rw [this]
    exact h.2.1.section_ids_nodup
  · intro x hx
    rw [List.mem_map] at hx
    obtain ⟨y, hy, rfl⟩ := hx
    exact ⟨y, hy, (hid y).1, (hid y).2⟩
  · apply scopeOf_swap (fun x : DbSection => x.list_id) (fun x => x.sort_order)
      (fun x => x.id) s.sections _ cur nb h.2.1.section_ids_nodup hcur hnb hpar
    · intro P
      exact h.2.2.2.1 P
    · intro x
      exact (hid x).2
    · simp [hidne]
    · simp [hidne]
    · intro x h1 h2
      simp [h1, h2]

theorem swap_items_sound (s : Store) (cur nb : DbItem) (h : s.Sound)
    (hcur : cur ∈ s.items) (hnb : nb ∈ s.items) (hpar : nb.section_id = cur.section_id)
    (hne : cur.sort_order ≠ nb.sort_order) :
    ({ s with items :=
        setItemOrder (setItemOrder s.items cur.id nb.sort_order) nb.id cur.sort_order }
      : Store).Sound := by
  have hidne : cur.id ≠ nb.id := by
    intro hid
    have := List.inj_on_of_nodup_map h.2.1.item_ids_nodup hcur hnb hid
    exact hne (by rw [this])
  have hmap : setItemOrder (setItemOrder s.items cur.id nb.sort_order) nb.id
      cur.sort_order = s.items.map (fun x =>
        (fun y : DbItem => if y.id == nb.id then { y with sort_order := cur.sort_order } else y)
          ((fun y : DbItem => if y.id == cur.id then { y with sort_order := nb.sort_order }
            else y) x)) := by
    simp only [setItemOrder, List.map_map]
    rfl
  rw [hmap]
  have hid : ∀ x : DbItem,
      ((fun y : DbItem => if y.id == nb.id then { y with sort_order := cur.sort_order } else y)
          ((fun y : DbItem => if y.id == cur.id then { y with sort_order := nb.sort_order }
            else y) x)).id = x.id ∧
      ((fun y : DbItem => if y.id == nb.id then { y with sort_order := cur.sort_order } else y)
          ((fun y : DbItem => if y.id == cur.id then { y with sort_order := nb.sort_order }
            else y) x)).section_id = x.section_id := by
    intro x
    have a := setItem_keys ((fun y : DbItem =>
      if y.id == cur.id then { y with sort_order := nb.sort_order } else y) x) nb.id
      cur.sort_order
    have b := setItem_keys x cur.id nb.sort_order
    exact ⟨a.1.trans b.1, a.2.trans b.2⟩
  apply sound_set_items s _ h
  · rw [List.map_map]
    have : ((fun x : DbItem => x.id) ∘ fun x =>
        (fun y : DbItem => if y.id == nb.id then { y with sort_order := cur.sort_order } else y)
          ((fun y : DbItem => if y.id == cur.id then { y with sort_order := nb.sort_order }
            else y) x)) = (fun x : DbItem => x.id) := by
      funext x
      exact (hid x).1
    rw [this]
    exact h.2.1.item_ids_nodup
  · intro x hx
    rw [List.mem_map] at hx
    obtain ⟨y, hy, rfl⟩ := hx
    rw [(hid y).1, (hid y).2]
    exact ⟨h.2.1.item_ids_lt y hy, h.1.item_parent_lt y hy⟩
  · apply scopeOf_swap (fun x : DbItem => x.section_id) (fun x => x.sort_order)
      (fun x => x.id) s.items _ cur nb h.2.1.item_ids_nodup hcur hnb hpar
    · intro P
      exact h.2.2.2.2 P
    · intro x
      exact (hid x).2
    · simp [hidne]
    · simp [hidne]
    · intro x h1 h2
      simp [h1, h2]

theorem moveSectionUp_sound (s : Store) (id : Int) (h : s.Sound) :
    (s.moveSectionUp id).Sound := by
  unfold Store.moveSectionUp
  cases hf : s.findSection id with
  | none => exact h
  | some cur =>
    simp only
    cases hp : highestBy (fun x : DbSection => x.sort_order) (s.sections.filter (fun x =>
        x.list_id == cur.list_id && decide (x.sort_order < cur.sort_order))) with
    | none => exact h
    | some nb =>
      simp only
      have hnb := highestBy_mem _ _ _ hp
      simp only [List.mem_filter, Bool.and_eq_true, beq_iff_eq, decide_eq_true_eq] at hnb
      exact swap_sections_sound s cur nb h (findSection_some s id cur hf).1 hnb.1 hnb.2.1
        (by omega)

theorem moveSectionDown_sound (s : Store) (id : Int) (h : s.Sound) :
    (s.moveSectionDown id).Sound := by
  unfold Store.moveSectionDown
  cases hf : s.findSection id with
  | none => exact h
  | some cur =>
    simp only
    cases hp : lowestBy (fun x : DbSection => x.sort_order) (s.sections.filter (fun x =>
        x.list_id == cur.list_id && decide (x.sort_order > cur.sort_order))) with
    | none => exact h
    | some nb =>
      simp only
      have hnb := lowestBy_mem _ _ _ hp
      simp only [List.mem_filter, Bool.and_eq_true, beq_iff_eq, decide_eq_true_eq] at hnb
      exact swap_sections_sound s cur nb h (findSection_some s id cur hf).1 hnb.1 hnb.2.1
        (by omega)

theorem moveItemUp_sound (s : Store) (id : Int) (h : s.Sound) : (s.moveItemUp id).Sound := by
  unfold Store.moveItemUp
  cases hf : s.findItem id with
  | none => exact h
  | some cur =>
    simp only
    cases hp : highestBy (fun x : DbItem => x.sort_order) (s.items.filter (fun x =>
        x.section_id == cur.section_id && decide (x.sort_order < cur.sort_order))) with
    | none => exact h
    | some nb =>
      simp only
      have hnb := highestBy_mem _ _ _ hp
      simp only [List.mem_filter, Bool.and_eq_true, beq_iff_eq, decide_eq_true_eq] at hnb
      exact swap_items_sound s cur nb h (findItem_some s id cur hf).1 hnb.1 hnb.2.1 (by omega)

theorem moveItemDown_sound (s : Store) (id : Int) (h : s.Sound) :
    (s.moveItemDown id).Sound := by
  unfold Store.moveItemDown
  cases hf : s.findItem id with
  | none => exact h
  | some cur =>
    simp only
    cases hp : lowestBy (fun x : DbItem => x.sort_order) (s.items.filter (fun x =>
        x.section_id == cur.section_id && decide (x.sort_order > cur.sort_order))) with
    | none => exact h
    | some nb =>
      simp only
      have hnb := lowestBy_mem _ _ _ hp
      simp only [List.mem_filter, Bool.and_eq_true, beq_iff_eq, decide_eq_true_eq] at hnb
      exact swap_items_sound s cur nb h (findItem_some s id cur hf).1 hnb.1 hnb.2.1 (by omega)

/-! ## Lemmas: creating sections and items -/

theorem dense_append_next (os : List Int) (h : Dense os) : Dense (os ++ [maxOrder os + 1]) := by
  have := dense_append_block os h 1
  simpa using this

theorem scopeOf_append {α : Type} (par ord : α → Int) (ls : List α) (x : α) (P : Int) :
    scopeOf par ord (ls ++ [x]) P =
      scopeOf par ord ls P ++ (if par x = P then [ord x] else []) := by
  unfold scopeOf
  rw [List.filter_append, List.map_append]
  by_cases hx : par x = P
  · simp [hx]
  · simp [hx]

theorem insertSection_sound (s : Store) (listID : Int) (name : String) (h : s.Sound)
    (hL : listID < s.nextListID) :
    (s.insertSection listID name (maxOrder (s.sectionOrders listID) + 1)).2.Sound := by
  obtain ⟨⟨k1, k2, k3, k4, k5⟩, ⟨r1, r2, r3⟩, d1, d2, d3⟩ := h
  refine ⟨⟨k1, k2, ?_, ?_, ?_⟩, ⟨?_, r2, r3⟩, d1, ?_, d3⟩
  · intro x hx
    simp only [Store.insertSection, List.mem_append, List.mem_singleton] at hx ⊢
    rcases hx with hx | rfl
    · have := k3 x hx; omega
    · simp
  · intro x hx
    simp only [Store.insertSection, List.mem_append, List.mem_singleton] at hx ⊢
    rcases hx with hx | rfl
    · exact k4 x hx
    · exact hL
  · intro x hx
    have := k5 x hx
    simp only [Store.insertSection]
    omega
  · simp only [Store.insertSection, List.map_append, List.map_cons, List.map_nil]
    rw [List.nodup_append]
    refine ⟨r1, by simp, ?_⟩
    intro a ha hb
    simp only [List.mem_singleton] at hb
    simp only [List.mem_map] at ha
    obtain ⟨x, hx, rfl⟩ := ha
    have := k3 x hx
    omega
  · intro L
    rw [sectionOrders_scopeOf]
    simp only [Store.insertSection]
    rw [scopeOf_append]
    by_cases hLL : listID = L
    · subst hLL
      simp only [if_true]
      exact dense_append_next _ (d2 listID)
    · simp only [hLL, if_false, List.append_nil]
      exact d2 L

theorem insertItem_sound (s : Store) (sectionID : Int) (name description : String)
    (h : s.Sound) (hS : sectionID < s.nextSectionID) :
    (s.insertItem sectionID name description (maxOrder (s.itemOrders sectionID) + 1)).2.Sound := by
  obtain ⟨⟨k1, k2, k3, k4, k5⟩, ⟨r1, r2, r3⟩, d1, d2, d3⟩ := h
  refine ⟨⟨k1, k2, k3, k4, ?_⟩, ⟨r1, ?_, ?_⟩, d1, d2, ?_⟩
  · intro x hx
    simp only [Store.insertItem, List.mem_append, List.mem_singleton] at hx ⊢
    rcases hx with hx | rfl
    · exact k5 x hx
    · exact hS
  · simp only [Store.insertItem, List.map_append, List.map_cons, List.map_nil]
    rw [List.nodup_append]
    refine ⟨r2, by simp, ?_⟩
    intro a ha hb
    simp only [List.mem_singleton] at hb
    simp only [List.mem_map] at ha
    obtain ⟨x, hx, rfl⟩ := ha
    have := r3 x hx
    omega
  · intro x hx
    simp only [Store.insertItem, List.mem_append, List.mem_singleton] at hx ⊢
    rcases hx with hx | rfl
    · have := r3 x hx; omega
    · simp
  · intro S
    rw [itemOrders_scopeOf]
    simp only [Store.insertItem]
    rw [scopeOf_append]
    by_cases hSS : sectionID = S
    · subst hSS
      simp only [if_true]
      exact dense_append_next _ (d3 sectionID)
    · simp only [hSS, if_false, List.append_nil]
      exact d3 S

theorem saveItemHistory_sound (s : Store) (name : String) (sectionID : Int) (h : s.Sound) :
    (s.saveItemHistory name sectionID).Sound := by
  obtain ⟨⟨k1, k2, k3, k4, k5⟩, ⟨r1, r2, r3⟩, d1, d2, d3⟩ := h
  exact ⟨⟨k1, k2, k3, k4, k5⟩, ⟨r1, r2, r3⟩, d1, d2, d3⟩

theorem createSection_sound (s : Store) (req : CreateSectionRequest) (h : s.Sound) :
    (s.createSection req).Sound := by
  unfold Store.createSection
  split
  · exact h
  · cases hf : s.findList req.list_id with
    | none => exact h
    | some l =>
      simp only
      obtain ⟨hmem, hid⟩ := findList_some s _ l hf
      exact insertSection_sound s _ _ h (by rw [← hid]; exact h.1.list_ids_lt l hmem)

theorem createItem_sound (s : Store) (req : CreateItemRequest) (h : s.Sound) :
    (s.createItem req).Sound := by
  unfold Store.createItem
  split
  · exact h
  · cases hf : s.findSection req.section_id with
    | none => exact h
    | some x =>
      simp only
      obtain ⟨hmem, hid⟩ := findSection_some s _ x hf
      exact saveItemHistory_sound _ _ _
        (insertItem_sound s _ _ _ h (by rw [← hid]; exact h.1.section_ids_lt x hmem))

/-! ## Lemmas: compaction, deleting sections and items -/

theorem scopeOf_compact {α : Type} (par ord : α → Int) (ls : List α) (P : Int) (f : α → α)
    (hpar : ∀ x, par (f x) = par x)
    (hf : ∀ x, par x = P → ord (f x) = rank (scopeOf par ord ls P) (ord x))
    (hf2 : ∀ x, par x ≠ P → f x = x)
    (hnd : (scopeOf par ord ls P).Nodup)
    (hd : ∀ Q, Q ≠ P → Dense (scopeOf par ord ls Q)) :
    ∀ Q, Dense (scopeOf par ord (ls.map f) Q) := by
  intro Q
  by_cases hQ : Q = P
  · subst hQ
    rw [scopeOf_map par ord ls Q f (rank (scopeOf par ord ls Q)) (fun x _ => hpar x)
      (fun x _ hx => hf x hx)]
    exact dense_rank _ hnd
  · rw [scopeOf_map_same par ord ls Q f (fun x _ => hpar x)]
    · exact hd Q hQ
    · intro x _ hx
      rw [hf2 x (by rw [hx]; exact hQ)]

theorem compactSections_facts (xs : List DbSection) (L : Int)
    (hnd : (scopeOf (fun x : DbSection => x.list_id) (fun x => x.sort_order) xs L).Nodup)
    (hd : ∀ Q, Q ≠ L →
      Dense (scopeOf (fun x : DbSection => x.list_id) (fun x => x.sort_order) xs Q)) :
    (compactSections xs L).map (fun x => x.id) = xs.map (fun x => x.id) ∧
      (∀ x ∈ compactSections xs L, ∃ y ∈ xs, x.id = y.id ∧ x.list_id = y.list_id) ∧
      ∀ Q, Dense (scopeOf (fun x : DbSection => x.list_id) (fun x => x.sort_order)
        (compactSections xs L) Q) := by
  have hkeys : ∀ x : DbSection,
      (if x.list_id == L then
        { x with sort_order :=
            (rank ((xs.filter (fun y => y.list_id == L)).map (fun y => y.sort_order))
              x.sort_order) }
       else x).id = x.id ∧
      (if x.list_id == L then
        { x with sort_order :=
            (rank ((xs.filter (fun y => y.list_id == L)).map (fun y => y.sort_order))
              x.sort_order) }
       else x).list_id = x.list_id := by
    intro x
    split <;> exact ⟨rfl, rfl⟩
  refine ⟨?_, ?_, ?_⟩
  · unfold compactSections
    rw [List.map_map]
    apply List.map_congr_left
    intro x _
    exact (hkeys x).1
  · intro x hx
    unfold compactSections at hx
    rw [List.mem_map] at hx
    obtain ⟨y, hy, rfl⟩ := hx
    exact ⟨y, hy, (hkeys y).1, (hkeys y).2⟩
  · unfold compactSections
    apply scopeOf_compact (fun x : DbSection => x.list_id) (fun x => x.sort_order) xs L _
      (fun x => (hkeys x).2) ?_ ?_ hnd hd
    · intro x hx
      simp only at hx
      simp only [hx, beq_self_eq_true, if_true]
      rfl
    · intro x hx
      simp only at hx
      simp [hx]

theorem compactItems_facts (xs : List DbItem) (S : Int)
    (hnd : (scopeOf (fun x : DbItem => x.section_id) (fun x => x.sort_order) xs S).Nodup)
    (hd : ∀ Q, Q ≠ S →
      Dense (scopeOf (fun x : DbItem => x.section_id) (fun x => x.sort_order) xs Q)) :
    (compactItems xs S).map (fun x => x.id) = xs.map (fun x => x.id) ∧
      (∀ x ∈ compactItems xs S, ∃ y ∈ xs, x.id = y.id ∧ x.section_id = y.section_id) ∧
      ∀ Q, Dense (scopeOf (fun x : DbItem => x.section_id) (fun x => x.sort_order)
        (compactItems xs S) Q) := by
  have hkeys : ∀ x : DbItem,
      (if x.section_id == S then
        { x with sort_order :=
            (rank ((xs.filter (fun y => y.section_id == S)).map (fun y => y.sort_order))
              x.sort_order) }
       else x).id = x.id ∧
      (if x.section_id == S then
        { x with sort_order :=
            (rank ((xs.filter (fun y => y.section_id == S)).map (fun y => y.sort_order))
              x.sort_order) }
       else x).section_id = x.section_id := by
    intro x
    split <;> exact ⟨rfl, rfl⟩
  refine ⟨?_, ?_, ?_⟩
  · unfold compactItems
    rw [List.map_map]
    apply List.map_congr_left
    intro x _
    exact (hkeys x).1
  · intro x hx
    unfold compactItems at hx
    rw [List.mem_map] at hx
    obtain ⟨y, hy, rfl⟩ := hx
    exact ⟨y, hy, (hkeys y).1, (hkeys y).2⟩
  · unfold compactItems
    apply scopeOf_compact (fun x : DbItem => x.section_id) (fun x => x.sort_order) xs S _
      (fun x => (hkeys x).2) ?_ ?_ hnd hd
    · intro x hx
      simp only at hx
      simp only [hx, beq_self_eq_true, if_true]
      rfl
    · intro x hx
      simp only at hx
      simp [hx]

theorem deleteSection_sound (s : Store) (id : Int) (h : s.Sound) :
    (s.deleteSection id).Sound := by
  unfold Store.deleteSection
  cases hf : s.findSection id with
  | none => exact h
  | some cur =>
    simp only
    obtain ⟨hcur, hcid⟩ := findSection_some s id cur hf
    have hidinj : ∀ a ∈ s.sections, ∀ b ∈ s.sections, a.id = b.id → a = b :=
      fun a ha b hb e => List.inj_on_of_nodup_map h.2.1.section_ids_nodup ha hb e
    have h1 : ({ s with items := s.items.filter (fun x => !(x.section_id == id)) }
        : Store).Sound := by
      apply sound_set_items s _ h
      · exact h.2.1.item_ids_nodup.sublist ((List.filter_sublist _).map _)
      · intro x hx
        rw [List.mem_filter] at hx
        exact ⟨h.2.1.item_ids_lt x hx.1, h.1.item_parent_lt x hx.1⟩
      · intro S
        by_cases hS : S = id
        · subst hS
          rw [scopeOf_filter_nil]
          · exact dense_nil
          · intro x _ hx
            simp only at hx
            simp [hx]
        · rw [scopeOf_filter_same]
          · exact h.2.2.2.2 S
          · intro x _ hx
            simp only at hx
            simp only [hx, Bool.not_eq_eq_eq_not, Bool.not_true, beq_eq_false_iff_ne, ne_eq]
            exact hS
    obtain ⟨c1, c2, c3⟩ := compactSections_facts
      (s.sections.filter (fun x => !(x.id == id))) cur.list_id
      ((dense_nodup _ (h.2.2.2.1 cur.list_id)).sublist (scopeOf_filter_sublist _ _ _ _ _))
      (by
        intro Q hQ
        rw [scopeOf_filter_same]
        · exact h.2.2.2.1 Q
        · intro x hx hpx
          simp only at hpx
          simp only [Bool.not_eq_eq_eq_not, Bool.not_true, beq_eq_false_iff_ne, ne_eq]
          intro hxid
          have : x = cur := hidinj x hx cur hcur (by rw [hxid, hcid])
          subst this
          exact hQ hpx.symm)
    have h2 := sound_set_sections
      ({ s with items := s.items.filter (fun x => !(x.section_id == id)) } : Store)
      (compactSections (s.sections.filter (fun x => !(x.id == id))) cur.list_id) h1
      (by rw [c1]; exact h.2.1.section_ids_nodup.sublist ((List.filter_sublist _).map _))
      (by
        intro x hx
        obtain ⟨y, hy, e1, e2⟩ := c2 x hx
        rw [List.mem_filter] at hy
        exact ⟨y, hy.1, e1, e2⟩)
      c3
    exact h2

theorem deleteItem_sound (s : Store) (id : Int) (h : s.Sound) : (s.deleteItem id).Sound := by
  unfold Store.deleteItem
  cases hf : s.findItem id with
  | none => exact h
  | some cur =>
    simp only
    obtain ⟨hcur, hcid⟩ := findItem_some s id cur hf
    have hidinj : ∀ a ∈ s.items, ∀ b ∈ s.items, a.id = b.id → a = b :=
      fun a ha b hb e => List.inj_on_of_nodup_map h.2.1.item_ids_nodup ha hb e
    obtain ⟨c1, c2, c3⟩ := compactItems_facts
      (s.items.filter (fun x => !(x.id == id))) cur.section_id
      ((dense_nodup _ (h.2.2.2.2 cur.section_id)).sublist (scopeOf_filter_sublist _ _ _ _ _))
      (by
        intro Q hQ
        rw [scopeOf_filter_same]
        · exact h.2.2.2.2 Q
        · intro x hx hpx
          simp only at hpx
          simp only [Bool.not_eq_eq_eq_not, Bool.not_true, beq_eq_false_iff_ne, ne_eq]
          intro hxid
          have : x = cur := hidinj x hx cur hcur (by rw [hxid, hcid])
          subst this
          exact hQ hpx.symm)
    apply sound_set_items s _ h
    · rw [c1]; exact h.2.1.item_ids_nodup.sublist ((List.filter_sublist _).map _)
    · intro x hx
      obtain ⟨y, hy, e1, e2⟩ := c2 x hx
      rw [List.mem_filter] at hy
      rw [e1, e2]
      exact ⟨h.2.1.item_ids_lt y hy.1, h.1.item_parent_lt y hy.1⟩
    · exact c3

/-! ## Lemmas: moving an item to another section -/

theorem scopeOf_cons {α : Type} (par ord : α → Int) (x : α) (ls : List α) (P : Int) :
    scopeOf par ord (x :: ls) P =
      (if par x = P then [ord x] else []) ++ scopeOf par ord ls P := by
  unfold scopeOf
  by_cases hx : par x = P
  · simp [hx]
  · simp [hx]

theorem moveItem_scopes (s : Store) (cur : DbItem) (T : Int) (h : s.Sound)
    (hcur : cur ∈ s.items) :
    (scopeOf (fun x : DbItem => x.section_id) (fun x => x.sort_order)
      (s.items.map (fun x =>
        if x.id == cur.id then
          { x with section_id := T, sort_order := maxOrder (s.itemOrders T) + 1 }
        else x)) cur.section_id).Nodup ∧
    ∀ Q, Q ≠ cur.section_id →
      Dense (scopeOf (fun x : DbItem => x.section_id) (fun x => x.sort_order)
        (s.items.map (fun x =>
          if x.id == cur.id then
            { x with section_id := T, sort_order := maxOrder (s.itemOrders T) + 1 }
          else x)) Q) := by
  obtain ⟨l1, l2, hl⟩ := List.append_of_mem hcur
  have hperm : s.items.Perm (cur :: (l1 ++ l2)) := by
    rw [hl]
    exact List.perm_middle
  have hnd : ((cur :: (l1 ++ l2)).map (fun x : DbItem => x.id)).Nodup :=
    (hperm.map _).nodup_iff.mp h.2.1.item_ids_nodup
  have hrest : ∀ y ∈ l1 ++ l2, y.id ≠ cur.id := by
    intro y hy hyid
    simp only [List.map_cons, List.nodup_cons] at hnd
    exact hnd.1 (by rw [← hyid]; exact List.mem_map_of_mem _ hy)
  have hmap : (s.items.map (fun x =>
        if x.id == cur.id then
          { x with section_id := T, sort_order := maxOrder (s.itemOrders T) + 1 }
        else x)).Perm
      ({ cur with section_id := T, sort_order := maxOrder (s.itemOrders T) + 1 } ::
        (l1 ++ l2)) := by
    refine (hperm.map _).trans ?_
    simp only [List.map_cons, beq_self_eq_true, if_true]
    refine List.Perm.cons _ ?_
    have : (l1 ++ l2).map (fun x : DbItem =>
        if x.id == cur.id then
          { x with section_id := T, sort_order := maxOrder (s.itemOrders T) + 1 }
        else x) = l1 ++ l2 := by
      conv_rhs => rw [← List.map_id (l1 ++ l2)]
      apply List.map_congr_left
      intro y hy
      have := hrest y hy
      simp [this]
    rw [this]
  have hold : ∀ Q, (scopeOf (fun x : DbItem => x.section_id) (fun x => x.sort_order)
      s.items Q).Perm
      ((if cur.section_id = Q then [cur.sort_order] else []) ++
        scopeOf (fun x : DbItem => x.section_id) (fun x => x.sort_order) (l1 ++ l2) Q) := by
    intro Q
    have := scopeOf_perm (fun x : DbItem => x.section_id) (fun x => x.sort_order) Q hperm
    rwa [scopeOf_cons] at this
  have hnew : ∀ Q, (scopeOf (fun x : DbItem => x.section_id) (fun x => x.sort_order)
      (s.items.map (fun x =>
        if x.id == cur.id then
          { x with section_id := T, sort_order := maxOrder (s.itemOrders T) + 1 }
        else x)) Q).Perm
      ((if T = Q then [maxOrder (s.itemOrders T) + 1] else []) ++
        scopeOf (fun x : DbItem => x.section_id) (fun x => x.sort_order) (l1 ++ l2) Q) := by
    intro Q
    have := scopeOf_perm (fun x : DbItem => x.section_id) (fun x => x.sort_order) Q hmap
    rwa [scopeOf_cons] at this
  have hd := h.2.2.2.2
  constructor
  · rw [(hnew cur.section_id).nodup_iff]
    have h0 := (hold cur.section_id).nodup_iff.mp (dense_nodup _ (hd cur.section_id))
    simp only [if_true, List.singleton_append, List.nodup_cons] at h0
    by_cases hT : T = cur.section_id
    · simp only [hT, if_true, List.singleton_append, List.nodup_cons]
      refine ⟨?_, h0.2⟩
      intro hm
      have hm2 : maxOrder (s.itemOrders cur.section_id) + 1 ∈ s.itemOrders cur.section_id := by
        rw [itemOrders_scopeOf]
        apply (hold cur.section_id).mem_iff.mpr
        simp only [if_true, List.singleton_append, List.mem_cons]
        right
        exact hm
      have := maxOrder_ge _ _ hm2
      omega
    · simp only [hT, if_false, List.nil_append]
      exact h0.2
  · intro Q hQ
    have h0 := hold Q
    have hQ2 : ¬ cur.section_id = Q := fun e => hQ e.symm
    simp only [hQ2, if_false, List.nil_append] at h0
    apply dense_perm (hnew Q).symm
    by_cases hT : T = Q
    · subst hT
      simp only [if_true, List.singleton_append]
      have h1 := dense_append_next _ (hd T)
      refine dense_perm ?_ h1
      rw [itemOrders_scopeOf]
      exact (List.perm_append_singleton _ _).trans (List.Perm.cons _ h0)
    · simp only [hT, if_false, List.nil_append]
      exact dense_perm h0 (hd Q)

theorem moveItem_sound (s : Store) (id : Int) (req : MoveItemRequest) (h : s.Sound) :
    (s.moveItem id req).Sound := by
  unfold Store.moveItem
  cases hf : s.findItem id with
  | none => exact h
  | some cur =>
    cases hg : s.findSection req.section_id with
    | none => exact h
    | some sec =>
      simp only
      obtain ⟨hcur, hcid⟩ := findItem_some s id cur hf
      obtain ⟨hsec, hsid⟩ := findSection_some s _ sec hg
      have hT : req.section_id < s.nextSectionID := by
        rw [← hsid]; exact h.1.section_ids_lt sec hsec
      subst hcid
      obtain ⟨m1, m2⟩ := moveItem_scopes s cur req.section_id h hcur
      obtain ⟨c1, c2, c3⟩ := compactItems_facts _ cur.section_id m1 m2
      have hkeys : ∀ x : DbItem,
          (if x.id == cur.id then
            { x with section_id := req.section_id,
                     sort_order := maxOrder (s.itemOrders req.section_id) + 1 }
           else x).id = x.id ∧
          ((if x.id == cur.id then
            { x with section_id := req.section_id,
                     sort_order := maxOrder (s.itemOrders req.section_id) + 1 }
           else x).section_id = x.section_id ∨
           (if x.id == cur.id then
            { x with section_id := req.section_id,
                     sort_order := maxOrder (s.itemOrders req.section_id) + 1 }
           else x).section_id = req.section_id) := by
        intro x
        split
        · exact ⟨rfl, Or.inr rfl⟩
        · exact ⟨rfl, Or.inl rfl⟩
      apply sound_set_items s _ h
      · rw [c1, List.map_map]
        have : ((fun x : DbItem => x.id) ∘ fun x =>
            if x.id == cur.id then
              { x with section_id := req.section_id,
                       sort_order := maxOrder (s.itemOrders req.section_id) + 1 }
            else x) = (fun x : DbItem => x.id) := by
          funext x
          exact (hkeys x).1
        rw [this]
        exact h.2.1.item_ids_nodup
      · intro x hx
        obtain ⟨y, hy, e1, e2⟩ := c2 x hx
        rw [List.mem_map] at hy
        obtain ⟨z, hz, rfl⟩ := hy
        rw [e1, e2, (hkeys z).1]
        refine ⟨h.2.1.item_ids_lt z hz, ?_⟩
        rcases (hkeys z).2 with e | e
        · rw [e]; exact h.1.item_parent_lt z hz
        · rw [e]; exact hT
      · exact c3

/-! ## Lemmas: every route keeps the store sound -/

theorem moveListUp_rows (s s1 : Store) (id : Int) (h : s.moveListUp id = some s1) :
    s1.sections = s.sections ∧ s1.items = s.items ∧ s1.nextItemID = s.nextItemID := by
  unfold Store.moveListUp at h
  cases hf : s.findList id with
  | none => simp [hf] at h
  | some cur =>
    simp only [hf] at h
    cases hp : pickHighest (s.lists.filter (fun l => l.sort_order < cur.sort_order)) with
    | none =>
      simp only [hp, Option.some.injEq] at h
      subst h
      exact ⟨rfl, rfl, rfl⟩
    | some nb =>
      simp only [hp, Option.some.injEq] at h
      subst h
      exact ⟨rfl, rfl, rfl⟩

theorem moveListDown_rows (s s1 : Store) (id : Int) (h : s.moveListDown id = some s1) :
    s1.sections = s.sections ∧ s1.items = s.items ∧ s1.nextItemID = s.nextItemID := by
  unfold Store.moveListDown at h
  cases hf : s.findList id with
  | none => simp [hf] at h
  | some cur =>
    simp only [hf] at h
    cases hp : pickLowest (s.lists.filter (fun l => l.sort_order > cur.sort_order)) with
    | none =>
      simp only [hp, Option.some.injEq] at h
      subst h
      exact ⟨rfl, rfl, rfl⟩
    | some nb =>
      simp only [hp, Option.some.injEq] at h
      subst h
      exact ⟨rfl, rfl, rfl⟩

theorem serve_sound (fault : Fault) (s : Store) (rq : Request) (h : s.Sound) :
    (api.serve fault s rq).store.Sound := by
  obtain ⟨hk, hr, hd⟩ := h
  cases rq with
  | CreateList body =>
    simp only [api.serve]
    rcases CreateList_cases fault s body with ⟨_, _, hs, _⟩ | ⟨req, _, h⟩ | ⟨req, _, _, _, _, h⟩
    · rw [hs]; exact ⟨hk, hr, hd⟩
    · rw [h]; exact ⟨hk, hr, hd⟩
    · rw [h]
      exact ⟨insertList_keys s _ _ hk, rowkeys_of_same s _ hr rfl rfl rfl,
        insertList_dense s _ _ hd⟩
  | UpdateList id body =>
    simp only [api.serve]
    rcases UpdateList_store fault s id body with h | ⟨i, name, icon, h⟩
    · rw [h]; exact ⟨hk, hr, hd⟩
    · rw [h]
      have := updateList_keeps s i name icon hk hd
      exact ⟨this.1, rowkeys_of_same s _ hr rfl rfl rfl, this.2⟩
  | DeleteList id =>
    simp only [api.serve]
    rcases DeleteList_store fault s id with h | ⟨i, h⟩
    · rw [h]; exact ⟨hk, hr, hd⟩
    · rw [h]; exact deleteList_sound s i ⟨hk, hr, hd⟩
  | GetListSections id =>
    simp only [api.serve]
    rw [GetListSections_store]
    exact ⟨hk, hr, hd⟩
  | MoveListUp id =>
    simp only [api.serve]
    rcases MoveListUp_cases fault s id with ⟨_, h⟩ | ⟨i, _, h⟩ | ⟨i, _, _, h⟩ | ⟨i, _, h⟩ |
      ⟨i, s1, l, _, _, hm, _, _, h⟩
    · rw [h]; exact ⟨hk, hr, hd⟩
    · rw [h]; exact ⟨hk, hr, hd⟩
    · rw [h]; exact ⟨hk, hr, hd⟩
    · rw [h]; exact ⟨hk, hr, hd⟩
    · rw [h]
      have := moveListUp_keeps s s1 i hk hd hm
      obtain ⟨e1, e2, e3⟩ := moveListUp_rows s s1 i hm
      exact ⟨this.1, rowkeys_of_same s s1 hr e1 e2 e3, this.2⟩
  | MoveListDown id =>
    simp only [api.serve]
    rcases MoveListDown_cases fault s id with ⟨_, h⟩ | ⟨i, _, h⟩ | ⟨i, _, _, h⟩ | ⟨i, _, h⟩ |
      ⟨i, s1, l, _, _, hm, _, _, h⟩
    · rw [h]; exact ⟨hk, hr, hd⟩
    · rw [h]; exact ⟨hk, hr, hd⟩
    · rw [h]; exact ⟨hk, hr, hd⟩
    · rw [h]; exact ⟨hk, hr, hd⟩
    · rw [h]
      have := moveListDown_keeps s s1 i hk hd hm
      obtain ⟨e1, e2, e3⟩ := moveListDown_rows s s1 i hm
      exact ⟨this.1, rowkeys_of_same s s1 hr e1 e2 e3, this.2⟩
  | BatchCreate body =>
    simp only [api.serve]
    have := BatchCreate_keeps fault s body hk hd
    exact ⟨this.1, BatchCreate_rowkeys fault s body hk hr, this.2⟩

theorem call_sound (s : Store) (c : Call) (h : s.Sound) : (api.call s c).Sound := by
  cases c with
  | served fault rq => exact serve_sound fault s rq h
  | CreateSection req => exact createSection_sound s req h
  | DeleteSection id => exact deleteSection_sound s id h
  | MoveSectionUp id => exact moveSectionUp_sound s id h
  | MoveSectionDown id => exact moveSectionDown_sound s id h
  | CreateItem req => exact createItem_sound s req h
  | DeleteItem id => exact deleteItem_sound s id h
  | MoveItem id req => exact moveItem_sound s id req h
  | MoveItemUp id => exact moveItemUp_sound s id h
  | MoveItemDown id => exact moveItemDown_sound s id h

theorem run_sound (s : Store) (calls : List Call) (h : s.Sound) : (api.run s calls).Sound := by
  induction calls generalizing s with
  | nil => exact h
  | cons c rest ih =>
    simp only [api.run]
    exact ih _ (call_sound s c h)

theorem exEmpty_keys : exEmpty.KeysOK :=
  ⟨by simp [exEmpty], by simp [exEmpty], by simp [exEmpty], by simp [exEmpty],
    by simp [exEmpty]⟩

theorem exEmpty_rowkeys : exEmpty.RowKeysOK :=
  ⟨by simp [exEmpty], by simp [exEmpty], by simp [exEmpty]⟩

theorem exEmpty_dense : exEmpty.AllDense :=
  ⟨by simpa [exEmpty, Store.listOrders] using dense_nil,
    fun _ => by simpa [exEmpty, Store.sectionOrders] using dense_nil,
    fun _ => by simpa [exEmpty, Store.itemOrders] using dense_nil⟩

/-! ## C2: dense sort orders -/

/-- C2: starting from a store with key integrity (unique primary keys, ids and
parent references below the auto-increment counters) in which every sibling
scope (all lists; the sections of each list; the items of each section) has
the sort orders `0, ..., n-1`, after any sequence of calls of the API, each
successful or not (the list routes and the batch route under any fault
schedule; create, move up, move down and delete of sections and items, and the
move of an item to another section), every sibling scope has the sort orders
`0, ..., m-1` for its new size `m` again, and key integrity holds again.  The
list and batch handlers are those of the sources; the query layer and the
section and item routes are modelled from the specification, deletes with the
order compaction its invariant asks for. -/
theorem dense_kept_by_every_call (s : Store) (calls : List Call)
    (hk : s.KeysOK) (hr : s.RowKeysOK) (hd : s.AllDense) :
    (api.run s calls).KeysOK ∧ (api.run s calls).RowKeysOK ∧ (api.run s calls).AllDense :=
  run_sound s calls ⟨hk, hr, hd⟩

/-- Witness for C2: from the empty store the calls `exOps` (creates, batches,
moves and the deletes of an item, a section and a list) lead to a store with
two lists at orders 0 and 1, one section at order 0 in list 3 and three items
at orders 2, 0, 1 in section 2, and every scope of it is dense. -/
theorem dense_kept_by_every_call_witness :
    exEmpty.KeysOK ∧ exEmpty.RowKeysOK ∧ exEmpty.AllDense ∧
      (api.run exEmpty (exOps.take 14)).listOrders = [1, 0, 2] ∧
      (api.run exEmpty exOps).listOrders = [0, 1] ∧
      (api.run exEmpty exOps).sectionOrders 3 = [0] ∧
      (api.run exEmpty exOps).itemOrders 2 = [2, 0, 1] ∧
      (api.run exEmpty exOps).AllDense :=
  ⟨exEmpty_keys, exEmpty_rowkeys, exEmpty_dense, by decide, by decide, by decide, by decide,
    (dense_kept_by_every_call exEmpty exOps exEmpty_keys exEmpty_rowkeys exEmpty_dense).2.2⟩

end Koffan
